import Mathlib

/-!
GammaLib FITS layer: header cards and table columns.

A shallow embedding of `GFitsHeader` (src/src/fits/GFitsHeader.cpp) and of
`GFitsTableLongLongCol` (src/src/fits/GFitsTableLongLongCol.cpp), followed by
the properties established for them.

Conventions of the embedding.
* A C++ pointer to a heap array is an `Option (List _)`: `none` is `NULL`.
* A pointer into `m_card` (the result of `card_ptr`) is the index of the slot.
* C++ `int` values are mathematical integers; the arithmetic of the embedded
  functions is assumed to stay inside the range of `int` (signed overflow is
  undefined in C++ and has no meaning here).
* A C++ exception is the `error` branch of `Except`.
-/

namespace GammaLib

/-! ## Header cards -/

/-- Modelled from the spec: the value of a header card, which the spec gives
as a tagged union of string, double, long and bool (the class
GFitsHeaderCard is not part of the sources). -/
inductive CardValue where
  | string (s : String)
  | real (x : Float)
  | integer (n : Int)
  | logical (b : Bool)

/-- Modelled from the spec: GFitsHeaderCard, one metadata entry made of a
keyword, a typed value and a comment (the class itself is not part of the
sources; `keyname` is the result of its `keyname()` method). -/
structure GFitsHeaderCard where
  keyname : String
  value : CardValue
  comment : String

/-- Modelled from the spec: a default-constructed card, as produced for each
slot by `new GFitsHeaderCard[n]` (the constructor is not part of the sources;
it is taken to be the blank card). -/
instance : Inhabited GFitsHeaderCard := ⟨⟨"", CardValue.string "", ""⟩⟩

/-- The typed conversions `GFitsHeaderCard::string()`, `real()` and
`integer()`. Their code is not part of the sources, so the header functions
take them as a parameter. -/
structure CardConversions where
  string : GFitsHeaderCard → String
  real : GFitsHeaderCard → Float
  integer : GFitsHeaderCard → Int

/-! ## GFitsHeader -/

/-- The members of GFitsHeader: `m_num_cards` and the card array `m_card`. -/
structure GFitsHeader where
  m_num_cards : Nat
  m_card : Option (List GFitsHeaderCard)

namespace GFitsHeader

/-- GFitsHeader::init_members: no cards, `m_card = NULL`. -/
def init_members : GFitsHeader :=
  { m_num_cards := 0, m_card := none }

/-- The search loop of GFitsHeader::card_ptr: `todo` iterations are left and
the loop variable is `i`; the slot `m_card[i]` is compared with `keyname`
using the exact string equality of `std::string`, and the first hit ends the
loop. A read behind the end of the array, which is undefined in C++ and
cannot happen in a `WellFormed` header, ends the search without a hit. -/
def card_ptr_loop (m_card : List GFitsHeaderCard) (keyname : String) : Nat → Nat → Option Nat
  | 0, _ => none
  | todo + 1, i =>
    match m_card[i]? with
    | some c => if c.keyname = keyname then some i else card_ptr_loop m_card keyname todo (i + 1)
    | none => none

/-- GFitsHeader::card_ptr: index of the first of the `m_num_cards` leading
slots whose keyword equals `keyname`, or `none` (the NULL pointer). -/
def card_ptr (h : GFitsHeader) (keyname : String) : Option Nat :=
  card_ptr_loop (h.m_card.getD []) keyname h.m_num_cards 0

/-- Modelled from the spec: GFitsHeader::card(keyname), the lookup by name
used by `update` and by the typed getters. It is declared in GFitsHeader.hpp,
which is not part of the sources; it hands the search to `card_ptr`. -/
def card (h : GFitsHeader) (keyname : String) : Option Nat :=
  h.card_ptr keyname

/-- The copy loop of GFitsHeader::update, `for (i = 0; i < n; ++i) tmp[i] =
m_card[i]`, after `n` iterations. A read behind the end of `m_card`
(undefined in C++, excluded by `WellFormed`) gives the blank card. -/
def copy_cards (m_card : List GFitsHeaderCard) (tmp : List GFitsHeaderCard) : Nat → List GFitsHeaderCard
  | 0 => tmp
  | i + 1 => (copy_cards m_card tmp i).set i (m_card.getD i default)

/-- GFitsHeader::update. When the keyword is found the slot is overwritten.
Otherwise an array of `m_num_cards + 1` cards is allocated, the existing
cards are copied over and the card is stored in slot `m_num_cards`; the
member `m_num_cards` is not assigned on either path. -/
def update (h : GFitsHeader) (card : GFitsHeaderCard) : GFitsHeader :=
  match h.card card.keyname with
  | some ptr => { h with m_card := h.m_card.map (fun cs => cs.set ptr card) }
  | none =>
    let tmp : List GFitsHeaderCard := List.replicate (h.m_num_cards + 1) default
    let tmp := match h.m_card with
      | some old => copy_cards old tmp h.m_num_cards
      | none => tmp
    { h with m_card := some (tmp.set h.m_num_cards card) }

/-- The slot a card pointer refers to. -/
def deref (h : GFitsHeader) (ptr : Nat) : Option GFitsHeaderCard :=
  (h.m_card.getD [])[ptr]?

/-- GFitsHeader::string(keyname). -/
def string (cv : CardConversions) (h : GFitsHeader) (keyname : String) : String :=
  match (h.card keyname).bind h.deref with
  | some c => cv.string c
  | none => ""

/-- GFitsHeader::real(keyname). -/
def real (cv : CardConversions) (h : GFitsHeader) (keyname : String) : Float :=
  match (h.card keyname).bind h.deref with
  | some c => cv.real c
  | none => 0.0

/-- GFitsHeader::integer(keyname). -/
def integer (cv : CardConversions) (h : GFitsHeader) (keyname : String) : Int :=
  match (h.card keyname).bind h.deref with
  | some c => cv.integer c
  | none => 0

/-- The cards of the header: the slots `0 .. m_num_cards - 1` of `m_card`,
which are the ones searched by `card_ptr`, printed by `operator<<` and copied
by `copy_members`. -/
def cards (h : GFitsHeader) : List GFitsHeaderCard :=
  (h.m_card.getD []).take h.m_num_cards

/-- The array `m_card` holds at least `m_num_cards` slots (and `m_num_cards`
is 0 when the pointer is NULL): every state in which the loops of the class
stay inside the array. -/
def WellFormed (h : GFitsHeader) : Prop :=
  h.m_num_cards ≤ (h.m_card.getD []).length

instance (h : GFitsHeader) : Decidable h.WellFormed :=
  inferInstanceAs (Decidable (h.m_num_cards ≤ (h.m_card.getD []).length))

/-- The keywords of the cards of the header, in order. -/
def keynames (h : GFitsHeader) : List String :=
  h.cards.map GFitsHeaderCard.keyname

end GFitsHeader

/-! ## GFitsTableLongLongCol -/

/-- The exceptions met in the column class: the two argument errors raised
by `insert` and `remove`, and the FITS error with which a failed load of the
column data reaches the caller. -/
inductive GException where
  | fits_invalid_row (origin : String) (row : Int) (max_row : Int)
  | fits_invalid_nrows (origin : String) (nrows : Int) (max_nrows : Int)
  | fits_error (status : Int)
  deriving DecidableEq, Repr

/-- Method name `G_INSERT`. -/
def G_INSERT : String := "GFitsTableLongLongCol::insert(int&, int&)"

/-- Method name `G_REMOVE`. -/
def G_REMOVE : String := "GFitsTableLongLongCol::remove(int&, int&)"

/-- The CFITSIO type code `TLONGLONG` behind the macro `__TLONGLONG`. -/
def TLONGLONG : Int := 81

/-- The members of a long long column: those of the base class GFitsTableCol
that the column code reads or writes (`m_name`, `m_length` rows of
`m_number` elements each, `m_width`, `m_type`, the loaded size `m_size`,
`m_varlen`, `m_rowstart`) and its own (`m_data`, `m_nulval`). -/
structure GFitsTableLongLongCol where
  m_name : String
  m_length : Int
  m_number : Int
  m_width : Int
  m_type : Int
  m_size : Int
  m_varlen : Int
  m_rowstart : List Int
  m_data : Option (List Int)
  m_nulval : Option Int
  deriving DecidableEq, Repr

namespace GFitsTableLongLongCol

/-- GFitsTableLongLongCol::fetch_data. It calls `load_column` of the base
class, whose code is not part of the sources: `load_column` is a parameter
that returns the loaded column or the status of the failed read. -/
def fetch_data (load_column : GFitsTableLongLongCol → Except Int GFitsTableLongLongCol)
    (col : GFitsTableLongLongCol) : Except GException GFitsTableLongLongCol :=
  match load_column col with
  | Except.ok loaded => Except.ok loaded
  | Except.error status => Except.error (GException.fits_error status)

/-- The loop `for (i = 0; i < n; ++i) *dst++ = *src++` of insert and
remove: `src` and `dst` are the offsets of the two pointers into `m_data`
and `new_data`; the result holds both offsets and the new buffer after `n`
iterations. A read behind the end of `m_data` (undefined in C++) gives 0. -/
def copy_loop (m_data : List Int) : Nat → Nat → Nat → List Int → Nat × Nat × List Int
  | 0, src, dst, new_data => (src, dst, new_data)
  | n + 1, src, dst, new_data =>
    copy_loop m_data n (src + 1) (dst + 1) (new_data.set dst (m_data.getD src 0))

/-- The loop `for (i = 0; i < n; ++i) *dst++ = 0` of insert. -/
def zero_loop : Nat → Nat → List Int → Nat × List Int
  | 0, dst, new_data => (dst, new_data)
  | n + 1, dst, new_data => zero_loop n (dst + 1) (new_data.set dst 0)

/-- Storage returned by `new long long[size]`. The elements of fresh
storage are indeterminate in C++: here they hold what was left there, the
value -1 in element 0, -2 in element 1 and so on, so that a buffer has the
values of the source only where a loop has written them. -/
def new_long_long (size : Int) : List Int :=
  (List.range size.toNat).map (fun (i : Nat) => - (i : Int) - 1)

/-- GFitsTableLongLongCol::insert, for the calls in which no `int`
expression overflows and `new` returns the storage: the integers are
unbounded and the allocation is `new_long_long`. The call with the 32-bit
`int` arithmetic and a `new` that can throw is `insert_alloc`, which agrees
with this definition on those calls (`insert_alloc_ok`). -/
def insert (load_column : GFitsTableLongLongCol → Except Int GFitsTableLongLongCol)
    (col : GFitsTableLongLongCol) (rownum nrows : Int) :
    Except GException GFitsTableLongLongCol :=
  if rownum < 0 ∨ rownum > col.m_length then
    Except.error (GException.fits_invalid_row G_INSERT rownum col.m_length)
  else if nrows > 0 then
    if col.m_length = 0 then
      Except.ok { col with m_length := nrows }
    else
      match (if col.m_data = none then fetch_data load_column col else Except.ok col) with
      | Except.error e => Except.error e
      | Except.ok col =>
        let length := col.m_length + nrows
        let m_size := col.m_number * length
        let new_data := new_long_long m_size
        let n_before := col.m_number * rownum
        let n_insert := col.m_number * nrows
        let n_after := col.m_number * (col.m_length - rownum)
        let m_data := col.m_data.getD []
        let before := copy_loop m_data n_before.toNat 0 0 new_data
        let filled := zero_loop n_insert.toNat before.2.1 before.2.2
        let after := copy_loop m_data n_after.toNat before.1 filled.1 filled.2
        Except.ok { col with m_size := m_size, m_data := some after.2.2, m_length := length }
  else
    Except.ok col

/-- GFitsTableLongLongCol::remove, for the calls in which no `int`
expression overflows and `new` returns the storage, like `insert`; the call
on the machine is `remove_alloc` (`remove_alloc_ok`). The statement
`src += n_remove` between the two copy loops moves the source offset by
`n_remove`. -/
def remove (load_column : GFitsTableLongLongCol → Except Int GFitsTableLongLongCol)
    (col : GFitsTableLongLongCol) (rownum nrows : Int) :
    Except GException GFitsTableLongLongCol :=
  if rownum < 0 ∨ rownum ≥ col.m_length then
    Except.error (GException.fits_invalid_row G_REMOVE rownum (col.m_length - 1))
  else if nrows < 0 ∨ nrows > col.m_length - rownum then
    Except.error (GException.fits_invalid_nrows G_REMOVE nrows (col.m_length - rownum))
  else if nrows > 0 then
    match (if col.m_data = none then fetch_data load_column col else Except.ok col) with
    | Except.error e => Except.error e
    | Except.ok col =>
      let length := col.m_length - nrows
      let m_size := col.m_number * length
      if m_size > 0 then
        let new_data := new_long_long m_size
        let n_before := col.m_number * rownum
        let n_remove := col.m_number * nrows
        let n_after := col.m_number * (length - rownum)
        let m_data := col.m_data.getD []
        let before := copy_loop m_data n_before.toNat 0 0 new_data
        let after := copy_loop m_data n_after.toNat (before.1 + n_remove.toNat)
          before.2.1 before.2.2
        Except.ok { col with m_size := m_size, m_data := some after.2.2, m_length := length }
      else
        Except.ok { col with m_size := m_size, m_data := none, m_length := length }
  else
    Except.ok col

/-- GFitsTableLongLongCol::insert as a transformer of the column: the
members the call leaves behind, paired with the exception it throws, if any.
Both argument checks sit in front of every assignment, so their `throw`
leaves the members as they were on entry. A load that fails is taken to
leave the members it was called with. -/
def insert_run (load_column : GFitsTableLongLongCol → Except Int GFitsTableLongLongCol)
    (col : GFitsTableLongLongCol) (rownum nrows : Int) :
    GFitsTableLongLongCol × Option GException :=
  if rownum < 0 ∨ rownum > col.m_length then
    (col, some (GException.fits_invalid_row G_INSERT rownum col.m_length))
  else if nrows > 0 then
    if col.m_length = 0 then
      ({ col with m_length := nrows }, none)
    else
      match (if col.m_data = none then fetch_data load_column col else Except.ok col) with
      | Except.error e => (col, some e)
      | Except.ok col =>
        let length := col.m_length + nrows
        let m_size := col.m_number * length
        let new_data := new_long_long m_size
        let n_before := col.m_number * rownum
        let n_insert := col.m_number * nrows
        let n_after := col.m_number * (col.m_length - rownum)
        let m_data := col.m_data.getD []
        let before := copy_loop m_data n_before.toNat 0 0 new_data
        let filled := zero_loop n_insert.toNat before.2.1 before.2.2
        let after := copy_loop m_data n_after.toNat before.1 filled.1 filled.2
        ({ col with m_size := m_size, m_data := some after.2.2, m_length := length }, none)
  else
    (col, none)

/-- GFitsTableLongLongCol::remove as a transformer of the column, in the
same way as `insert_run`. -/
def remove_run (load_column : GFitsTableLongLongCol → Except Int GFitsTableLongLongCol)
    (col : GFitsTableLongLongCol) (rownum nrows : Int) :
    GFitsTableLongLongCol × Option GException :=
  if rownum < 0 ∨ rownum ≥ col.m_length then
    (col, some (GException.fits_invalid_row G_REMOVE rownum (col.m_length - 1)))
  else if nrows < 0 ∨ nrows > col.m_length - rownum then
    (col, some (GException.fits_invalid_nrows G_REMOVE nrows (col.m_length - rownum)))
  else if nrows > 0 then
    match (if col.m_data = none then fetch_data load_column col else Except.ok col) with
    | Except.error e => (col, some e)
    | Except.ok col =>
      let length := col.m_length - nrows
      let m_size := col.m_number * length
      if m_size > 0 then
        let new_data := new_long_long m_size
        let n_before := col.m_number * rownum
        let n_remove := col.m_number * nrows
        let n_after := col.m_number * (length - rownum)
        let m_data := col.m_data.getD []
        let before := copy_loop m_data n_before.toNat 0 0 new_data
        let after := copy_loop m_data n_after.toNat (before.1 + n_remove.toNat)
          before.2.1 before.2.2
        ({ col with m_size := m_size, m_data := some after.2.2, m_length := length }, none)
      else
        ({ col with m_size := m_size, m_data := none, m_length := length }, none)
  else
    (col, none)

/-- The result of a call as the caller sees it: the column on a normal
return, the exception otherwise. -/
def outcome (r : GFitsTableLongLongCol × Option GException) :
    Except GException GFitsTableLongLongCol :=
  match r.2 with
  | none => Except.ok r.1
  | some e => Except.error e

/-- GFitsTableLongLongCol::init_members. -/
def init_members (col : GFitsTableLongLongCol) : GFitsTableLongLongCol :=
  { col with m_type := TLONGLONG, m_data := none, m_nulval := none }

/-- GFitsTableLongLongCol::free_members. -/
def free_members (col : GFitsTableLongLongCol) : GFitsTableLongLongCol :=
  { col with m_data := none, m_nulval := none, m_size := 0 }

/-- GFitsTableLongLongCol::release_data. -/
def release_data (col : GFitsTableLongLongCol) : GFitsTableLongLongCol :=
  { col with m_data := none, m_size := 0 }

/-- GFitsTableLongLongCol::clear. The two functions of the base class it
calls, `GFitsTableCol::free_members` and `GFitsTableCol::init_members`, are
not part of the sources and are parameters. -/
def clear (base_free_members base_init_members : GFitsTableLongLongCol → GFitsTableLongLongCol)
    (col : GFitsTableLongLongCol) : GFitsTableLongLongCol :=
  init_members (base_init_members (base_free_members (free_members col)))

/-- The buffer-size predicate of a column: if the data buffer is present,
the loaded size `m_size` equals `m_length * m_number`. -/
def BufferSizeInvariant (col : GFitsTableLongLongCol) : Prop :=
  col.m_data ≠ none → col.m_size = col.m_length * col.m_number

instance (col : GFitsTableLongLongCol) : Decidable (BufferSizeInvariant col) :=
  inferInstanceAs (Decidable (col.m_data ≠ none → col.m_size = col.m_length * col.m_number))

/-- The columns reached from a freshly constructed one (every constructor
ends with `init_members`) by successful calls of insert and remove and by
release_data and clear. -/
inductive Reachable (load_column : GFitsTableLongLongCol → Except Int GFitsTableLongLongCol)
    (base_free_members base_init_members : GFitsTableLongLongCol → GFitsTableLongLongCol) :
    GFitsTableLongLongCol → Prop where
  | constructed (base : GFitsTableLongLongCol) :
      Reachable load_column base_free_members base_init_members (init_members base)
  | insert (col col' : GFitsTableLongLongCol) (rownum nrows : Int) :
      Reachable load_column base_free_members base_init_members col →
      insert load_column col rownum nrows = Except.ok col' →
      Reachable load_column base_free_members base_init_members col'
  | remove (col col' : GFitsTableLongLongCol) (rownum nrows : Int) :
      Reachable load_column base_free_members base_init_members col →
      remove load_column col rownum nrows = Except.ok col' →
      Reachable load_column base_free_members base_init_members col'
  | release_data (col : GFitsTableLongLongCol) :
      Reachable load_column base_free_members base_init_members col →
      Reachable load_column base_free_members base_init_members (release_data col)
  | clear (col : GFitsTableLongLongCol) :
      Reachable load_column base_free_members base_init_members col →
      Reachable load_column base_free_members base_init_members
        (clear base_free_members base_init_members col)

/-- The C++ conversion `(int)` of a long long, for the 32-bit `int` of the
supported platforms: the value is reduced modulo 2^32 into the range
-2^31 .. 2^31 - 1. -/
def int_cast (v : Int) : Int :=
  (v + 2147483648) % 4294967296 - 2147483648

/-- The element `m_data[offset(row, inx)]` read by the accessors after the
load they force when no data are present. `offset` belongs to the base
class, which is not part of the sources, and is a parameter. A read outside
the buffer (undefined in C++) gives 0. -/
def element (load_column : GFitsTableLongLongCol → Except Int GFitsTableLongLongCol)
    (offset : GFitsTableLongLongCol → Int → Int → Int)
    (col : GFitsTableLongLongCol) (row inx : Int) : Except GException Int :=
  match (if col.m_data = none then fetch_data load_column col else Except.ok col) with
  | Except.error e => Except.error e
  | Except.ok col => Except.ok ((col.m_data.getD []).getD (offset col row inx).toNat 0)

/-- GFitsTableLongLongCol::integer. -/
def integer (load_column : GFitsTableLongLongCol → Except Int GFitsTableLongLongCol)
    (offset : GFitsTableLongLongCol → Int → Int → Int)
    (col : GFitsTableLongLongCol) (row inx : Int) : Except GException Int :=
  match element load_column offset col row inx with
  | Except.error e => Except.error e
  | Except.ok v => Except.ok (int_cast v)

/-- The text written by `std::ostringstream << v` for a long long `v` with
the default formatting: a minus sign for a negative value, then the decimal
digits of its magnitude. -/
def ostream_long_long (v : Int) : String :=
  if v < 0 then String.mk ('-' :: Nat.toDigits 10 v.natAbs)
  else String.mk (Nat.toDigits 10 v.natAbs)

/-- GFitsTableLongLongCol::string. -/
def string (load_column : GFitsTableLongLongCol → Except Int GFitsTableLongLongCol)
    (offset : GFitsTableLongLongCol → Int → Int → Int)
    (col : GFitsTableLongLongCol) (row inx : Int) : Except GException String :=
  match element load_column offset col row inx with
  | Except.error e => Except.error e
  | Except.ok v => Except.ok (ostream_long_long v)

end GFitsTableLongLongCol

/-- Value of a decimal digit character. -/
def digit_value (c : Char) : Nat :=
  c.toNat - 48

/-- Reads a non-empty run of decimal digits as a natural number. -/
def read_digits (cs : List Char) : Option Nat :=
  if cs ≠ [] ∧ cs.all Char.isDigit = true then
    some (cs.foldl (fun n c => 10 * n + digit_value c) 0)
  else none

/-- Reference reader of a decimal integer: an optional minus sign followed
by decimal digits. It is the parsing against which the text returned by
`string` is checked. -/
def read_decimal (s : String) : Option Int :=
  match s.data with
  | '-' :: cs => (read_digits cs).map (fun (n : Nat) => - Int.ofNat n)
  | cs => (read_digits cs).map Int.ofNat

/-- Modelled from the spec: `GFitsTableCol::offset(row, inx)` for a column
of `m_length` rows of `m_number` elements each, stored row after row (the
base class is not part of the sources). -/
def offset_rows (col : GFitsTableLongLongCol) (row inx : Int) : Int :=
  row * col.m_number + inx

/-- Modelled from the spec: `load_column` for a column without data in a
backing store, where the rows materialize as zero on the first fetch:
`m_number * m_length` zero elements are allocated (the base class
GFitsTableCol is not part of the sources). -/
def load_column_zero (col : GFitsTableLongLongCol) : Except Int GFitsTableLongLongCol :=
  let size := col.m_number * col.m_length
  Except.ok { col with
    m_size := size
    m_data := if size > 0 then some (List.replicate size.toNat 0) else none }

/-- A `load_column` whose read of the backing store fails with status 104. -/
def load_column_failing (_ : GFitsTableLongLongCol) : Except Int GFitsTableLongLongCol :=
  Except.error 104

/-! ## Sample data -/

/-- A card `OBJECT = Crab`. -/
def cardObject : GFitsHeaderCard := ⟨"OBJECT", CardValue.string "Crab", "source"⟩

/-- A card `NAXIS = 2`. -/
def cardNaxis : GFitsHeaderCard := ⟨"NAXIS", CardValue.integer 2, ""⟩

/-- A card `naxis = 3`, keyed in lower case. -/
def cardNaxisLower : GFitsHeaderCard := ⟨"naxis", CardValue.integer 3, ""⟩

/-- A header holding the cards `A = 1` and `A = 2`, as read from a
file in which one keyword occurs twice. -/
def headerTwice : GFitsHeader :=
  { m_num_cards := 2
    m_card := some [⟨"A", CardValue.integer 1, ""⟩, ⟨"A", CardValue.integer 2, ""⟩] }

/-- A header holding `NAXIS = 2` and `OBJECT = Crab`. -/
def headerTwo : GFitsHeader :=
  { m_num_cards := 2, m_card := some [cardNaxis, cardObject] }

/-- A card `NAXIS = 3`. -/
def cardNaxis3 : GFitsHeaderCard := ⟨"NAXIS", CardValue.integer 3, ""⟩

/-- A card `A = 3`. -/
def cardA3 : GFitsHeaderCard := ⟨"A", CardValue.integer 3, ""⟩

/-- The loaded column `ID = [10, 20, 30]` of the scenario: 3 rows of one
element. -/
def columnID : GFitsTableLongLongCol :=
  { m_name := "ID", m_length := 3, m_number := 1, m_width := 8, m_type := TLONGLONG,
    m_size := 3, m_varlen := 0, m_rowstart := [], m_data := some [10, 20, 30],
    m_nulval := none }

/-- A column of 3 rows of one element whose data are not loaded. -/
def columnUnloaded : GFitsTableLongLongCol :=
  { columnID with m_size := 0, m_data := none }

/-- The column `ID` after `insert(1, 2)`: `[10, 0, 0, 20, 30]`, 5 rows. -/
def columnID5 : GFitsTableLongLongCol :=
  { columnID with m_length := 5, m_size := 5, m_data := some [10, 0, 0, 20, 30] }

/-- A loaded column of one row holding 2^32 = 4294967296. -/
def columnBig : GFitsTableLongLongCol :=
  { columnID with m_name := "BIG", m_length := 1, m_size := 1, m_data := some [4294967296] }

/-- A loaded column of 3 rows of one element holding -42, 0 and 2^62. -/
def columnMixed : GFitsTableLongLongCol :=
  { columnID with m_name := "MIX", m_data := some [-42, 0, 4611686018427387904] }

/-- Sample conversions of a card value. -/
def sampleConversions : CardConversions where
  string c := match c.value with
    | CardValue.string s => s
    | CardValue.real _ => "real"
    | CardValue.integer n => toString n
    | CardValue.logical b => toString b
  real c := match c.value with
    | CardValue.real x => x
    | CardValue.integer n => Float.ofInt n
    | _ => 0.0
  integer c := match c.value with
    | CardValue.integer n => n
    | _ => 0

/-! ## GFitsTableLongLongCol: sentinel, base class, element access -/

namespace GFitsTableCol

/-- Modelled from the spec: `GFitsTableCol::free_members`, called by `clear`
of the column. The base class is not part of the sources; releasing what it
owns changes none of the members of the model. -/
def free_members (col : GFitsTableLongLongCol) : GFitsTableLongLongCol :=
  col

/-- Modelled from the spec: `GFitsTableCol::init_members`, called by `clear`
of the column. The base class is not part of the sources; by the spec
`clear` resets the column to zero length, so the base class sets the length
to 0. -/
def init_members (col : GFitsTableLongLongCol) : GFitsTableLongLongCol :=
  { col with m_length := 0 }

end GFitsTableCol

namespace GFitsTableLongLongCol

/-- GFitsTableLongLongCol::alloc_nulval: the old sentinel is freed and the
pointer set to NULL; a sentinel is allocated and set when a value is
given. -/
def alloc_nulval (col : GFitsTableLongLongCol) (value : Option Int) : GFitsTableLongLongCol :=
  let col := { col with m_nulval := none }
  match value with
  | some v => { col with m_nulval := some v }
  | none => col

/-- GFitsTableLongLongCol::nulval(value). -/
def nulval (col : GFitsTableLongLongCol) (value : Option Int) : GFitsTableLongLongCol :=
  alloc_nulval col value

/-- GFitsTableLongLongCol::operator(): the column after the call, which
loads the data when no buffer is present, and the element
`m_data[offset(row, inx)]`. A read outside the buffer (undefined in C++)
gives 0. -/
def access (load_column : GFitsTableLongLongCol → Except Int GFitsTableLongLongCol)
    (offset : GFitsTableLongLongCol → Int → Int → Int)
    (col : GFitsTableLongLongCol) (row inx : Int) :
    Except GException (GFitsTableLongLongCol × Int) :=
  match (if col.m_data = none then fetch_data load_column col else Except.ok col) with
  | Except.error e => Except.error e
  | Except.ok col => Except.ok (col, (col.m_data.getD []).getD (offset col row inx).toNat 0)

/-- GFitsTableLongLongCol::real: the element converted with `(double)`. -/
def real (load_column : GFitsTableLongLongCol → Except Int GFitsTableLongLongCol)
    (offset : GFitsTableLongLongCol → Int → Int → Int)
    (col : GFitsTableLongLongCol) (row inx : Int) : Except GException Float :=
  match element load_column offset col row inx with
  | Except.error e => Except.error e
  | Except.ok v => Except.ok (Float.ofInt v)

end GFitsTableLongLongCol

/-! ## GFitsHeader::open -/

/-- What the CFITSIO calls of GFitsHeader::open report for the unit the
file is positioned at: the status of the move to the unit (`__ffmahd`), the
status and the number of cards of the count (`__ffghsp`), and, for every
card position counted from 1, the card that `GFitsHeaderCard::read` reads
there or the status of its failure. CFITSIO and the card class are not
part of the sources. -/
structure HeaderStore where
  ffmahd : Int
  ffghsp : Int × Nat
  read : Nat → Except Int GFitsHeaderCard

namespace GFitsHeader

/-- The read loop of GFitsHeader::open, `for (i = 0; i < n; ++i)
m_card[i].read(fptr, i+1)`, after `n` iterations. -/
def read_cards (read : Nat → Except Int GFitsHeaderCard) :
    Nat → List GFitsHeaderCard → Except Int (List GFitsHeaderCard)
  | 0, m_card => Except.ok m_card
  | i + 1, m_card =>
    match read_cards read i m_card with
    | Except.error status => Except.error status
    | Except.ok cards =>
      match read (i + 1) with
      | Except.error status => Except.error status
      | Except.ok c => Except.ok (cards.set i c)

/-- GFitsHeader::open (`open` is a reserved word of Lean). -/
def open_header (store : HeaderStore) (_h : GFitsHeader) : Except GException GFitsHeader :=
  if store.ffmahd ≠ 0 then
    Except.error (GException.fits_error store.ffmahd)
  else if store.ffghsp.1 ≠ 0 then
    Except.error (GException.fits_error store.ffghsp.1)
  else
    let m_num_cards := store.ffghsp.2
    let m_card : List GFitsHeaderCard := List.replicate m_num_cards default
    match read_cards store.read m_num_cards m_card with
    | Except.error status => Except.error (GException.fits_error status)
    | Except.ok cards => Except.ok { m_num_cards := m_num_cards, m_card := some cards }

end GFitsHeader

/-! ## GSkyDir -/

/-- The constants and the function of GTools.hpp used by GSkyDir; GTools is
not part of the sources. -/
structure GTools where
  twopi : Float
  fourpi : Float
  deg2rad : Float
  rad2deg : Float
  modulo : Float → Float → Float

/-- The members of GSkyDir. -/
structure GSkyDir where
  m_has_lb : Bool
  m_has_radec : Bool
  m_l : Float
  m_b : Float
  m_ra : Float
  m_dec : Float

namespace GSkyDir

/-- GSkyDir::init_members. -/
def init_members : GSkyDir :=
  { m_has_lb := false, m_has_radec := false, m_l := 0.0, m_b := 0.0, m_ra := 0.0, m_dec := 0.0 }

/-- GSkyDir::radec. -/
def radec (dir : GSkyDir) (ra dec : Float) : GSkyDir :=
  { dir with m_has_lb := false, m_has_radec := true, m_ra := ra, m_dec := dec }

/-- GSkyDir::lb. -/
def lb (dir : GSkyDir) (l b : Float) : GSkyDir :=
  { dir with m_has_lb := true, m_has_radec := false, m_l := l, m_b := b }

/-- GSkyDir::euler: the pair `(xout, yout)`; `type` is 0 for equ2gal and 1
for gal2equ. -/
def euler (tools : GTools) (type : Nat) (xin yin : Float) : Float × Float :=
  let psi : Float := if type = 0 then 0.57477043300 else 4.9368292465
  let stheta : Float := if type = 0 then 0.88998808748 else -0.88998808748
  let ctheta : Float := 0.45598377618
  let phi : Float := if type = 0 then 4.9368292465 else 0.57477043300
  let a := xin - phi
  let b := yin
  let sb := Float.sin b
  let cb := Float.cos b
  let cbsa := cb * Float.sin a
  let a2 := Float.atan2 (ctheta * cbsa + stheta * sb) (cb * Float.cos a)
  let b2 := -stheta * cbsa + ctheta * sb
  let b3 := if b2 > 1.0 then 1.0 else b2
  (tools.modulo (a2 + psi + tools.fourpi) tools.twopi, Float.asin b3)

/-- GSkyDir::equ2gal: writes `m_l` and `m_b`. -/
def equ2gal (tools : GTools) (dir : GSkyDir) : GSkyDir :=
  { dir with
    m_l := (euler tools 0 dir.m_ra dir.m_dec).1
    m_b := (euler tools 0 dir.m_ra dir.m_dec).2 }

/-- GSkyDir::gal2equ: writes `m_ra` and `m_dec`. -/
def gal2equ (tools : GTools) (dir : GSkyDir) : GSkyDir :=
  { dir with
    m_ra := (euler tools 1 dir.m_l dir.m_b).1
    m_dec := (euler tools 1 dir.m_l dir.m_b).2 }

/-- GSkyDir::l: the direction after the call and the value returned. -/
def l (tools : GTools) (dir : GSkyDir) : GSkyDir × Float :=
  let dir := if !dir.m_has_lb && dir.m_has_radec then equ2gal tools dir else dir
  (dir, dir.m_l)

/-- GSkyDir::b: the direction after the call and the value returned. -/
def b (tools : GTools) (dir : GSkyDir) : GSkyDir × Float :=
  let dir := if !dir.m_has_lb && dir.m_has_radec then equ2gal tools dir else dir
  (dir, dir.m_b)

/-- GSkyDir::ra: the direction after the call and the value returned. -/
def ra (tools : GTools) (dir : GSkyDir) : GSkyDir × Float :=
  let dir := if !dir.m_has_radec && dir.m_has_lb then gal2equ tools dir else dir
  (dir, dir.m_ra)

/-- GSkyDir::dec: the direction after the call and the value returned. -/
def dec (tools : GTools) (dir : GSkyDir) : GSkyDir × Float :=
  let dir := if !dir.m_has_radec && dir.m_has_lb then gal2equ tools dir else dir
  (dir, dir.m_dec)

end GSkyDir

/-- Sample GTools: the constants as written in decimal and a `modulo` that
brings a value into `[0, v2)`. -/
def sampleTools : GTools :=
  { twopi := 6.283185307179586, fourpi := 12.566370614359172,
    deg2rad := 0.017453292519943295, rad2deg := 57.29577951308232,
    modulo := fun v1 v2 => v1 - v2 * Float.floor (v1 / v2) }

/-- A store whose unit holds the two cards `NAXIS = 2` and `OBJECT = Crab`. -/
def storeTwo : HeaderStore :=
  { ffmahd := 0, ffghsp := (0, 2),
    read := fun keynum =>
      if keynum = 1 then Except.ok cardNaxis
      else if keynum = 2 then Except.ok cardObject
      else Except.error 203 }

/-! ## GFitsImage -/

/-- Modelled from the spec: the failure `OutOfRange` of a pixel access. -/
inductive ImageException where
  | out_of_range
  deriving DecidableEq, Repr

/-- The data members that GFitsImage.hpp declares (`m_bitpix`, `m_naxis`,
`m_naxes`, `m_num_pixels`, `m_anynul`) and `m_pixels`, the contiguous pixel
buffer, which the spec describes and the concrete image classes own (they
are not part of the sources). -/
structure GFitsImage (α : Type) where
  m_bitpix : Int
  m_naxis : Int
  m_naxes : List Int
  m_num_pixels : Int
  m_anynul : Int
  m_pixels : List α

namespace GFitsImage

/-- Modelled from the spec: the column-major offset of the spec, "x,
x + naxes[0]*y, x + naxes[0]*(y + naxes[1]*z), and so on recursively", for
the list of the indices given (GFitsImage.hpp declares the four `offset`
methods; their code is not part of the sources). -/
def offset_of : List Int → List Int → Int
  | _, [] => 0
  | naxes, ix :: rest => ix + naxes.headD 0 * offset_of naxes.tail rest

/-- Modelled from the spec: `GFitsImage::offset(ix)`. -/
def offset_x {α : Type} (img : GFitsImage α) (ix : Int) : Int :=
  offset_of img.m_naxes [ix]

/-- Modelled from the spec: `GFitsImage::offset(ix, iy)`. -/
def offset_xy {α : Type} (img : GFitsImage α) (ix iy : Int) : Int :=
  offset_of img.m_naxes [ix, iy]

/-- Modelled from the spec: `GFitsImage::offset(ix, iy, iz)`. -/
def offset_xyz {α : Type} (img : GFitsImage α) (ix iy iz : Int) : Int :=
  offset_of img.m_naxes [ix, iy, iz]

/-- Modelled from the spec: `GFitsImage::offset(ix, iy, iz, it)`. -/
def offset_xyzt {α : Type} (img : GFitsImage α) (ix iy iz it : Int) : Int :=
  offset_of img.m_naxes [ix, iy, iz, it]

/-- Modelled from the spec: the bounds check of a pixel access against
`naxes`: every index is at least 0 and below the extent of its axis (an
index without axis has no valid value). -/
def in_range : List Int → List Int → Bool
  | _, [] => true
  | naxes, ix :: rest =>
    (decide (0 ≤ ix) && decide (ix < naxes.headD 0)) && in_range naxes.tail rest

/-- Modelled from the spec: the pixel access of the spec for the list of
the indices given: it fails with OutOfRange when the bounds check fails and
returns the buffer element at the column-major offset otherwise (`pixel` is
pure virtual in GFitsImage.hpp; the concrete classes are not part of the
sources). A read outside the buffer is shown as a failure too. -/
def pixel_of {α : Type} (img : GFitsImage α) (indices : List Int) : Except ImageException α :=
  if in_range img.m_naxes indices = true then
    match img.m_pixels[(offset_of img.m_naxes indices).toNat]? with
    | some v => Except.ok v
    | none => Except.error ImageException.out_of_range
  else
    Except.error ImageException.out_of_range

/-- Modelled from the spec: `pixel(ix)`. -/
def pixel_x {α : Type} (img : GFitsImage α) (ix : Int) : Except ImageException α :=
  pixel_of img [ix]

/-- Modelled from the spec: `pixel(ix, iy)`. -/
def pixel_xy {α : Type} (img : GFitsImage α) (ix iy : Int) : Except ImageException α :=
  pixel_of img [ix, iy]

/-- Modelled from the spec: `pixel(ix, iy, iz)`. -/
def pixel_xyz {α : Type} (img : GFitsImage α) (ix iy iz : Int) : Except ImageException α :=
  pixel_of img [ix, iy, iz]

/-- Modelled from the spec: `pixel(ix, iy, iz, it)`. -/
def pixel_xyzt {α : Type} (img : GFitsImage α) (ix iy iz it : Int) :
    Except ImageException α :=
  pixel_of img [ix, iy, iz, it]

/-- The shape of an image is consistent: every extent is positive,
`m_num_pixels` is the product of the extents and the buffer holds
`m_num_pixels` pixels. -/
def Shaped {α : Type} (img : GFitsImage α) : Prop :=
  (∀ n ∈ img.m_naxes, 0 < n) ∧ img.m_num_pixels = img.m_naxes.prod ∧
    (img.m_pixels.length : Int) = img.m_num_pixels

end GFitsImage

/-- The 2D image of the scenario: `naxes = [3, 2]` holding the pixel values
`[0, 1, 2, 3, 4, 5]`. -/
def imageScenario : GFitsImage Int :=
  { m_bitpix := 32, m_naxis := 2, m_naxes := [3, 2], m_num_pixels := 6, m_anynul := 0,
    m_pixels := [0, 1, 2, 3, 4, 5] }

/-! ## GFitsTable -/

/-- Modelled from the spec: the Table of the spec, an ordered sequence of
Columns plus the `num_rows` shared by all columns (the class GFitsTable is
not part of the sources; the columns are shown as long long columns, every
typed variant implementing the same contract). -/
structure GFitsTable where
  num_rows : Int
  columns : List GFitsTableLongLongCol

namespace GFitsTable

/-- Modelled from the spec: the delegation of `insert_rows` "to every owned
Column in the same call, in column order"; the first failure of a column
ends the call. -/
def insert_columns (load_column : GFitsTableLongLongCol → Except Int GFitsTableLongLongCol) :
    List GFitsTableLongLongCol → Int → Int → Except GException (List GFitsTableLongLongCol)
  | [], _, _ => Except.ok []
  | col :: rest, row, nrows =>
    match GFitsTableLongLongCol.insert load_column col row nrows with
    | Except.error e => Except.error e
    | Except.ok col' =>
      match insert_columns load_column rest row nrows with
      | Except.error e => Except.error e
      | Except.ok rest' => Except.ok (col' :: rest')

/-- Modelled from the spec: the delegation of `remove_rows` to every owned
Column in column order. -/
def remove_columns (load_column : GFitsTableLongLongCol → Except Int GFitsTableLongLongCol) :
    List GFitsTableLongLongCol → Int → Int → Except GException (List GFitsTableLongLongCol)
  | [], _, _ => Except.ok []
  | col :: rest, row, nrows =>
    match GFitsTableLongLongCol.remove load_column col row nrows with
    | Except.error e => Except.error e
    | Except.ok col' =>
      match remove_columns load_column rest row nrows with
      | Except.error e => Except.error e
      | Except.ok rest' => Except.ok (col' :: rest')

/-- Modelled from the spec: `insert_rows` of the Table: every column
inserts the rows, then `num_rows` grows by the rows inserted (none when
`nrows` is not positive). -/
def insert_rows (load_column : GFitsTableLongLongCol → Except Int GFitsTableLongLongCol)
    (table : GFitsTable) (row nrows : Int) : Except GException GFitsTable :=
  match insert_columns load_column table.columns row nrows with
  | Except.error e => Except.error e
  | Except.ok columns =>
    Except.ok { num_rows := if nrows > 0 then table.num_rows + nrows else table.num_rows,
                columns := columns }

/-- Modelled from the spec: `remove_rows` of the Table: every column
removes the rows, then `num_rows` shrinks by the rows removed. -/
def remove_rows (load_column : GFitsTableLongLongCol → Except Int GFitsTableLongLongCol)
    (table : GFitsTable) (row nrows : Int) : Except GException GFitsTable :=
  match remove_columns load_column table.columns row nrows with
  | Except.error e => Except.error e
  | Except.ok columns =>
    Except.ok { num_rows := if nrows > 0 then table.num_rows - nrows else table.num_rows,
                columns := columns }

end GFitsTable

/-- The table of the scenario restricted to its long long columns: `ID =
[10, 20, 30]` and a second, unloaded column of 3 rows. -/
def tableScenario : GFitsTable :=
  { num_rows := 3, columns := [columnID, columnUnloaded] }

/-! ## Columns with their buffer in the free store -/

/-- The free store that holds the `long long` arrays of the columns: the
address of an array is its position, `none` marks a deleted array. An
address is never handed out twice. -/
abbrev FreeStore := List (Option (List Int))

namespace FreeStore

/-- The expression `new long long[...]`: the store with the array `d` at an
address not used before, and that address. -/
def new_array (fs : FreeStore) (d : List Int) : FreeStore × Nat :=
  (fs ++ [some d], fs.length)

/-- The statement `if (p != NULL) delete [] p`. -/
def delete_array (fs : FreeStore) (p : Option Nat) : FreeStore :=
  match p with
  | some a => fs.set a none
  | none => fs

/-- The array a pointer refers to: `none` for NULL and for a deleted array. -/
def array_at (fs : FreeStore) (p : Option Nat) : Option (List Int) :=
  match p with
  | some a => fs.getD a none
  | none => none

end FreeStore

/-- A column object whose buffer lives in the free store: `m_data` is the
pointer of the object, `members` the other members (the `m_data` of
`members` is not used and kept `none`). -/
structure ColumnObject where
  members : GFitsTableLongLongCol
  m_data : Option Nat
  deriving DecidableEq, Repr

namespace ColumnObject

/-- The column as its member functions see it: the members with the array
the pointer `m_data` refers to. -/
def contents (fs : FreeStore) (obj : ColumnObject) : GFitsTableLongLongCol :=
  { obj.members with m_data := FreeStore.array_at fs obj.m_data }

/-- The pointer of the object is NULL or refers to an array of the store
that has not been deleted. -/
def Valid (fs : FreeStore) (obj : ColumnObject) : Prop :=
  ∀ a, obj.m_data = some a → ∃ d, fs[a]? = some (some d)

/-- The members `col` left by a member function of the object, brought back
to the free store. A buffer that is the one held on entry stays where it
is. Otherwise the function has deleted the old array (`delete [] m_data`)
and `m_data` points to the array it has allocated (`new long long[...]`), or
is NULL when it has allocated none. As no address is handed out twice, the
order of `new` and `delete` in the function does not show. -/
def assign (fs : FreeStore) (obj : ColumnObject) (col : GFitsTableLongLongCol) :
    FreeStore × ColumnObject :=
  if col.m_data = FreeStore.array_at fs obj.m_data then
    (fs, { members := { col with m_data := none }, m_data := obj.m_data })
  else
    match col.m_data with
    | some d =>
      let allocated := FreeStore.new_array (FreeStore.delete_array fs obj.m_data) d
      (allocated.1, { members := { col with m_data := none }, m_data := some allocated.2 })
    | none =>
      (FreeStore.delete_array fs obj.m_data,
        { members := { col with m_data := none }, m_data := none })

/-- GFitsTableLongLongCol::fetch_data on an object of the free store. -/
def fetch_data (load_column : GFitsTableLongLongCol → Except Int GFitsTableLongLongCol)
    (fs : FreeStore) (obj : ColumnObject) : Except GException (FreeStore × ColumnObject) :=
  match GFitsTableLongLongCol.fetch_data load_column (obj.contents fs) with
  | Except.error e => Except.error e
  | Except.ok loaded => Except.ok (assign fs obj loaded)

/-- GFitsTableLongLongCol::release_data on an object of the free store. -/
def release_data (fs : FreeStore) (obj : ColumnObject) : FreeStore × ColumnObject :=
  (FreeStore.delete_array fs obj.m_data,
    { members := { obj.members with m_size := 0 }, m_data := none })

/-- GFitsTableLongLongCol::copy_members, called on `this` with the source
`column`: the store, `this` and the source after the call. `small_memory`
tells whether the code is compiled with G_SMALL_MEMORY. The loop
`m_data[i] = column.m_data[i]` for `i < m_size` is `copy_loop` with both
offsets starting at 0. -/
def copy_members (load_column : GFitsTableLongLongCol → Except Int GFitsTableLongLongCol)
    (small_memory : Bool) (fs : FreeStore) (this column : ColumnObject) :
    Except GException (FreeStore × ColumnObject × ColumnObject) :=
  let not_loaded : Bool := decide (column.m_data = none)
  match (if not_loaded then fetch_data load_column fs column else Except.ok (fs, column)) with
  | Except.error e => Except.error e
  | Except.ok fetched =>
    let source : GFitsTableLongLongCol := fetched.2.contents fetched.1
    let members : GFitsTableLongLongCol := { this.members with
      m_type := source.m_type, m_size := source.m_size, m_varlen := source.m_varlen,
      m_rowstart := source.m_rowstart }
    let copied : FreeStore × ColumnObject :=
      if fetched.2.m_data ≠ none ∧ members.m_size > 0 then
        let new_data := GFitsTableLongLongCol.new_long_long members.m_size
        let m_data := (GFitsTableLongLongCol.copy_loop (source.m_data.getD [])
          members.m_size.toNat 0 0 new_data).2.2
        let allocated := FreeStore.new_array (FreeStore.delete_array fetched.1 this.m_data) m_data
        (allocated.1, { members := members, m_data := some allocated.2 })
      else
        (fetched.1, { members := members, m_data := this.m_data })
    let this : ColumnObject :=
      { members := GFitsTableLongLongCol.alloc_nulval copied.2.members source.m_nulval,
        m_data := copied.2.m_data }
    let released :=
      if small_memory && not_loaded then release_data copied.1 fetched.2
      else (copied.1, fetched.2)
    Except.ok (released.1, this, released.2)

/-- GFitsTableLongLongCol::clone, `new GFitsTableLongLongCol(*this)`: the
copy constructor runs the copy constructor of the base class, then
`init_members`, then `copy_members`. The base class is not part of the
sources: `base_copy` gives the members the base class leaves in the new
object. The result is the store, the clone and the source after the call. -/
def clone (base_copy : GFitsTableLongLongCol → GFitsTableLongLongCol)
    (load_column : GFitsTableLongLongCol → Except Int GFitsTableLongLongCol)
    (small_memory : Bool) (fs : FreeStore) (column : ColumnObject) :
    Except GException (FreeStore × ColumnObject × ColumnObject) :=
  let this : ColumnObject :=
    { members := { GFitsTableLongLongCol.init_members (base_copy column.members) with
        m_data := none },
      m_data := none }
  copy_members load_column small_memory fs this column

/-- A write `column(row, inx) = value` through the reference returned by
operator(): the data are loaded when the pointer is NULL, then the element
`m_data[offset(row, inx)]` of the array of the object is set. A write
outside the array or through a NULL pointer (undefined in C++) changes
nothing. -/
def write (load_column : GFitsTableLongLongCol → Except Int GFitsTableLongLongCol)
    (offset : GFitsTableLongLongCol → Int → Int → Int)
    (fs : FreeStore) (obj : ColumnObject) (row inx value : Int) :
    Except GException (FreeStore × ColumnObject) :=
  match (if obj.m_data = none then fetch_data load_column fs obj else Except.ok (fs, obj)) with
  | Except.error e => Except.error e
  | Except.ok fetched =>
    match fetched.2.m_data with
    | some a =>
      Except.ok (fetched.1.set a ((fetched.1.getD a none).map (fun d =>
        d.set (offset (fetched.2.contents fetched.1) row inx).toNat value)), fetched.2)
    | none => Except.ok fetched

/-- GFitsTableLongLongCol::insert on an object of the free store. -/
def insert (load_column : GFitsTableLongLongCol → Except Int GFitsTableLongLongCol)
    (fs : FreeStore) (obj : ColumnObject) (rownum nrows : Int) :
    Except GException (FreeStore × ColumnObject) :=
  match GFitsTableLongLongCol.insert load_column (obj.contents fs) rownum nrows with
  | Except.error e => Except.error e
  | Except.ok col => Except.ok (assign fs obj col)

/-- GFitsTableLongLongCol::remove on an object of the free store. -/
def remove (load_column : GFitsTableLongLongCol → Except Int GFitsTableLongLongCol)
    (fs : FreeStore) (obj : ColumnObject) (rownum nrows : Int) :
    Except GException (FreeStore × ColumnObject) :=
  match GFitsTableLongLongCol.remove load_column (obj.contents fs) rownum nrows with
  | Except.error e => Except.error e
  | Except.ok col => Except.ok (assign fs obj col)

end ColumnObject

/-- A store with the array `[10, 20, 30]` at address 0. -/
def storeID : FreeStore := [some [10, 20, 30]]

/-- The column `ID` as an object whose buffer is the array at address 0. -/
def objectID : ColumnObject :=
  { members := { columnID with m_data := none }, m_data := some 0 }

/-! ## The type double -/

/-- A value of the C++ type `double` in the IEEE 754 binary64 format: a
finite number `(-1)^sign * mantissa * 2^exponent`, an infinity, or a NaN
(whose payload is not kept). The finite values of the format are those with
`mantissa < 2^53` and `-1074 <= exponent <= 971`, written with
`mantissa >= 2^52` unless `exponent = -1074` (zero and the subnormal
numbers). -/
inductive Double where
  | finite (sign : Bool) (mantissa : Nat) (exponent : Int)
  | infinity (sign : Bool)
  | nan
  deriving DecidableEq, Repr

namespace Double

/-- The number of binary digits of `m`, by halving `m` at most `fuel` times. -/
def bit_length_loop : Nat → Nat → Nat
  | 0, _ => 0
  | fuel + 1, m => if m = 0 then 0 else bit_length_loop fuel (m / 2) + 1

/-- The number of binary digits of `m`: 0 for 0, and `k` when
`2^(k-1) <= m < 2^k`. -/
def bit_length (m : Nat) : Nat :=
  bit_length_loop m m

/-- The `double` nearest to `(-1)^sign * m * 2^e`, ties going to the even
mantissa (the default rounding of IEEE 754): the exponent of the result is
the one that leaves 53 binary digits, but not below -1074; the digits
shifted out decide the rounding; a mantissa rounded up to `2^53` moves to
the next exponent; an exponent above 971 gives an infinity. -/
def round (sign : Bool) (m : Nat) (e : Int) : Double :=
  if m = 0 then finite sign 0 (-1074)
  else
    let target : Int := max (e + (bit_length m : Int) - 53) (-1074)
    let shift : Nat := (target - e).toNat
    let q : Nat := if target ≤ e then m * 2 ^ (e - target).toNat else m / 2 ^ shift
    let r : Nat := if target ≤ e then 0 else m % 2 ^ shift
    let half : Nat := 2 ^ (shift - 1)
    let up : Bool := decide (target > e) && (decide (r > half) || (r == half && q % 2 == 1))
    let q1 : Nat := if up then q + 1 else q
    let mantissa : Nat := if q1 = 2 ^ 53 then 2 ^ 52 else q1
    let exponent : Int := if q1 = 2 ^ 53 then target + 1 else target
    if exponent > 971 then infinity sign else finite sign mantissa exponent

/-- The product `a * b` of two `double` values: the exact product rounded
once, as on the platforms that evaluate a `double` expression in binary64;
an infinity times a zero is a NaN. -/
def mul : Double → Double → Double
  | finite s1 m1 e1, finite s2 m2 e2 => round (xor s1 s2) (m1 * m2) (e1 + e2)
  | finite s1 m1 _, infinity s2 => if m1 = 0 then nan else infinity (xor s1 s2)
  | infinity s1, finite s2 m2 _ => if m2 = 0 then nan else infinity (xor s1 s2)
  | infinity s1, infinity s2 => infinity (xor s1 s2)
  | nan, _ => nan
  | _, nan => nan

/-- The value of a finite `double` as a rational number (0 for an infinity
and for a NaN, which have no value). -/
def value : Double → ℚ
  | finite sign m e => (if sign then -1 else 1) * (m : ℚ) * (2 : ℚ) ^ e
  | infinity _ => 0
  | nan => 0

/-- The finite `double` values that are normal numbers. -/
def IsNormal : Double → Prop
  | finite _ m e => 2 ^ 52 ≤ m ∧ m < 2 ^ 53 ∧ -1074 ≤ e ∧ e ≤ 971
  | infinity _ => False
  | nan => False

/-- The literal `0.0`. -/
def lit_0 : Double := finite false 0 (-1074)

/-- The literal `1.0e+3`: `1000 = 8796093022208000 * 2^-43`. -/
def lit_1e3 : Double := finite false 8796093022208000 (-43)

/-- The literal `1.0e+6`: `1000000 = 8589934592000000 * 2^-33`. -/
def lit_1e6 : Double := finite false 8589934592000000 (-33)

/-- The literal `1.0e-3`: the `double` nearest to 1/1000,
`0x1.0624dd2f1a9fcp-10 = 4611686018427388 * 2^-62`. -/
def lit_1em3 : Double := finite false 4611686018427388 (-62)

/-- The literal `1.0e-6`: the `double` nearest to 1/1000000,
`0x1.0c6f7a0b5ed8dp-20 = 4722366482869645 * 2^-72`. -/
def lit_1em6 : Double := finite false 4722366482869645 (-72)

/-- The value `9.0 = 5066549580791808 * 2^-49`. -/
def nine : Double := finite false 5066549580791808 (-49)

/-- The value `1.0 = 4503599627370496 * 2^-52`. -/
def one : Double := finite false 4503599627370496 (-52)

/-- The smallest positive `double`, the subnormal number `2^-1074`. -/
def min_subnormal : Double := finite false 1 (-1074)

/-- The largest finite `double`, `(2^53 - 1) * 2^971`. -/
def max_finite : Double := finite false 9007199254740991 971

/-- The normal numbers of magnitude from `2^-948` up to, not including,
`2^953`: far enough from the subnormal numbers and from the largest
`double` that a product with one of the literals above neither underflows
nor overflows. -/
def InRange : Double → Prop
  | finite _ m e => 2 ^ 52 ≤ m ∧ m < 2 ^ 53 ∧ -1000 ≤ e ∧ e ≤ 900
  | infinity _ => False
  | nan => False

instance (x : Double) : Decidable (InRange x) :=
  match x with
  | finite _ m e => inferInstanceAs (Decidable (2 ^ 52 ≤ m ∧ m < 2 ^ 53 ∧ -1000 ≤ e ∧ e ≤ 900))
  | infinity _ => inferInstanceAs (Decidable False)
  | nan => inferInstanceAs (Decidable False)

instance (x : Double) : Decidable (IsNormal x) :=
  match x with
  | finite _ m e => inferInstanceAs (Decidable (2 ^ 52 ≤ m ∧ m < 2 ^ 53 ∧ -1074 ≤ e ∧ e ≤ 971))
  | infinity _ => inferInstanceAs (Decidable False)
  | nan => inferInstanceAs (Decidable False)

end Double

/-! ## GEnergy -/

/-- The member of GEnergy: the energy in MeV, a `double`. -/
structure GEnergy where
  m_energy : Double
  deriving DecidableEq, Repr

namespace GEnergy

/-- GEnergy::init_members, which is all the void constructor runs:
`m_energy = 0.0`. -/
def init_members : GEnergy :=
  { m_energy := Double.lit_0 }

/-- GEnergy::keV(): `m_energy * 1.0e+3`. -/
def keV (eng : GEnergy) : Double :=
  Double.mul eng.m_energy Double.lit_1e3

/-- GEnergy::MeV(). -/
def MeV (eng : GEnergy) : Double :=
  eng.m_energy

/-- GEnergy::GeV(): `m_energy * 1.0e-3`. -/
def GeV (eng : GEnergy) : Double :=
  Double.mul eng.m_energy Double.lit_1em3

/-- GEnergy::TeV(): `m_energy * 1.0e-6`. -/
def TeV (eng : GEnergy) : Double :=
  Double.mul eng.m_energy Double.lit_1em6

/-- GEnergy::keV(const double&), the setter: `m_energy = eng * 1.0e-3`. -/
def set_keV (this : GEnergy) (eng : Double) : GEnergy :=
  { this with m_energy := Double.mul eng Double.lit_1em3 }

/-- GEnergy::MeV(const double&), the setter: `m_energy = eng`. -/
def set_MeV (this : GEnergy) (eng : Double) : GEnergy :=
  { this with m_energy := eng }

/-- GEnergy::GeV(const double&), the setter: `m_energy = eng * 1.0e+3`. -/
def set_GeV (this : GEnergy) (eng : Double) : GEnergy :=
  { this with m_energy := Double.mul eng Double.lit_1e3 }

/-- GEnergy::TeV(const double&), the setter: `m_energy = eng * 1.0e+6`. -/
def set_TeV (this : GEnergy) (eng : Double) : GEnergy :=
  { this with m_energy := Double.mul eng Double.lit_1e6 }

end GEnergy

/-! ## Insert and remove on the machine: `int` arithmetic and a `new` that can fail -/

/-- What a call of insert or remove can throw: an exception of GException,
or the `std::bad_alloc` of a `new` that finds no storage (the
`std::bad_array_new_length` of a negative size derives from it). -/
inductive Thrown where
  | exception (e : GException)
  | bad_alloc
  deriving DecidableEq, Repr

/-- The value lies in the range of the C++ `int` of the supported platforms
(32 bits). -/
def InInt (v : Int) : Prop :=
  -2147483648 ≤ v ∧ v ≤ 2147483647

instance (v : Int) : Decidable (InInt v) :=
  inferInstanceAs (Decidable (-2147483648 ≤ v ∧ v ≤ 2147483647))

namespace GFitsTableLongLongCol

/-- The expression `new long long[size]`. It throws (`none`) for a negative
size and when the allocator finds no storage; otherwise it returns the
storage `alloc size` handed out by the allocator. The elements of fresh
storage are indeterminate: `alloc` is a parameter and nothing is assumed of
the values it returns. -/
def operator_new (alloc : Int → Option (List Int)) (size : Int) : Option (List Int) :=
  if size < 0 then none else alloc size

/-- GFitsTableLongLongCol::insert on the machine, as a transformer of the
column like `insert_run`. Every `int` expression of the body is reduced
into the range of `int` with `int_cast` (signed overflow, undefined in C++,
is shown as the wrap-around of the supported platforms), and
`new long long[m_size]` is `operator_new`, which can throw and returns
storage of indeterminate content. The assignment `m_size = m_number *
length` stands in front of the `new`, as in the source. The differences in
the guards cannot overflow for `int` arguments and a length of at least 0. -/
def insert_alloc (alloc : Int → Option (List Int))
    (load_column : GFitsTableLongLongCol → Except Int GFitsTableLongLongCol)
    (col : GFitsTableLongLongCol) (rownum nrows : Int) :
    GFitsTableLongLongCol × Option Thrown :=
  if rownum < 0 ∨ rownum > col.m_length then
    (col, some (Thrown.exception (GException.fits_invalid_row G_INSERT rownum col.m_length)))
  else if nrows > 0 then
    if col.m_length = 0 then
      ({ col with m_length := nrows }, none)
    else
      match (if col.m_data = none then fetch_data load_column col else Except.ok col) with
      | Except.error e => (col, some (Thrown.exception e))
      | Except.ok col =>
        let length := int_cast (col.m_length + nrows)
        let col : GFitsTableLongLongCol :=
          { col with m_size := int_cast (col.m_number * length) }
        match operator_new alloc col.m_size with
        | none => (col, some Thrown.bad_alloc)
        | some new_data =>
          let n_before := int_cast (col.m_number * rownum)
          let n_insert := int_cast (col.m_number * nrows)
          let n_after := int_cast (col.m_number * int_cast (col.m_length - rownum))
          let m_data := col.m_data.getD []
          let before := copy_loop m_data n_before.toNat 0 0 new_data
          let filled := zero_loop n_insert.toNat before.2.1 before.2.2
          let after := copy_loop m_data n_after.toNat before.1 filled.1 filled.2
          ({ col with m_data := some after.2.2, m_length := length }, none)
  else
    (col, none)

/-- GFitsTableLongLongCol::remove on the machine, as a transformer of the
column like `remove_run`, with the `int` arithmetic and the
`new long long[m_size]` of `insert_alloc`. -/
def remove_alloc (alloc : Int → Option (List Int))
    (load_column : GFitsTableLongLongCol → Except Int GFitsTableLongLongCol)
    (col : GFitsTableLongLongCol) (rownum nrows : Int) :
    GFitsTableLongLongCol × Option Thrown :=
  if rownum < 0 ∨ rownum ≥ col.m_length then
    (col, some (Thrown.exception
      (GException.fits_invalid_row G_REMOVE rownum (col.m_length - 1))))
  else if nrows < 0 ∨ nrows > col.m_length - rownum then
    (col, some (Thrown.exception
      (GException.fits_invalid_nrows G_REMOVE nrows (col.m_length - rownum))))
  else if nrows > 0 then
    match (if col.m_data = none then fetch_data load_column col else Except.ok col) with
    | Except.error e => (col, some (Thrown.exception e))
    | Except.ok col =>
      let length := int_cast (col.m_length - nrows)
      let col : GFitsTableLongLongCol :=
        { col with m_size := int_cast (col.m_number * length) }
      if col.m_size > 0 then
        match operator_new alloc col.m_size with
        | none => (col, some Thrown.bad_alloc)
        | some new_data =>
          let n_before := int_cast (col.m_number * rownum)
          let n_remove := int_cast (col.m_number * nrows)
          let n_after := int_cast (col.m_number * int_cast (length - rownum))
          let m_data := col.m_data.getD []
          let before := copy_loop m_data n_before.toNat 0 0 new_data
          let after := copy_loop m_data n_after.toNat (before.1 + n_remove.toNat)
            before.2.1 before.2.2
          ({ col with m_data := some after.2.2, m_length := length }, none)
      else
        ({ col with m_data := none, m_length := length }, none)
  else
    (col, none)

end GFitsTableLongLongCol

/-- An allocator that always finds storage: `new long long[size]` returns
`new_long_long size`. -/
def alloc_ok (size : Int) : Option (List Int) :=
  some (GFitsTableLongLongCol.new_long_long size)

/-- An allocator that finds no storage: every `new` throws. -/
def alloc_failing (_ : Int) : Option (List Int) :=
  none

/-- A loaded column of 3 rows of 2 elements each. -/
def columnPairs : GFitsTableLongLongCol :=
  { m_name := "PAIRS", m_length := 3, m_number := 2, m_width := 8, m_type := TLONGLONG,
    m_size := 6, m_varlen := 0, m_rowstart := [], m_data := some [1, 2, 3, 4, 5, 6],
    m_nulval := none }

/-- A 4D image with `naxes = [3, 2, 2, 1]` holding the pixel values 0 to 11. -/
def imageCube : GFitsImage Int :=
  { m_bitpix := 32, m_naxis := 4, m_naxes := [3, 2, 2, 1], m_num_pixels := 12, m_anynul := 0,
    m_pixels := [0, 1, 2, 3, 4, 5, 6, 7, 8, 9, 10, 11] }

/-! ## GSkyDir: the other setters and getters -/

namespace GSkyDir

/-- GSkyDir::free_members: nothing to free. -/
def free_members (dir : GSkyDir) : GSkyDir :=
  dir

/-- GSkyDir::clear: `free_members` followed by `init_members`. -/
def clear (dir : GSkyDir) : GSkyDir :=
  let _freed := free_members dir
  init_members

/-- GSkyDir::radec_deg. -/
def radec_deg (tools : GTools) (dir : GSkyDir) (ra dec : Float) : GSkyDir :=
  { dir with m_has_lb := false, m_has_radec := true,
             m_ra := ra * tools.deg2rad, m_dec := dec * tools.deg2rad }

/-- GSkyDir::lb_deg. -/
def lb_deg (tools : GTools) (dir : GSkyDir) (l b : Float) : GSkyDir :=
  { dir with m_has_lb := true, m_has_radec := false,
             m_l := l * tools.deg2rad, m_b := b * tools.deg2rad }

/-- GSkyDir::celvector(const GVector&), the setter; the vector is shown by
its three components `vector(0)`, `vector(1)`, `vector(2)` (GVector is not
part of the sources). -/
def celvector (dir : GSkyDir) (vector : Float × Float × Float) : GSkyDir :=
  { dir with m_has_lb := false, m_has_radec := true,
             m_dec := Float.asin vector.2.2, m_ra := Float.atan2 vector.2.1 vector.1 }

/-- GSkyDir::rotate. GMatrix and GVector are not part of the sources:
`rotated m_ra m_dec phi theta` stands for the vector `dir` that the matrix
products compute from `m_ra`, `m_dec` and the two angles. -/
def rotate (tools : GTools) (rotated : Float → Float → Float → Float → Float × Float × Float)
    (dir : GSkyDir) (phi theta : Float) : GSkyDir :=
  let dir := if !dir.m_has_radec && dir.m_has_lb then gal2equ tools dir else dir
  celvector dir (rotated dir.m_ra dir.m_dec phi theta)

/-- GSkyDir::l_deg: the direction after the call and the value returned. -/
def l_deg (tools : GTools) (dir : GSkyDir) : GSkyDir × Float :=
  let dir := if !dir.m_has_lb && dir.m_has_radec then equ2gal tools dir else dir
  (dir, dir.m_l * tools.rad2deg)

/-- GSkyDir::b_deg: the direction after the call and the value returned. -/
def b_deg (tools : GTools) (dir : GSkyDir) : GSkyDir × Float :=
  let dir := if !dir.m_has_lb && dir.m_has_radec then equ2gal tools dir else dir
  (dir, dir.m_b * tools.rad2deg)

/-- GSkyDir::ra_deg: the direction after the call and the value returned. -/
def ra_deg (tools : GTools) (dir : GSkyDir) : GSkyDir × Float :=
  let dir := if !dir.m_has_radec && dir.m_has_lb then gal2equ tools dir else dir
  (dir, dir.m_ra * tools.rad2deg)

/-- GSkyDir::dec_deg: the direction after the call and the value returned. -/
def dec_deg (tools : GTools) (dir : GSkyDir) : GSkyDir × Float :=
  let dir := if !dir.m_has_radec && dir.m_has_lb then gal2equ tools dir else dir
  (dir, dir.m_dec * tools.rad2deg)

/-- The directions reached from a default-constructed one (the void
constructor runs `init_members`) by clear, the setters, rotate and the
getters. -/
inductive Reachable (tools : GTools)
    (rotated : Float → Float → Float → Float → Float × Float × Float) : GSkyDir → Prop where
  | constructed : Reachable tools rotated init_members
  | clear (dir : GSkyDir) : Reachable tools rotated dir → Reachable tools rotated (clear dir)
  | radec (dir : GSkyDir) (ra dec : Float) :
      Reachable tools rotated dir → Reachable tools rotated (radec dir ra dec)
  | radec_deg (dir : GSkyDir) (ra dec : Float) :
      Reachable tools rotated dir → Reachable tools rotated (radec_deg tools dir ra dec)
  | lb (dir : GSkyDir) (l b : Float) :
      Reachable tools rotated dir → Reachable tools rotated (lb dir l b)
  | lb_deg (dir : GSkyDir) (l b : Float) :
      Reachable tools rotated dir → Reachable tools rotated (lb_deg tools dir l b)
  | celvector (dir : GSkyDir) (vector : Float × Float × Float) :
      Reachable tools rotated dir → Reachable tools rotated (celvector dir vector)
  | rotate (dir : GSkyDir) (phi theta : Float) :
      Reachable tools rotated dir → Reachable tools rotated (rotate tools rotated dir phi theta)
  | l (dir : GSkyDir) : Reachable tools rotated dir → Reachable tools rotated (l tools dir).1
  | b (dir : GSkyDir) : Reachable tools rotated dir → Reachable tools rotated (b tools dir).1
  | ra (dir : GSkyDir) : Reachable tools rotated dir → Reachable tools rotated (ra tools dir).1
  | dec (dir : GSkyDir) : Reachable tools rotated dir → Reachable tools rotated (dec tools dir).1
  | l_deg (dir : GSkyDir) :
      Reachable tools rotated dir → Reachable tools rotated (l_deg tools dir).1
  | b_deg (dir : GSkyDir) :
      Reachable tools rotated dir → Reachable tools rotated (b_deg tools dir).1
  | ra_deg (dir : GSkyDir) :
      Reachable tools rotated dir → Reachable tools rotated (ra_deg tools dir).1
  | dec_deg (dir : GSkyDir) :
      Reachable tools rotated dir → Reachable tools rotated (dec_deg tools dir).1

end GSkyDir

/-- A sample for the vector computed inside `rotate`: the unit vector of the
direction, moved by the two angles. -/
def sampleRotated (ra dec phi theta : Float) : Float × Float × Float :=
  (Float.cos (dec + theta) * Float.cos (ra + phi),
    Float.cos (dec + theta) * Float.sin (ra + phi), Float.sin (dec + theta))

/-! ## Lemmas on the header -/

namespace GFitsHeader

theorem card_ptr_loop_some_iff (cs : List GFitsHeaderCard) (k : String) :
    ∀ (n s p : Nat), s + n ≤ cs.length →
      (card_ptr_loop cs k n s = some p ↔
        s ≤ p ∧ p < s + n ∧ (∃ c, cs[p]? = some c ∧ c.keyname = k) ∧
          ∀ j, s ≤ j → j < p → ∀ c, cs[j]? = some c → c.keyname ≠ k) := by
  intro n
  induction n with
  | zero =>
    intro s p _
    simp only [card_ptr_loop]
    constructor
    · intro h; cases h
    · rintro ⟨h1, h2, _⟩; omega
  | succ n ih =>
    intro s p hlen
    have hs : s < cs.length := by omega
    obtain ⟨c0, hc0⟩ : ∃ c0, cs[s]? = some c0 := ⟨cs[s], List.getElem?_eq_getElem hs⟩
    simp only [card_ptr_loop, hc0]
    by_cases hk : c0.keyname = k
    · simp only [hk, if_true]
      constructor
      · intro h
        have hp : s = p := by simpa using h
        subst hp
        refine ⟨le_refl _, by omega, ⟨c0, hc0, hk⟩, ?_⟩
        intro j h1 h2; omega
      · rintro ⟨h1, _, _, h4⟩
        by_cases hps : s = p
        · rw [hps]
        · exact absurd hk (h4 s (le_refl _) (by omega) c0 hc0)
    · simp only [hk, if_false]
      rw [ih (s + 1) p (by omega)]
      constructor
      · rintro ⟨h1, h2, h3, h4⟩
        refine ⟨by omega, by omega, h3, ?_⟩
        intro j hj1 hj2 c hc
        by_cases hjs : j = s
        · subst hjs
          rw [hc0] at hc
          cases hc
          exact hk
        · exact h4 j (by omega) hj2 c hc
      · rintro ⟨h1, h2, ⟨c, hc, hck⟩, h4⟩
        have hne : s ≠ p := by
          intro hsp
          subst hsp
          rw [hc0] at hc
          cases hc
          exact hk hck
        refine ⟨by omega, by omega, ⟨c, hc, hck⟩, ?_⟩
        intro j hj1 hj2 c1 hc1
        exact h4 j (by omega) hj2 c1 hc1

theorem card_ptr_loop_none_iff (cs : List GFitsHeaderCard) (k : String) :
    ∀ (n s : Nat), s + n ≤ cs.length →
      (card_ptr_loop cs k n s = none ↔
        ∀ j, s ≤ j → j < s + n → ∀ c, cs[j]? = some c → c.keyname ≠ k) := by
  intro n
  induction n with
  | zero =>
    intro s _
    simp only [card_ptr_loop, true_iff]
    intro j h1 h2; omega
  | succ n ih =>
    intro s hlen
    have hs : s < cs.length := by omega
    obtain ⟨c0, hc0⟩ : ∃ c0, cs[s]? = some c0 := ⟨cs[s], List.getElem?_eq_getElem hs⟩
    simp only [card_ptr_loop, hc0]
    by_cases hk : c0.keyname = k
    · simp only [hk, if_true]
      constructor
      · intro h; cases h
      · intro h
        exact absurd hk (h s (le_refl _) (by omega) c0 hc0)
    · simp only [hk, if_false]
      rw [ih (s + 1) (by omega)]
      constructor
      · intro h j hj1 hj2 c hc
        by_cases hjs : j = s
        · subst hjs
          rw [hc0] at hc
          cases hc
          exact hk
        · exact h j (by omega) (by omega) c hc
      · intro h j hj1 hj2 c hc
        exact h j (by omega) (by omega) c hc

theorem cards_getElem? (h : GFitsHeader) (j : Nat) :
    h.cards[j]? = if j < h.m_num_cards then (h.m_card.getD [])[j]? else none := by
  unfold cards
  exact List.getElem?_take

theorem cards_length (h : GFitsHeader) (hw : h.WellFormed) : h.cards.length = h.m_num_cards := by
  unfold cards
  unfold WellFormed at hw
  simp [List.length_take, hw]

/-- The lookup finds position `p` exactly when `p` is the lowest position of
the header whose keyword equals `k`. -/
theorem card_some_iff (h : GFitsHeader) (hw : h.WellFormed) (k : String) (p : Nat) :
    h.card k = some p ↔
      (∃ c, h.cards[p]? = some c ∧ c.keyname = k) ∧
        ∀ j, j < p → ∀ c, h.cards[j]? = some c → c.keyname ≠ k := by
  unfold card card_ptr
  unfold WellFormed at hw
  rw [card_ptr_loop_some_iff _ _ _ _ _ (by omega)]
  constructor
  · rintro ⟨_, h2, ⟨c, hc, hck⟩, h4⟩
    refine ⟨⟨c, ?_, hck⟩, ?_⟩
    · rw [cards_getElem?, if_pos (by omega)]; exact hc
    · intro j hj c1 hc1
      rw [cards_getElem?, if_pos (by omega)] at hc1
      exact h4 j (Nat.zero_le _) hj c1 hc1
  · rintro ⟨⟨c, hc, hck⟩, h4⟩
    rw [cards_getElem?] at hc
    have hp : p < h.m_num_cards := by
      by_contra hcon
      rw [if_neg hcon] at hc
      cases hc
    rw [if_pos hp] at hc
    refine ⟨Nat.zero_le _, by omega, ⟨c, hc, hck⟩, ?_⟩
    intro j _ hj c1 hc1
    apply h4 j hj c1
    rw [cards_getElem?, if_pos (by omega)]; exact hc1

/-- The lookup finds nothing exactly when no card of the header has the
keyword `k`. -/
theorem card_none_iff (h : GFitsHeader) (hw : h.WellFormed) (k : String) :
    h.card k = none ↔ ∀ c ∈ h.cards, c.keyname ≠ k := by
  unfold card card_ptr
  unfold WellFormed at hw
  rw [card_ptr_loop_none_iff _ _ _ _ (by omega)]
  constructor
  · intro hall c hc
    obtain ⟨j, hj⟩ := List.getElem?_of_mem hc
    have hj2 := hj
    rw [cards_getElem?] at hj2
    by_cases hlt : j < h.m_num_cards
    · rw [if_pos hlt] at hj2
      exact hall j (Nat.zero_le _) (by omega) c hj2
    · rw [if_neg hlt] at hj2
      cases hj2
  · intro hall j _ hj c hc
    apply hall c
    have hmem : h.cards[j]? = some c := by
      rw [cards_getElem?, if_pos (by omega)]; exact hc
    exact List.getElem?_mem hmem

theorem copy_cards_length (src tmp : List GFitsHeaderCard) (n : Nat) :
    (copy_cards src tmp n).length = tmp.length := by
  induction n with
  | zero => rfl
  | succ n ih => simp [copy_cards, ih]

theorem copy_cards_getElem? (src tmp : List GFitsHeaderCard) (n j : Nat) (hn : n ≤ tmp.length) :
    (copy_cards src tmp n)[j]? = if j < n then some (src.getD j default) else tmp[j]? := by
  induction n with
  | zero => simp [copy_cards]
  | succ n ih =>
    have ih1 := ih (by omega)
    simp only [copy_cards]
    by_cases hjn : j = n
    · subst hjn
      rw [List.getElem?_set_self (by rw [copy_cards_length]; omega)]
      simp
    · rw [List.getElem?_set_ne (Ne.symm hjn), ih1]
      by_cases hlt : j < n
      · simp [hlt, Nat.lt_succ_of_lt hlt]
      · have : ¬ j < n + 1 := by omega
        simp [hlt, this]

theorem update_of_card_some (h : GFitsHeader) (c : GFitsHeaderCard) (p : Nat)
    (hp : h.card c.keyname = some p) :
    h.update c = { h with m_card := h.m_card.map (fun cs => cs.set p c) } := by
  unfold update
  rw [hp]

theorem update_of_card_none (h : GFitsHeader) (c : GFitsHeaderCard) (hw : h.WellFormed)
    (hn : h.card c.keyname = none) :
    h.update c = { m_num_cards := h.m_num_cards, m_card := some (h.cards ++ [c]) } := by
  unfold update
  rw [hn]
  obtain ⟨n, mc⟩ := h
  unfold WellFormed at hw
  unfold cards
  cases mc with
  | none =>
    simp only [Option.getD_none, List.length_nil, Nat.le_zero_eq] at hw
    subst hw
    simp
  | some old =>
    simp only [Option.getD_some] at hw
    simp only [Option.getD_some, GFitsHeader.mk.injEq, true_and, Option.some.injEq]
    apply List.ext_getElem?
    intro j
    by_cases hjn : j = n
    · subst hjn
      rw [List.getElem?_set_self (by rw [copy_cards_length]; simp)]
      rw [List.getElem?_append_right (by simp [List.length_take, hw])]
      simp [List.length_take, hw]
    · rw [List.getElem?_set_ne (Ne.symm hjn), copy_cards_getElem? _ _ _ _ (by simp)]
      by_cases hlt : j < n
      · rw [if_pos hlt, List.getElem?_append_left (by simp [List.length_take, hw]; exact hlt)]
        rw [List.getElem?_take_of_lt hlt]
        have hjl : j < old.length := by omega
        simp [List.getD, List.getElem?_eq_getElem hjl]
      · rw [if_neg hlt]
        have hgt : n < j := by omega
        rw [List.getElem?_eq_none (by simp; omega)]
        rw [List.getElem?_eq_none (by simp [List.length_take, hw]; omega)]

theorem wellFormed_update (h : GFitsHeader) (c : GFitsHeaderCard) (hw : h.WellFormed) :
    (h.update c).WellFormed := by
  cases hc : h.card c.keyname with
  | none =>
    rw [update_of_card_none h c hw hc]
    simp [WellFormed, cards_length h hw]
  | some p =>
    rw [update_of_card_some h c p hc]
    unfold WellFormed at *
    cases hm : h.m_card with
    | none => rw [hm] at hw; simpa using hw
    | some cs => rw [hm] at hw; simpa using hw

theorem num_cards_update (h : GFitsHeader) (c : GFitsHeaderCard) :
    (h.update c).m_num_cards = h.m_num_cards := by
  unfold update
  cases h.card c.keyname <;> rfl

theorem cards_update_of_none (h : GFitsHeader) (c : GFitsHeaderCard) (hw : h.WellFormed)
    (hn : h.card c.keyname = none) : (h.update c).cards = h.cards := by
  rw [update_of_card_none h c hw hn]
  have hl := cards_length h hw
  show List.take h.m_num_cards (h.cards ++ [c]) = h.cards
  rw [List.take_append_of_le_length (by omega), List.take_of_length_le (by omega)]

theorem cards_update_of_some (h : GFitsHeader) (c : GFitsHeaderCard) (p : Nat)
    (hp : h.card c.keyname = some p) : (h.update c).cards = h.cards.set p c := by
  rw [update_of_card_some h c p hp]
  unfold cards
  cases hm : h.m_card with
  | none => simp
  | some cs => simp [List.set_take]

theorem split_at_slot {α : Type} (l : List α) (p : Nat) (x c : α) (hx : l[p]? = some x) :
    l = l.take p ++ x :: l.drop (p + 1) ∧ l.set p c = l.take p ++ c :: l.drop (p + 1) := by
  obtain ⟨hp, hxe⟩ := List.getElem?_eq_some.mp hx
  constructor
  · conv_lhs => rw [← List.take_append_drop p l]
    rw [List.drop_eq_getElem_cons hp, hxe]
  · rw [List.set_eq_take_append_cons_drop, if_pos hp]

theorem map_keyname_set (l : List GFitsHeaderCard) (p : Nat) (x c : GFitsHeaderCard)
    (hx : l[p]? = some x) (hk : x.keyname = c.keyname) :
    (l.set p c).map GFitsHeaderCard.keyname = l.map GFitsHeaderCard.keyname := by
  obtain ⟨h1, h2⟩ := split_at_slot l p x c hx
  rw [h2]
  conv_rhs => rw [h1]
  simp [hk]

theorem deref_of_card (h : GFitsHeader) (hw : h.WellFormed) (k : String) (p : Nat)
    (hp : h.card k = some p) :
    ∃ c, h.deref p = some c ∧ h.cards[p]? = some c ∧ c.keyname = k := by
  obtain ⟨⟨c, hc, hck⟩, _⟩ := (card_some_iff h hw k p).mp hp
  refine ⟨c, ?_, hc, hck⟩
  rw [cards_getElem?] at hc
  by_cases hlt : p < h.m_num_cards
  · rw [if_pos hlt] at hc
    exact hc
  · rw [if_neg hlt] at hc
    cases hc

end GFitsHeader

/-! ## GFitsHeader::update and the typed getters -/

/-- C1 (code at the failing input). GFitsHeader::update never assigns
`m_num_cards`: for every header and card the count after `update` is the
count before. On the empty header, whose lookup of `OBJECT` finds nothing,
`update` stores the card in slot 0 of the new array but the header still
reports 0 cards and its card list is still empty. -/
theorem update_absent_count_unchanged :
    (∀ (h : GFitsHeader) (c : GFitsHeaderCard), (h.update c).m_num_cards = h.m_num_cards) ∧
    GFitsHeader.init_members.card cardObject.keyname = none ∧
    (GFitsHeader.init_members.update cardObject).m_num_cards = 0 ∧
    (GFitsHeader.init_members.update cardObject).cards = [] ∧
    (GFitsHeader.init_members.update cardObject).deref 0 = some cardObject := by
  refine ⟨GFitsHeader.num_cards_update, ?_, ?_, ?_, ?_⟩ <;> rfl

/-- C2 (counterexample). In the header `A = 1, A = 2` the card at position 1
has the keyword of `A = 3`, yet after `update` the card at position 1 is
still `A = 2` and it is the card at position 0 that was replaced. -/
theorem update_present_not_first_counterexample :
    headerTwice.WellFormed ∧
    (∃ x, headerTwice.cards[1]? = some x ∧ x.keyname = cardA3.keyname) ∧
    (headerTwice.update cardA3).cards[1]? = some ⟨"A", CardValue.integer 2, ""⟩ ∧
    (headerTwice.update cardA3).cards[1]? ≠ some cardA3 ∧
    (headerTwice.update cardA3).cards[0]? ≠ headerTwice.cards[0]? := by
  refine ⟨by decide, ⟨_, rfl, rfl⟩, rfl, ?_, ?_⟩
  · have h1 : (headerTwice.update cardA3).cards[1]? = some ⟨"A", CardValue.integer 2, ""⟩ := rfl
    rw [h1]
    simp [cardA3]
  · have h0 : (headerTwice.update cardA3).cards[0]? = some ⟨"A", CardValue.integer 3, ""⟩ := rfl
    have h0b : headerTwice.cards[0]? = some ⟨"A", CardValue.integer 1, ""⟩ := rfl
    rw [h0, h0b]
    simp

/-- C2 (amended). For every header and card `c`, if `i` is the lowest
position whose card has the keyword of `c`, then after `update c` the card
at position `i` is `c`, the number of cards is unchanged and every card at
another position is unchanged. -/
theorem update_present_replaces_first (h : GFitsHeader) (c : GFitsHeaderCard) (i : Nat)
    (hw : h.WellFormed)
    (hi : ∃ x, h.cards[i]? = some x ∧ x.keyname = c.keyname)
    (hfirst : ∀ j, j < i → ∀ y, h.cards[j]? = some y → y.keyname ≠ c.keyname) :
    (h.update c).cards[i]? = some c ∧
    (h.update c).m_num_cards = h.m_num_cards ∧
    (h.update c).cards.length = h.cards.length ∧
    ∀ j, j ≠ i → (h.update c).cards[j]? = h.cards[j]? := by
  have hp : h.card c.keyname = some i := (GFitsHeader.card_some_iff h hw _ i).mpr ⟨hi, hfirst⟩
  have hlt : i < h.cards.length := by
    obtain ⟨x, hx, _⟩ := hi
    exact (List.getElem?_eq_some.mp hx).1
  rw [GFitsHeader.cards_update_of_some h c i hp]
  refine ⟨List.getElem?_set_self hlt, GFitsHeader.num_cards_update h c, by simp, ?_⟩
  intro j hj
  exact List.getElem?_set_ne (Ne.symm hj)

/-- Witness for C2 (amended): `NAXIS = 3` replaces `NAXIS = 2` at position 0
of the header `NAXIS = 2, OBJECT = Crab`, and position 1 keeps its card. -/
theorem update_present_replaces_first_witness :
    (headerTwo.update cardNaxis3).cards[0]? = some cardNaxis3 ∧
    (headerTwo.update cardNaxis3).m_num_cards = headerTwo.m_num_cards ∧
    (headerTwo.update cardNaxis3).cards.length = headerTwo.cards.length ∧
    (headerTwo.update cardNaxis3).cards[1]? = headerTwo.cards[1]? :=
  have hall := update_present_replaces_first headerTwo cardNaxis3 0 (by decide)
    ⟨cardNaxis, rfl, rfl⟩ (by intro j hj; omega)
  ⟨hall.1, hall.2.1, hall.2.2.1, hall.2.2.2 1 (by decide)⟩

/-- C3. On the append path of GFitsHeader::update (no card of the header
has the keyword of `c`), every position `i` below the old card count holds
after the update the card it held before. -/
theorem update_append_preserves_cards (h : GFitsHeader) (c : GFitsHeaderCard)
    (hw : h.WellFormed) (habs : ∀ x ∈ h.cards, x.keyname ≠ c.keyname) :
    ∀ i, i < h.m_num_cards →
      ∃ x, h.deref i = some x ∧ (h.update c).deref i = some x ∧
        h.cards[i]? = some x ∧ (h.update c).cards[i]? = some x := by
  intro i hi
  have hn : h.card c.keyname = none := (GFitsHeader.card_none_iff h hw _).mpr habs
  have hlen := GFitsHeader.cards_length h hw
  have hil : i < h.cards.length := by omega
  have hci : h.cards[i]? = some h.cards[i] := List.getElem?_eq_getElem hil
  have hd : h.deref i = some h.cards[i] := by
    have := GFitsHeader.cards_getElem? h i
    rw [if_pos hi] at this
    unfold GFitsHeader.deref
    rw [← this, hci]
  refine ⟨h.cards[i], hd, ?_, hci, ?_⟩
  · rw [GFitsHeader.update_of_card_none h c hw hn]
    show (h.cards ++ [c])[i]? = some h.cards[i]
    rw [List.getElem?_append_left hil, hci]
  · rw [GFitsHeader.cards_update_of_none h c hw hn, hci]

/-- Witness for C3: appending `naxis = 3` to the header `NAXIS = 2, OBJECT =
Crab` keeps the card at position 1. -/
theorem update_append_preserves_cards_witness :
    ∃ x, headerTwo.deref 1 = some x ∧ (headerTwo.update cardNaxisLower).deref 1 = some x ∧
      headerTwo.cards[1]? = some x ∧ (headerTwo.update cardNaxisLower).cards[1]? = some x :=
  update_append_preserves_cards headerTwo cardNaxisLower (by decide)
    (by
      intro x hx
      have hx2 : x = cardNaxis ∨ x = cardObject := by
        simpa [GFitsHeader.cards, headerTwo] using hx
      rcases hx2 with rfl | rfl <;> decide)
    1 (by decide)

/-- C4 (code at the failing input). After `update` of the empty header with
`OBJECT = Crab`, the lookup of `OBJECT` finds no card, and `string`,
`real` and `integer` return their absent-key results instead of the value
of the card. -/
theorem get_after_update_absent_key :
    (GFitsHeader.init_members.update cardObject).card cardObject.keyname = none ∧
    (GFitsHeader.init_members.update cardObject).string sampleConversions "OBJECT" = "" ∧
    (GFitsHeader.init_members.update cardObject).integer sampleConversions "OBJECT" = 0 ∧
    (GFitsHeader.init_members.update cardObject).real sampleConversions "OBJECT" = 0.0 ∧
    sampleConversions.string cardObject = "Crab" := by
  refine ⟨?_, ?_, ?_, ?_, ?_⟩ <;> rfl

/-- C5 (counterexample). In the header `A = 1, A = 2`, two calls of
`update` with `A = 3` leave two cards with the keyword `A`. -/
theorem update_twice_counterexample :
    headerTwice.WellFormed ∧
    (((headerTwice.update cardA3).update cardA3).cards.filter
      (fun x => decide (x.keyname = cardA3.keyname))).length = 2 := by
  refine ⟨by decide, ?_⟩
  rfl

/-- C5 (amended). For every header in which exactly one card has the keyword
of `c`, two calls of `update c` leave exactly one card with that keyword
(the card `c`), leave the other cards and their order unchanged, keep the
sequence of keywords and the card count, and the second call changes
nothing. -/
theorem update_twice_single_keyword (h : GFitsHeader) (c : GFitsHeaderCard)
    (hw : h.WellFormed)
    (hone : (h.cards.filter (fun x => decide (x.keyname = c.keyname))).length = 1) :
    ((h.update c).update c).cards.filter (fun x => decide (x.keyname = c.keyname)) = [c] ∧
    ((h.update c).update c).cards.filter (fun x => !decide (x.keyname = c.keyname)) =
      h.cards.filter (fun x => !decide (x.keyname = c.keyname)) ∧
    ((h.update c).update c).keynames = h.keynames ∧
    ((h.update c).update c).m_num_cards = h.m_num_cards ∧
    (h.update c).update c = h.update c := by
  -- the keyword is present, so the lookup succeeds
  cases hc : h.card c.keyname with
  | none =>
    have hall := (GFitsHeader.card_none_iff h hw _).mp hc
    have hnil : h.cards.filter (fun x => decide (x.keyname = c.keyname)) = [] := by
      rw [List.filter_eq_nil_iff]
      intro a ha
      simpa using hall a ha
    rw [hnil] at hone
    cases hone
  | some p =>
    obtain ⟨⟨x, hx, hxk⟩, hfirst⟩ := (GFitsHeader.card_some_iff h hw _ p).mp hc
    obtain ⟨hs1, hs2⟩ := GFitsHeader.split_at_slot h.cards p x c hx
    have hw1 := GFitsHeader.wellFormed_update h c hw
    have hcards1 : (h.update c).cards = h.cards.set p c := GFitsHeader.cards_update_of_some h c p hc
    have hplt : p < h.cards.length := (List.getElem?_eq_some.mp hx).1
    -- the second lookup finds the same slot
    have hc1 : (h.update c).card c.keyname = some p := by
      rw [GFitsHeader.card_some_iff _ hw1]
      rw [hcards1]
      refine ⟨⟨c, List.getElem?_set_self hplt, rfl⟩, ?_⟩
      intro j hj y hy
      rw [List.getElem?_set_ne (by omega)] at hy
      exact hfirst j hj y hy
    have hsame : (h.update c).update c = h.update c := by
      rw [GFitsHeader.update_of_card_some (h.update c) c p hc1]
      rw [GFitsHeader.update_of_card_some h c p hc]
      cases hm : h.m_card with
      | none => simp
      | some cs => simp [List.set_set]
    rw [hsame, hcards1, GFitsHeader.num_cards_update]
    have hfilt : List.filter (fun x => decide (x.keyname = c.keyname)) h.cards =
        List.filter (fun x => decide (x.keyname = c.keyname)) (h.cards.take p) ++
          x :: List.filter (fun x => decide (x.keyname = c.keyname)) (h.cards.drop (p + 1)) := by
      conv_lhs => rw [hs1]
      simp [List.filter_cons, hxk]
    rw [hfilt] at hone
    simp only [List.length_append, List.length_cons] at hone
    have hA : List.filter (fun x => decide (x.keyname = c.keyname)) (h.cards.take p) = [] :=
      List.length_eq_zero.mp (by omega)
    have hB : List.filter (fun x => decide (x.keyname = c.keyname)) (h.cards.drop (p + 1)) = [] :=
      List.length_eq_zero.mp (by omega)
    refine ⟨?_, ?_, ?_, rfl, rfl⟩
    · rw [hs2]
      simp [List.filter_cons, hA, hB]
    · rw [hs2]
      conv_rhs => rw [hs1]
      simp [List.filter_cons, hxk]
    · unfold GFitsHeader.keynames
      rw [hcards1]
      exact GFitsHeader.map_keyname_set h.cards p x c hx hxk

/-- Witness for C5 (amended): the header `NAXIS = 2, OBJECT = Crab` updated
twice with `NAXIS = 3`. -/
theorem update_twice_single_keyword_witness :
    ((headerTwo.update cardNaxis3).update cardNaxis3).cards.filter
        (fun x => decide (x.keyname = cardNaxis3.keyname)) = [cardNaxis3] ∧
    ((headerTwo.update cardNaxis3).update cardNaxis3).cards.filter
        (fun x => !decide (x.keyname = cardNaxis3.keyname)) =
      headerTwo.cards.filter (fun x => !decide (x.keyname = cardNaxis3.keyname)) ∧
    ((headerTwo.update cardNaxis3).update cardNaxis3).keynames = headerTwo.keynames ∧
    ((headerTwo.update cardNaxis3).update cardNaxis3).m_num_cards = headerTwo.m_num_cards ∧
    (headerTwo.update cardNaxis3).update cardNaxis3 = headerTwo.update cardNaxis3 :=
  update_twice_single_keyword headerTwo cardNaxis3 (by decide) (by rfl)

/-- C6. For every header and keyword: when no card has the keyword,
`string` returns the empty string, `real` returns 0.0 and `integer` returns
0; when a card has the keyword, they return the string, real and integer
value of that card (the first one in header order). -/
theorem typed_getters_absent_and_present (cv : CardConversions) (h : GFitsHeader)
    (k : String) (hw : h.WellFormed) :
    ((∀ c ∈ h.cards, c.keyname ≠ k) →
      h.string cv k = "" ∧ h.real cv k = 0.0 ∧ h.integer cv k = 0) ∧
    (∀ (i : Nat) (c : GFitsHeaderCard), h.cards[i]? = some c → c.keyname = k →
      (∀ j, j < i → ∀ y, h.cards[j]? = some y → y.keyname ≠ k) →
      h.string cv k = cv.string c ∧ h.real cv k = cv.real c ∧ h.integer cv k = cv.integer c) := by
  constructor
  · intro habs
    have hn : h.card k = none := (GFitsHeader.card_none_iff h hw k).mpr habs
    simp [GFitsHeader.string, GFitsHeader.real, GFitsHeader.integer, hn]
  · intro i c hc hck hfirst
    have hp : h.card k = some i := (GFitsHeader.card_some_iff h hw k i).mpr ⟨⟨c, hc, hck⟩, hfirst⟩
    obtain ⟨c1, hd, hc1, _⟩ := GFitsHeader.deref_of_card h hw k i hp
    rw [hc] at hc1
    cases hc1
    simp [GFitsHeader.string, GFitsHeader.real, GFitsHeader.integer, hp, hd]

/-- Witness for C6: in the header `NAXIS = 2, OBJECT = Crab` the absent key
`EXTNAME` gives the zero values and the key `OBJECT` gives the values of its
card. -/
theorem typed_getters_absent_and_present_witness :
    (headerTwo.string sampleConversions "EXTNAME" = "" ∧
      headerTwo.real sampleConversions "EXTNAME" = 0.0 ∧
      headerTwo.integer sampleConversions "EXTNAME" = 0) ∧
    (headerTwo.string sampleConversions "OBJECT" = "Crab" ∧
      headerTwo.real sampleConversions "OBJECT" = sampleConversions.real cardObject ∧
      headerTwo.integer sampleConversions "OBJECT" = sampleConversions.integer cardObject) :=
  ⟨(typed_getters_absent_and_present sampleConversions headerTwo "EXTNAME" (by decide)).1
      (by
        intro x hx
        have hx2 : x = cardNaxis ∨ x = cardObject := by
          simpa [GFitsHeader.cards, headerTwo] using hx
        rcases hx2 with rfl | rfl <;> decide),
    (typed_getters_absent_and_present sampleConversions headerTwo "OBJECT" (by decide)).2
      1 cardObject rfl rfl
      (by
        intro j hj y hy
        have hj0 : j = 0 := by omega
        subst hj0
        have hy2 : y = cardNaxis := by
          have : headerTwo.cards[0]? = some cardNaxis := rfl
          rw [this] at hy
          cases hy
          rfl
        subst hy2
        decide)⟩

/-- C7 (counterexample). The keywords `naxis` and `NAXIS` differ only in
letter case; the header `NAXIS = 2, OBJECT = Crab` finds `NAXIS` at position
0, but the lookup of `naxis` finds nothing, and `update` with the card
`naxis = 3` leaves the card `NAXIS = 2` in place and stores the new card in
the slot behind the existing ones. -/
theorem keyword_case_counterexample :
    "naxis".data.map Char.toUpper = "NAXIS".data ∧
    headerTwo.card "NAXIS" = some 0 ∧
    headerTwo.card "naxis" = none ∧
    headerTwo.integer sampleConversions "naxis" = 0 ∧
    (headerTwo.update cardNaxisLower).deref 0 = some cardNaxis ∧
    (headerTwo.update cardNaxisLower).deref 2 = some cardNaxisLower := by
  refine ⟨by decide, by decide, by decide, ?_, ?_, ?_⟩ <;> rfl

/-- C7 (amended). Header keywords are compared exactly: a lookup by `k`
finds a card only if the keyword of that card is `k` character for
character, and when no card has exactly the keyword `k` the lookup finds
nothing and `update` with a card keyed `k` replaces no card of the
header. -/
theorem keyword_lookup_is_exact (h : GFitsHeader) (k : String) (hw : h.WellFormed) :
    (∀ p, h.card k = some p → ∃ c, h.cards[p]? = some c ∧ c.keyname = k) ∧
    ((∀ c ∈ h.cards, c.keyname ≠ k) →
      h.card k = none ∧
        ∀ c : GFitsHeaderCard, c.keyname = k → (h.update c).cards = h.cards) := by
  constructor
  · intro p hp
    obtain ⟨c, _, hc, hck⟩ := GFitsHeader.deref_of_card h hw k p hp
    exact ⟨c, hc, hck⟩
  · intro habs
    have hn : h.card k = none := (GFitsHeader.card_none_iff h hw k).mpr habs
    refine ⟨hn, ?_⟩
    intro c hck
    subst hck
    exact GFitsHeader.cards_update_of_none h c hw hn

/-- Witness for C7 (amended): in the header `NAXIS = 2, OBJECT = Crab` the
lookup of `OBJECT` finds a card keyed exactly `OBJECT`, while the lookup of
`naxis` finds nothing and `update` with `naxis = 3` replaces no card. -/
theorem keyword_lookup_is_exact_witness :
    (∃ c, headerTwo.cards[1]? = some c ∧ c.keyname = "OBJECT") ∧
    headerTwo.card "naxis" = none ∧
    (headerTwo.update cardNaxisLower).cards = headerTwo.cards :=
  have habs : ∀ c ∈ headerTwo.cards, c.keyname ≠ "naxis" := by
    intro x hx
    have hx2 : x = cardNaxis ∨ x = cardObject := by
      simpa [GFitsHeader.cards, headerTwo] using hx
    rcases hx2 with rfl | rfl <;> decide
  have hno := (keyword_lookup_is_exact headerTwo "naxis" (by decide)).2 habs
  ⟨(keyword_lookup_is_exact headerTwo "OBJECT" (by decide)).1 1 (by decide),
    hno.1, hno.2 cardNaxisLower rfl⟩

/-- C8. If no two cards of a header share a keyword, then after `update c`,
for any card `c`, no two cards of the header share a keyword; the same holds
for the slots of the whole array `m_card`. -/
theorem update_preserves_unique_keywords (h : GFitsHeader) (c : GFitsHeaderCard)
    (hw : h.WellFormed) (hu : h.keynames.Nodup) :
    (h.update c).keynames.Nodup ∧
    (((h.m_card.getD []).map GFitsHeaderCard.keyname).Nodup →
      (((h.update c).m_card.getD []).map GFitsHeaderCard.keyname).Nodup) := by
  cases hc : h.card c.keyname with
  | none =>
    have habs := (GFitsHeader.card_none_iff h hw _).mp hc
    constructor
    · unfold GFitsHeader.keynames
      rw [GFitsHeader.cards_update_of_none h c hw hc]
      exact hu
    · intro _
      rw [GFitsHeader.update_of_card_none h c hw hc]
      show (List.map GFitsHeaderCard.keyname (h.cards ++ [c])).Nodup
      rw [List.map_append, List.nodup_append]
      refine ⟨hu, by simp, ?_⟩
      intro a ha hb
      have hb2 : a = c.keyname := by simpa using hb
      subst hb2
      obtain ⟨x, hx, hxk⟩ := List.mem_map.mp ha
      exact habs x hx hxk
  | some p =>
    obtain ⟨x, hd, hx, hxk⟩ := GFitsHeader.deref_of_card h hw _ p hc
    constructor
    · unfold GFitsHeader.keynames
      rw [GFitsHeader.cards_update_of_some h c p hc]
      rw [GFitsHeader.map_keyname_set h.cards p x c hx hxk]
      exact hu
    · intro hall
      rw [GFitsHeader.update_of_card_some h c p hc]
      unfold GFitsHeader.deref at hd
      cases hm : h.m_card with
      | none => simp
      | some cs =>
        rw [hm] at hd hall
        simp only [Option.getD_some] at hd hall
        simp only [Option.map_some', Option.getD_some]
        rw [GFitsHeader.map_keyname_set cs p x c hd hxk]
        exact hall

/-- Witness for C8: the header `NAXIS = 2, OBJECT = Crab` has distinct
keywords and keeps them distinct after `update` with `NAXIS = 3`. -/
theorem update_preserves_unique_keywords_witness :
    headerTwo.keynames.Nodup ∧ (headerTwo.update cardNaxis3).keynames.Nodup :=
  ⟨by decide, (update_preserves_unique_keywords headerTwo cardNaxis3 (by decide) (by decide)).1⟩

/-! ## Lemmas on the column -/

namespace GFitsTableLongLongCol

theorem copy_loop_eq (d : List Int) :
    ∀ (n src dst : Nat) (nd : List Int), src + n ≤ d.length → dst + n ≤ nd.length →
      copy_loop d n src dst nd =
        (src + n, dst + n, nd.take dst ++ (d.drop src).take n ++ nd.drop (dst + n)) := by
  intro n
  induction n with
  | zero =>
    intro src dst nd _ _
    simp [copy_loop]
  | succ n ih =>
    intro src dst nd hs hd
    have hsl : src < d.length := by omega
    have hdl : dst < nd.length := by omega
    simp only [copy_loop]
    rw [ih (src + 1) (dst + 1) _ (by omega) (by rw [List.length_set]; omega)]
    have hv : d.getD src 0 = d[src] := by
      simp [List.getD, List.getElem?_eq_getElem hsl]
    have hlen : (nd.take dst).length = dst := by
      rw [List.length_take]; omega
    have h1 : (nd.set dst (d.getD src 0)).take (dst + 1) = nd.take dst ++ [d[src]] := by
      rw [List.set_eq_take_append_cons_drop, if_pos hdl, hv]
      have := @List.take_append _ (nd.take dst) (d[src] :: nd.drop (dst + 1)) 1
      rw [hlen] at this
      rw [this]
      simp
    have h2 : (nd.set dst (d.getD src 0)).drop (dst + 1 + n) = nd.drop (dst + (n + 1)) := by
      rw [List.drop_set_of_lt _ _ (by omega)]
      congr 1
      omega
    have h3 : (d.drop src).take (n + 1) = d[src] :: (d.drop (src + 1)).take n := by
      rw [List.drop_eq_getElem_cons hsl, List.take_succ_cons]
    rw [h1, h2, h3]
    refine Prod.ext (by simp; omega) (Prod.ext (by simp; omega) ?_)
    simp

theorem zero_loop_eq :
    ∀ (n dst : Nat) (nd : List Int), dst + n ≤ nd.length →
      zero_loop n dst nd = (dst + n, nd.take dst ++ List.replicate n 0 ++ nd.drop (dst + n)) := by
  intro n
  induction n with
  | zero =>
    intro dst nd _
    simp [zero_loop]
  | succ n ih =>
    intro dst nd hd
    have hdl : dst < nd.length := by omega
    simp only [zero_loop]
    rw [ih (dst + 1) _ (by rw [List.length_set]; omega)]
    have hlen : (nd.take dst).length = dst := by
      rw [List.length_take]; omega
    have h1 : (nd.set dst 0).take (dst + 1) = nd.take dst ++ [0] := by
      rw [List.set_eq_take_append_cons_drop, if_pos hdl]
      have := @List.take_append _ (nd.take dst) ((0 : Int) :: nd.drop (dst + 1)) 1
      rw [hlen] at this
      rw [this]
      simp
    have h2 : (nd.set dst 0).drop (dst + 1 + n) = nd.drop (dst + (n + 1)) := by
      rw [List.drop_set_of_lt _ _ (by omega)]
      congr 1
      omega
    rw [h1, h2, List.replicate_succ]
    refine Prod.ext (by simp; omega) ?_
    simp

end GFitsTableLongLongCol

/-! ## Further lemmas on the column -/

namespace GFitsTableLongLongCol

theorem copy_loop_length (d : List Int) :
    ∀ (n src dst : Nat) (nd : List Int), (copy_loop d n src dst nd).2.2.length = nd.length := by
  intro n
  induction n with
  | zero => intro src dst nd; rfl
  | succ n ih =>
    intro src dst nd
    simp only [copy_loop]
    rw [ih, List.length_set]

theorem zero_loop_length :
    ∀ (n dst : Nat) (nd : List Int), (zero_loop n dst nd).2.length = nd.length := by
  intro n
  induction n with
  | zero => intro dst nd; rfl
  | succ n ih =>
    intro dst nd
    simp only [zero_loop]
    rw [ih, List.length_set]

/-- The storage of `new long long[size]` has `size` elements. -/
theorem new_long_long_length (size : Int) : (new_long_long size).length = size.toNat := by
  simp [new_long_long]

/-- The three loops of insert, run on storage of `nb + ni + na` elements of
any content, produce the first `nb` elements of `d`, then `ni` zeros, then
the rest of `d`: every element of the storage is overwritten. -/
theorem insert_loops_any (d nd : List Int) (nb ni na : Nat) (hd : d.length = nb + na)
    (hnd : nd.length = nb + ni + na) :
    (copy_loop d na (copy_loop d nb 0 0 nd).1
      (zero_loop ni (copy_loop d nb 0 0 nd).2.1 (copy_loop d nb 0 0 nd).2.2).1
      (zero_loop ni (copy_loop d nb 0 0 nd).2.1 (copy_loop d nb 0 0 nd).2.2).2).2.2
      = d.take nb ++ List.replicate ni 0 ++ d.drop nb := by
  rw [copy_loop_eq d nb 0 0 _ (by omega) (by omega)]
  simp only [Nat.zero_add, List.take_zero, List.nil_append, List.drop_zero]
  have hA : (d.take nb).length = nb := by rw [List.length_take]; omega
  rw [zero_loop_eq ni nb _ (by rw [List.length_append, hA, List.length_drop]; omega)]
  simp only []
  have hX1 : List.take nb (List.take nb d ++ List.drop nb nd) = List.take nb d :=
    List.take_left' hA
  have hX2 : List.drop (nb + ni) (List.take nb d ++ List.drop nb nd) =
      List.drop (nb + ni) nd := by
    have := @List.drop_append _ (List.take nb d) (List.drop nb nd) ni
    rw [hA] at this
    rw [this, List.drop_drop]
  rw [hX1, hX2]
  have hY : (List.take nb d ++ List.replicate ni (0 : Int)).length = nb + ni := by
    rw [List.length_append, hA, List.length_replicate]
  rw [copy_loop_eq d na nb (nb + ni) _ (by omega)
    (by rw [List.length_append, hY, List.length_drop]; omega)]
  simp only []
  have hY1 : List.take (nb + ni)
      (List.take nb d ++ List.replicate ni 0 ++ List.drop (nb + ni) nd)
      = List.take nb d ++ List.replicate ni 0 := List.take_left' hY
  have hY2 : List.drop (nb + ni + na)
      (List.take nb d ++ List.replicate ni 0 ++ List.drop (nb + ni) nd) = [] := by
    apply List.drop_of_length_le
    rw [List.length_append, hY, List.length_drop]
    omega
  have hZ : List.take na (List.drop nb d) = List.drop nb d := by
    apply List.take_of_length_le
    rw [List.length_drop]
    omega
  rw [hY1, hY2, hZ, List.append_nil]

/-- The two loops of remove, run on storage of `nb + na` elements of any
content, produce the first `nb` elements of `d` followed by the elements of
`d` from index `nb + nr` on. -/
theorem remove_loops_any (d nd : List Int) (nb nr na : Nat) (hd : d.length = nb + nr + na)
    (hnd : nd.length = nb + na) :
    (copy_loop d na ((copy_loop d nb 0 0 nd).1 + nr) (copy_loop d nb 0 0 nd).2.1
      (copy_loop d nb 0 0 nd).2.2).2.2
      = d.take nb ++ d.drop (nb + nr) := by
  rw [copy_loop_eq d nb 0 0 _ (by omega) (by omega)]
  simp only [Nat.zero_add, List.take_zero, List.nil_append, List.drop_zero]
  have hA : (d.take nb).length = nb := by rw [List.length_take]; omega
  rw [copy_loop_eq d na (nb + nr) nb _ (by omega)
    (by rw [List.length_append, hA, List.length_drop]; omega)]
  simp only []
  have hX1 : List.take nb (List.take nb d ++ List.drop nb nd) = List.take nb d :=
    List.take_left' hA
  have hX2 : List.drop (nb + na) (List.take nb d ++ List.drop nb nd) = [] := by
    apply List.drop_of_length_le
    rw [List.length_append, hA, List.length_drop]
    omega
  have hZ : List.take na (List.drop (nb + nr) d) = List.drop (nb + nr) d := by
    apply List.take_of_length_le
    rw [List.length_drop]
    omega
  rw [hX1, hX2, hZ, List.append_nil]

/-- The result of remove on a column whose data, after the load forced when
no data are present, are the buffer `d`. -/
theorem remove_of_fetched
    (load_column : GFitsTableLongLongCol → Except Int GFitsTableLongLongCol)
    (col start : GFitsTableLongLongCol) (d : List Int) (rownum nrows : Int)
    (hr0 : 0 ≤ rownum) (hr1 : rownum < col.m_length) (hn : 0 < nrows)
    (hn1 : nrows ≤ col.m_length - rownum)
    (hstart : (if col.m_data = none then fetch_data load_column col else Except.ok col) =
      Except.ok start)
    (hdata : start.m_data = some d) (hm : 0 < start.m_number)
    (hsize : (d.length : Int) = start.m_number * start.m_length)
    (hr2 : rownum + nrows ≤ start.m_length) :
    remove load_column col rownum nrows =
      Except.ok (if 0 < start.m_length - nrows then
        { start with
          m_size := start.m_number * (start.m_length - nrows)
          m_data := some (d.take (start.m_number * rownum).toNat ++
            d.drop (start.m_number * (rownum + nrows)).toNat)
          m_length := start.m_length - nrows }
      else
        { start with
          m_size := start.m_number * (start.m_length - nrows)
          m_data := none
          m_length := start.m_length - nrows }) := by
  have hnb : 0 ≤ start.m_number * rownum := mul_nonneg (le_of_lt hm) hr0
  have hnr : 0 ≤ start.m_number * nrows := mul_nonneg (le_of_lt hm) (le_of_lt hn)
  have hna : 0 ≤ start.m_number * (start.m_length - nrows - rownum) :=
    mul_nonneg (le_of_lt hm) (by omega)
  have hsum : start.m_number * (start.m_length - nrows) =
      start.m_number * rownum + start.m_number * (start.m_length - nrows - rownum) := by
    ring
  have hsplit : start.m_number * start.m_length =
      start.m_number * rownum + start.m_number * nrows +
        start.m_number * (start.m_length - nrows - rownum) := by
    ring
  have hrn : start.m_number * (rownum + nrows) =
      start.m_number * rownum + start.m_number * nrows := by
    ring
  have hN : (start.m_number * (start.m_length - nrows)).toNat =
      (start.m_number * rownum).toNat +
        (start.m_number * (start.m_length - nrows - rownum)).toNat := by
    rw [hsum]; omega
  have hdl : d.length =
      (start.m_number * rownum).toNat + (start.m_number * nrows).toNat +
        (start.m_number * (start.m_length - nrows - rownum)).toNat := by
    omega
  have hRN : (start.m_number * (rownum + nrows)).toNat =
      (start.m_number * rownum).toNat + (start.m_number * nrows).toNat := by
    rw [hrn]; omega
  unfold remove
  rw [if_neg (by omega), if_neg (by omega), if_pos hn, hstart]
  simp only []
  by_cases hpos : 0 < start.m_length - nrows
  · have hsz : start.m_number * (start.m_length - nrows) > 0 := mul_pos hm hpos
    rw [if_pos hsz, if_pos hpos]
    simp only [hdata, Option.getD_some]
    rw [hRN, remove_loops_any d _ _ _ _ hdl (by rw [new_long_long_length, hN])]
  · have hzero : start.m_length - nrows = 0 := by omega
    have hsz : ¬ start.m_number * (start.m_length - nrows) > 0 := by
      rw [hzero]; simp
    rw [if_neg hsz, if_neg hpos]

theorem fetch_of_loaded
    (load_column : GFitsTableLongLongCol → Except Int GFitsTableLongLongCol)
    (col : GFitsTableLongLongCol) (d : List Int) (hdata : col.m_data = some d) :
    (if col.m_data = none then fetch_data load_column col else Except.ok col) =
      Except.ok col := by
  rw [hdata]; simp

theorem outcome_insert_run
    (load_column : GFitsTableLongLongCol → Except Int GFitsTableLongLongCol)
    (col : GFitsTableLongLongCol) (rownum nrows : Int) :
    outcome (insert_run load_column col rownum nrows) = insert load_column col rownum nrows := by
  unfold insert_run insert outcome
  by_cases h1 : rownum < 0 ∨ rownum > col.m_length
  · simp only [if_pos h1]
  · simp only [if_neg h1]
    by_cases h2 : nrows > 0
    · simp only [if_pos h2]
      by_cases h3 : col.m_length = 0
      · simp only [if_pos h3]
      · simp only [if_neg h3]
        generalize (if col.m_data = none then fetch_data load_column col else Except.ok col) = f
        cases f <;> rfl
    · simp only [if_neg h2]

theorem outcome_remove_run
    (load_column : GFitsTableLongLongCol → Except Int GFitsTableLongLongCol)
    (col : GFitsTableLongLongCol) (rownum nrows : Int) :
    outcome (remove_run load_column col rownum nrows) = remove load_column col rownum nrows := by
  unfold remove_run remove outcome
  by_cases h1 : rownum < 0 ∨ rownum ≥ col.m_length
  · simp only [if_pos h1]
  · simp only [if_neg h1]
    by_cases h2 : nrows < 0 ∨ nrows > col.m_length - rownum
    · simp only [if_pos h2]
    · simp only [if_neg h2]
      by_cases h3 : nrows > 0
      · simp only [if_pos h3]
        generalize (if col.m_data = none then fetch_data load_column col else Except.ok col) = f
        cases f with
        | error e => rfl
        | ok c =>
          simp only []
          by_cases h4 : c.m_number * (c.m_length - nrows) > 0
          · simp only [if_pos h4]
          · simp only [if_neg h4]
      · simp only [if_neg h3]

end GFitsTableLongLongCol

/-! ## GFitsTableLongLongCol::remove -/

/-- C13 (counterexample). On the column `ID = [10, 20, 30]` of length 3,
`insert(3, 0)` is accepted and changes nothing, but the following
`remove(3, 0)` fails with the invalid-row error. With `int` arithmetic and a
`new` that can fail the two calls end the same way; there, moreover,
`insert(0, 2147483647)` is accepted by the guard but the new length
overflows `int` and `new` throws, and `insert(1, 2)` fails when `new` finds
no storage. -/
theorem insert_remove_inverse_counterexample :
    GFitsTableLongLongCol.insert load_column_zero columnID 3 0 = Except.ok columnID ∧
    GFitsTableLongLongCol.remove load_column_zero columnID 3 0 =
      Except.error (GException.fits_invalid_row G_REMOVE 3 2) ∧
    GFitsTableLongLongCol.insert_alloc alloc_ok load_column_zero columnID 3 0 =
      (columnID, none) ∧
    GFitsTableLongLongCol.remove_alloc alloc_ok load_column_zero columnID 3 0 =
      (columnID, some (Thrown.exception (GException.fits_invalid_row G_REMOVE 3 2))) ∧
    (GFitsTableLongLongCol.insert_alloc alloc_ok load_column_zero columnID 0 2147483647).2 =
      some Thrown.bad_alloc ∧
    (GFitsTableLongLongCol.insert_alloc alloc_failing load_column_zero columnID 1 2).2 =
      some Thrown.bad_alloc := by
  refine ⟨rfl, rfl, rfl, rfl, rfl, rfl⟩

/-! ## Invariant and frame properties of the column -/

namespace GFitsTableLongLongCol

theorem insert_preserves_invariant
    (load_column : GFitsTableLongLongCol → Except Int GFitsTableLongLongCol)
    (col col' : GFitsTableLongLongCol) (rownum nrows : Int)
    (hinv : BufferSizeInvariant col) (hzero : col.m_length = 0 → col.m_data = none)
    (hins : insert load_column col rownum nrows = Except.ok col') :
    BufferSizeInvariant col' := by
  unfold insert at hins
  by_cases h1 : rownum < 0 ∨ rownum > col.m_length
  · rw [if_pos h1] at hins; cases hins
  · rw [if_neg h1] at hins
    by_cases h2 : nrows > 0
    · rw [if_pos h2] at hins
      by_cases h3 : col.m_length = 0
      · rw [if_pos h3] at hins
        cases hins
        intro hd
        exact absurd (hzero h3) hd
      · rw [if_neg h3] at hins
        generalize (if col.m_data = none then fetch_data load_column col else Except.ok col) = f
          at hins
        cases f with
        | error e => cases hins
        | ok c =>
          simp only [Except.ok.injEq] at hins
          subst hins
          intro _
          show c.m_number * (c.m_length + nrows) = (c.m_length + nrows) * c.m_number
          ring
    · rw [if_neg h2] at hins
      cases hins
      exact hinv

theorem insert_preserves_zero_rows
    (load_column : GFitsTableLongLongCol → Except Int GFitsTableLongLongCol)
    (hload : ∀ c c', load_column c = Except.ok c' → c'.m_length = c.m_length)
    (col col' : GFitsTableLongLongCol) (rownum nrows : Int)
    (hzero : col.m_length = 0 → col.m_data = none)
    (hins : insert load_column col rownum nrows = Except.ok col') :
    col'.m_length = 0 → col'.m_data = none := by
  unfold insert at hins
  by_cases h1 : rownum < 0 ∨ rownum > col.m_length
  · rw [if_pos h1] at hins; cases hins
  · rw [if_neg h1] at hins
    by_cases h2 : nrows > 0
    · rw [if_pos h2] at hins
      by_cases h3 : col.m_length = 0
      · rw [if_pos h3] at hins
        cases hins
        intro _
        exact hzero h3
      · rw [if_neg h3] at hins
        have hlen : ∀ c, (if col.m_data = none then fetch_data load_column col
            else Except.ok col) = Except.ok c → c.m_length = col.m_length := by
          intro c hc
          by_cases hd : col.m_data = none
          · rw [if_pos hd] at hc
            unfold fetch_data at hc
            cases hl : load_column col with
            | error status => rw [hl] at hc; cases hc
            | ok loaded =>
              rw [hl] at hc
              cases hc
              exact hload col c hl
          · rw [if_neg hd] at hc
            cases hc
            rfl
        generalize (if col.m_data = none then fetch_data load_column col else Except.ok col) = f
          at hins hlen
        cases f with
        | error e => cases hins
        | ok c =>
          have hc := hlen c rfl
          simp only [Except.ok.injEq] at hins
          subst hins
          intro hz
          have hz' : c.m_length + nrows = 0 := hz
          omega
    · rw [if_neg h2] at hins
      cases hins
      exact hzero

theorem remove_preserves_invariant
    (load_column : GFitsTableLongLongCol → Except Int GFitsTableLongLongCol)
    (col col' : GFitsTableLongLongCol) (rownum nrows : Int)
    (hinv : BufferSizeInvariant col)
    (hrem : remove load_column col rownum nrows = Except.ok col') :
    BufferSizeInvariant col' := by
  unfold remove at hrem
  by_cases h1 : rownum < 0 ∨ rownum ≥ col.m_length
  · rw [if_pos h1] at hrem; cases hrem
  · rw [if_neg h1] at hrem
    by_cases h2 : nrows < 0 ∨ nrows > col.m_length - rownum
    · rw [if_pos h2] at hrem; cases hrem
    · rw [if_neg h2] at hrem
      by_cases h3 : nrows > 0
      · rw [if_pos h3] at hrem
        generalize (if col.m_data = none then fetch_data load_column col else Except.ok col) = f
          at hrem
        cases f with
        | error e => cases hrem
        | ok c =>
          simp only [] at hrem
          by_cases h4 : c.m_number * (c.m_length - nrows) > 0
          · rw [if_pos h4] at hrem
            simp only [Except.ok.injEq] at hrem
            subst hrem
            intro _
            show c.m_number * (c.m_length - nrows) = (c.m_length - nrows) * c.m_number
            ring
          · rw [if_neg h4] at hrem
            simp only [Except.ok.injEq] at hrem
            subst hrem
            intro hd
            exact absurd rfl hd
      · rw [if_neg h3] at hrem
        cases hrem
        exact hinv

theorem remove_preserves_zero_rows
    (load_column : GFitsTableLongLongCol → Except Int GFitsTableLongLongCol)
    (col col' : GFitsTableLongLongCol) (rownum nrows : Int)
    (hzero : col.m_length = 0 → col.m_data = none)
    (hrem : remove load_column col rownum nrows = Except.ok col') :
    col'.m_length = 0 → col'.m_data = none := by
  unfold remove at hrem
  by_cases h1 : rownum < 0 ∨ rownum ≥ col.m_length
  · rw [if_pos h1] at hrem; cases hrem
  · rw [if_neg h1] at hrem
    by_cases h2 : nrows < 0 ∨ nrows > col.m_length - rownum
    · rw [if_pos h2] at hrem; cases hrem
    · rw [if_neg h2] at hrem
      by_cases h3 : nrows > 0
      · rw [if_pos h3] at hrem
        generalize (if col.m_data = none then fetch_data load_column col else Except.ok col) = f
          at hrem
        cases f with
        | error e => cases hrem
        | ok c =>
          simp only [] at hrem
          by_cases h4 : c.m_number * (c.m_length - nrows) > 0
          · rw [if_pos h4] at hrem
            simp only [Except.ok.injEq] at hrem
            subst hrem
            intro hz
            have hz' : c.m_length - nrows = 0 := hz
            rw [hz'] at h4
            simp at h4
          · rw [if_neg h4] at hrem
            simp only [Except.ok.injEq] at hrem
            subst hrem
            intro _
            rfl
      · rw [if_neg h3] at hrem
        cases hrem
        exact hzero

theorem reachable_invariant
    (load_column : GFitsTableLongLongCol → Except Int GFitsTableLongLongCol)
    (base_free_members base_init_members : GFitsTableLongLongCol → GFitsTableLongLongCol)
    (hload : ∀ c c', load_column c = Except.ok c' → c'.m_length = c.m_length)
    (col : GFitsTableLongLongCol)
    (hreach : Reachable load_column base_free_members base_init_members col) :
    BufferSizeInvariant col ∧ (col.m_length = 0 → col.m_data = none) := by
  induction hreach with
  | constructed base =>
    exact ⟨fun hd => absurd rfl hd, fun _ => rfl⟩
  | insert c c' rownum nrows _ hins ih =>
    exact ⟨insert_preserves_invariant load_column c c' rownum nrows ih.1 ih.2 hins,
      insert_preserves_zero_rows load_column hload c c' rownum nrows ih.2 hins⟩
  | remove c c' rownum nrows _ hrem ih =>
    exact ⟨remove_preserves_invariant load_column c c' rownum nrows ih.1 hrem,
      remove_preserves_zero_rows load_column c c' rownum nrows ih.2 hrem⟩
  | release_data c _ _ =>
    exact ⟨fun hd => absurd rfl hd, fun _ => rfl⟩
  | clear c _ _ =>
    exact ⟨fun hd => absurd rfl hd, fun _ => rfl⟩

end GFitsTableLongLongCol

/-- C15. Whenever insert fails with the invalid-row error, or remove fails
with the invalid-row or the invalid-nrows error, the column is left exactly
as it was before the call: every member, and so the length, the loaded
size, the buffer and the NULL sentinel, is unchanged. The exception of the
transformer is the one the caller of insert and remove sees. -/
theorem argument_errors_leave_column
    (load_column : GFitsTableLongLongCol → Except Int GFitsTableLongLongCol)
    (col : GFitsTableLongLongCol) (rownum nrows : Int) :
    (∀ origin row max_row,
      GFitsTableLongLongCol.insert load_column col rownum nrows =
        Except.error (GException.fits_invalid_row origin row max_row) →
      (GFitsTableLongLongCol.insert_run load_column col rownum nrows).2 =
        some (GException.fits_invalid_row origin row max_row) ∧
      (GFitsTableLongLongCol.insert_run load_column col rownum nrows).1 = col) ∧
    (∀ origin row max_row,
      GFitsTableLongLongCol.remove load_column col rownum nrows =
        Except.error (GException.fits_invalid_row origin row max_row) →
      (GFitsTableLongLongCol.remove_run load_column col rownum nrows).2 =
        some (GException.fits_invalid_row origin row max_row) ∧
      (GFitsTableLongLongCol.remove_run load_column col rownum nrows).1 = col) ∧
    (∀ origin n max_n,
      GFitsTableLongLongCol.remove load_column col rownum nrows =
        Except.error (GException.fits_invalid_nrows origin n max_n) →
      (GFitsTableLongLongCol.remove_run load_column col rownum nrows).2 =
        some (GException.fits_invalid_nrows origin n max_n) ∧
      (GFitsTableLongLongCol.remove_run load_column col rownum nrows).1 = col) ∧
    GFitsTableLongLongCol.outcome (GFitsTableLongLongCol.insert_run load_column col rownum nrows) =
      GFitsTableLongLongCol.insert load_column col rownum nrows ∧
    GFitsTableLongLongCol.outcome (GFitsTableLongLongCol.remove_run load_column col rownum nrows) =
      GFitsTableLongLongCol.remove load_column col rownum nrows := by
  have hi := GFitsTableLongLongCol.outcome_insert_run load_column col rownum nrows
  have hr := GFitsTableLongLongCol.outcome_remove_run load_column col rownum nrows
  have hinsert : ∀ e, GFitsTableLongLongCol.insert load_column col rownum nrows = Except.error e →
      (∀ status, e ≠ GException.fits_error status) →
      (GFitsTableLongLongCol.insert_run load_column col rownum nrows).2 = some e ∧
      (GFitsTableLongLongCol.insert_run load_column col rownum nrows).1 = col := by
    intro e he hne
    rw [← hi] at he
    unfold GFitsTableLongLongCol.insert_run at he ⊢
    by_cases h1 : rownum < 0 ∨ rownum > col.m_length
    · simp only [if_pos h1, GFitsTableLongLongCol.outcome] at he ⊢
      cases he
      simp
    · simp only [if_neg h1] at he ⊢
      by_cases h2 : nrows > 0
      · simp only [if_pos h2] at he ⊢
        by_cases h3 : col.m_length = 0
        · simp only [if_pos h3, GFitsTableLongLongCol.outcome] at he
          cases he
        · simp only [if_neg h3] at he ⊢
          generalize (if col.m_data = none then GFitsTableLongLongCol.fetch_data load_column col
            else Except.ok col) = f at he ⊢
          cases f with
          | error e' =>
            simp only [GFitsTableLongLongCol.outcome] at he
            cases he
            exact ⟨rfl, rfl⟩
          | ok c =>
            simp only [GFitsTableLongLongCol.outcome] at he
            cases he
      · simp only [if_neg h2, GFitsTableLongLongCol.outcome] at he
        cases he
  have hremove : ∀ e, GFitsTableLongLongCol.remove load_column col rownum nrows = Except.error e →
      (GFitsTableLongLongCol.remove_run load_column col rownum nrows).2 = some e ∧
      (GFitsTableLongLongCol.remove_run load_column col rownum nrows).1 = col := by
    intro e he
    rw [← hr] at he
    unfold GFitsTableLongLongCol.remove_run at he ⊢
    by_cases h1 : rownum < 0 ∨ rownum ≥ col.m_length
    · simp only [if_pos h1, GFitsTableLongLongCol.outcome] at he ⊢
      cases he
      simp
    · simp only [if_neg h1] at he ⊢
      by_cases h2 : nrows < 0 ∨ nrows > col.m_length - rownum
      · simp only [if_pos h2, GFitsTableLongLongCol.outcome] at he ⊢
        cases he
        simp
      · simp only [if_neg h2] at he ⊢
        by_cases h3 : nrows > 0
        · simp only [if_pos h3] at he ⊢
          generalize (if col.m_data = none then GFitsTableLongLongCol.fetch_data load_column col
            else Except.ok col) = f at he ⊢
          cases f with
          | error e' =>
            simp only [GFitsTableLongLongCol.outcome] at he
            cases he
            exact ⟨rfl, rfl⟩
          | ok c =>
            simp only [] at he
            by_cases h4 : c.m_number * (c.m_length - nrows) > 0
            · simp only [if_pos h4, GFitsTableLongLongCol.outcome] at he
              cases he
            · simp only [if_neg h4, GFitsTableLongLongCol.outcome] at he
              cases he
        · simp only [if_neg h3, GFitsTableLongLongCol.outcome] at he
          cases he
  refine ⟨?_, ?_, ?_, hi, hr⟩
  · intro origin row max_row he
    exact hinsert _ he (fun status h => by cases h)
  · intro origin row max_row he
    exact hremove _ he
  · intro origin n max_n he
    exact hremove _ he

/-- Witness for C15: `insert(4, 1)` and `remove(3, 1)` on `ID = [10, 20,
30]` fail with the invalid-row error, `remove(2, 2)` fails with the
invalid-nrows error, and each leaves the column as it was. -/
theorem argument_errors_leave_column_witness :
    (GFitsTableLongLongCol.insert_run load_column_zero columnID 4 1).1 = columnID ∧
    (GFitsTableLongLongCol.remove_run load_column_zero columnID 3 1).1 = columnID ∧
    (GFitsTableLongLongCol.remove_run load_column_zero columnID 2 2).1 = columnID :=
  ⟨((argument_errors_leave_column load_column_zero columnID 4 1).1 G_INSERT 4 3 rfl).2,
    ((argument_errors_leave_column load_column_zero columnID 3 1).2.1 G_REMOVE 3 2 rfl).2,
    ((argument_errors_leave_column load_column_zero columnID 2 2).2.2.1 G_REMOVE 2 1 rfl).2⟩

/-- C16. GFitsTableLongLongCol::insert with `nrows = 0` and a valid
`rownum` returns normally and leaves every member of the column (length,
loaded size, buffer, NULL sentinel) unchanged. No load is triggered: the
result is the same for every `load_column`, the one that always fails
included. -/
theorem insert_zero_rows_is_noop (col : GFitsTableLongLongCol) (rownum : Int)
    (hr0 : 0 ≤ rownum) (hr1 : rownum ≤ col.m_length) :
    (∀ load_column : GFitsTableLongLongCol → Except Int GFitsTableLongLongCol,
      GFitsTableLongLongCol.insert load_column col rownum 0 = Except.ok col ∧
      GFitsTableLongLongCol.insert_run load_column col rownum 0 = (col, none)) ∧
    GFitsTableLongLongCol.insert load_column_failing col rownum 0 = Except.ok col := by
  have hall : ∀ load_column : GFitsTableLongLongCol → Except Int GFitsTableLongLongCol,
      GFitsTableLongLongCol.insert load_column col rownum 0 = Except.ok col ∧
      GFitsTableLongLongCol.insert_run load_column col rownum 0 = (col, none) := by
    intro load_column
    constructor
    · unfold GFitsTableLongLongCol.insert
      rw [if_neg (by omega), if_neg (by omega)]
    · unfold GFitsTableLongLongCol.insert_run
      rw [if_neg (by omega), if_neg (by omega)]
  exact ⟨hall, (hall load_column_failing).1⟩

/-- Witness for C16: `insert(1, 0)` on the unloaded column of 3 rows, with a
load that always fails, returns the column unchanged. -/
theorem insert_zero_rows_is_noop_witness :
    GFitsTableLongLongCol.insert load_column_failing columnUnloaded 1 0 =
      Except.ok columnUnloaded :=
  (insert_zero_rows_is_noop columnUnloaded 1 (by decide) (by decide)).2

/-- C17. On a column with zero rows, `insert(0, nrows)` with `nrows > 0`
only sets the length to `nrows`: the buffer, the loaded size and the NULL
sentinel stay as they are, so an unloaded column stays unloaded, and no
load is performed (the result is the same for every `load_column`). -/
theorem insert_into_zero_rows (col : GFitsTableLongLongCol) (nrows : Int)
    (hL : col.m_length = 0) (hn : 0 < nrows) :
    (∀ load_column : GFitsTableLongLongCol → Except Int GFitsTableLongLongCol,
      GFitsTableLongLongCol.insert load_column col 0 nrows =
        Except.ok { col with m_length := nrows }) ∧
    ({ col with m_length := nrows } : GFitsTableLongLongCol).m_data = col.m_data ∧
    ({ col with m_length := nrows } : GFitsTableLongLongCol).m_size = col.m_size ∧
    ({ col with m_length := nrows } : GFitsTableLongLongCol).m_nulval = col.m_nulval ∧
    (col.m_data = none →
      ∀ col', GFitsTableLongLongCol.insert load_column_failing col 0 nrows = Except.ok col' →
        col'.m_data = none ∧ col'.m_length = nrows) := by
  have hall : ∀ load_column : GFitsTableLongLongCol → Except Int GFitsTableLongLongCol,
      GFitsTableLongLongCol.insert load_column col 0 nrows =
        Except.ok { col with m_length := nrows } := by
    intro load_column
    unfold GFitsTableLongLongCol.insert
    rw [if_neg (by omega), if_pos hn, if_pos hL]
  refine ⟨hall, rfl, rfl, rfl, ?_⟩
  intro hd col' hins
  rw [hall load_column_failing] at hins
  cases hins
  exact ⟨hd, rfl⟩

/-- Witness for C17: on an unloaded column without rows, `insert(0, 4)`
with a load that always fails gives length 4 and still no buffer. -/
theorem insert_into_zero_rows_witness :
    GFitsTableLongLongCol.insert load_column_failing
        { columnUnloaded with m_length := 0 } 0 4 =
      Except.ok { columnUnloaded with m_length := 4 } :=
  (insert_into_zero_rows { columnUnloaded with m_length := 0 } 4 rfl (by decide)).1
    load_column_failing

/-! ## Conversions of a column element -/

namespace GFitsTableLongLongCol

theorem element_of_loaded
    (load_column : GFitsTableLongLongCol → Except Int GFitsTableLongLongCol)
    (offset : GFitsTableLongLongCol → Int → Int → Int)
    (col : GFitsTableLongLongCol) (d : List Int) (row inx v : Int)
    (hdata : col.m_data = some d) (hv : d[(offset col row inx).toNat]? = some v) :
    element load_column offset col row inx = Except.ok v := by
  unfold element
  rw [fetch_of_loaded load_column col d hdata]
  simp only [hdata, Option.getD_some]
  rw [List.getD_eq_getElem?_getD, hv]
  rfl

theorem int_cast_of_range (v : Int) (h1 : -2147483648 ≤ v) (h2 : v ≤ 2147483647) :
    int_cast v = v := by
  unfold int_cast
  omega

theorem int_cast_range (v : Int) : -2147483648 ≤ int_cast v ∧ int_cast v ≤ 2147483647 := by
  unfold int_cast
  omega

end GFitsTableLongLongCol

/-- C19 (counterexample). The loaded column `BIG` stores 4294967296 = 2^32,
a value of the signed 64-bit range, in row 0; `integer(0, 0)` returns 0. -/
theorem integer_not_exact_counterexample :
    GFitsTableLongLongCol.element load_column_zero offset_rows columnBig 0 0 =
      Except.ok 4294967296 ∧
    (-9223372036854775808 : Int) ≤ 4294967296 ∧ (4294967296 : Int) ≤ 9223372036854775807 ∧
    GFitsTableLongLongCol.integer load_column_zero offset_rows columnBig 0 0 = Except.ok 0 := by
  refine ⟨rfl, by decide, by decide, rfl⟩

/-- C19 (amended). On a loaded column, `integer(row, index)` returns the
stored value `v` converted to `int`: it returns `v` itself for every `v` in
the range of `int`, from -2^31 to 2^31 - 1, and for a stored value outside
that range it returns a number of the `int` range congruent to `v` modulo
2^32, which differs from `v`. -/
theorem integer_exact_in_int_range
    (load_column : GFitsTableLongLongCol → Except Int GFitsTableLongLongCol)
    (offset : GFitsTableLongLongCol → Int → Int → Int)
    (col : GFitsTableLongLongCol) (d : List Int) (row inx v : Int)
    (hdata : col.m_data = some d) (hv : d[(offset col row inx).toNat]? = some v) :
    (-2147483648 ≤ v → v ≤ 2147483647 →
      GFitsTableLongLongCol.integer load_column offset col row inx = Except.ok v) ∧
    (∃ w, GFitsTableLongLongCol.integer load_column offset col row inx = Except.ok w ∧
      -2147483648 ≤ w ∧ w ≤ 2147483647 ∧ (v - w) % 4294967296 = 0 ∧
      ((v < -2147483648 ∨ 2147483647 < v) → w ≠ v)) := by
  have hel := GFitsTableLongLongCol.element_of_loaded load_column offset col d row inx v hdata hv
  have hint : GFitsTableLongLongCol.integer load_column offset col row inx =
      Except.ok (GFitsTableLongLongCol.int_cast v) := by
    unfold GFitsTableLongLongCol.integer
    rw [hel]
  constructor
  · intro h1 h2
    rw [hint, GFitsTableLongLongCol.int_cast_of_range v h1 h2]
  · refine ⟨_, hint, (GFitsTableLongLongCol.int_cast_range v).1,
      (GFitsTableLongLongCol.int_cast_range v).2, ?_, ?_⟩
    · unfold GFitsTableLongLongCol.int_cast
      omega
    · intro hout
      have := GFitsTableLongLongCol.int_cast_range v
      omega

/-- Witness for C19 (amended): row 0 of the column `MIX` stores -42 and
`integer(0, 0)` returns -42. -/
theorem integer_exact_in_int_range_witness :
    GFitsTableLongLongCol.integer load_column_zero offset_rows columnMixed 0 0 =
      Except.ok (-42) :=
  (integer_exact_in_int_range load_column_zero offset_rows columnMixed [-42, 0, 4611686018427387904]
    0 0 (-42) rfl (by decide)).1 (by decide) (by decide)

theorem digitChar_spec :
    ∀ k, k < 10 → (Nat.digitChar k).isDigit = true ∧ digit_value (Nat.digitChar k) = k := by
  decide

theorem toDigitsCore_all_digits :
    ∀ (fuel n : Nat) (ds : List Char), ds.all Char.isDigit = true →
      (Nat.toDigitsCore 10 fuel n ds).all Char.isDigit = true := by
  intro fuel
  induction fuel with
  | zero => intro n ds h; simpa [Nat.toDigitsCore] using h
  | succ fuel ih =>
    intro n ds h
    have hd := (digitChar_spec (n % 10) (Nat.mod_lt _ (by decide))).1
    have hcons : (Nat.digitChar (n % 10) :: ds).all Char.isDigit = true := by
      simp only [List.all_cons, hd, h, Bool.and_self]
    simp only [Nat.toDigitsCore]
    split_ifs
    · exact hcons
    · exact ih _ _ hcons

theorem toDigitsCore_ne_nil :
    ∀ (fuel n : Nat) (ds : List Char), ds ≠ [] → Nat.toDigitsCore 10 fuel n ds ≠ [] := by
  intro fuel
  induction fuel with
  | zero => intro n ds h; simpa [Nat.toDigitsCore] using h
  | succ fuel ih =>
    intro n ds _
    simp only [Nat.toDigitsCore]
    split_ifs
    · exact List.cons_ne_nil _ _
    · exact ih _ _ (List.cons_ne_nil _ _)

theorem toDigitsCore_value :
    ∀ (fuel n : Nat) (ds : List Char), n < fuel →
      (Nat.toDigitsCore 10 fuel n ds).foldl (fun a c => 10 * a + digit_value c) 0 =
        ds.foldl (fun a c => 10 * a + digit_value c) n := by
  intro fuel
  induction fuel with
  | zero => intro n ds h; omega
  | succ fuel ih =>
    intro n ds hlt
    have hd := (digitChar_spec (n % 10) (Nat.mod_lt _ (by decide))).2
    simp only [Nat.toDigitsCore]
    split_ifs with hz
    · have hn : n % 10 = n := by omega
      simp only [List.foldl_cons, hd, Nat.mul_zero, Nat.zero_add]
      rw [hn]
    · rw [ih (n / 10) _ (by omega)]
      simp only [List.foldl_cons, hd]
      congr 1
      omega

theorem read_digits_toDigits (n : Nat) : read_digits (Nat.toDigits 10 n) = some n := by
  unfold read_digits Nat.toDigits
  have h1 : Nat.toDigitsCore 10 (n + 1) n [] ≠ [] := by
    simp only [Nat.toDigitsCore]
    split_ifs
    · exact List.cons_ne_nil _ _
    · exact toDigitsCore_ne_nil _ _ _ (List.cons_ne_nil _ _)
  have h2 := toDigitsCore_all_digits (n + 1) n [] rfl
  have h3 := toDigitsCore_value (n + 1) n [] (Nat.lt_succ_self n)
  rw [if_pos ⟨h1, h2⟩, h3]
  rfl

/-- The reference reader gives back every integer from the text written
for it. -/
theorem read_decimal_ostream (v : Int) :
    read_decimal (GFitsTableLongLongCol.ostream_long_long v) = some v := by
  unfold GFitsTableLongLongCol.ostream_long_long read_decimal
  by_cases hneg : v < 0
  · rw [if_pos hneg]
    show Option.map (fun (n : Nat) => - Int.ofNat n) (read_digits (Nat.toDigits 10 v.natAbs)) =
      some v
    rw [read_digits_toDigits]
    show some (- Int.ofNat v.natAbs) = some v
    congr 1
    have : Int.ofNat v.natAbs = (v.natAbs : Int) := rfl
    omega
  · rw [if_neg hneg]
    have hall := toDigitsCore_all_digits (v.natAbs + 1) v.natAbs [] rfl
    split
    · rename_i cs heq
      have heq' : Nat.toDigits 10 v.natAbs = '-' :: cs := heq
      unfold Nat.toDigits at heq'
      rw [heq'] at hall
      rw [List.all_cons] at hall
      have hminus : Char.isDigit '-' = false := by decide
      rw [hminus] at hall
      simp at hall
    · show Option.map Int.ofNat (read_digits (Nat.toDigits 10 v.natAbs)) = some v
      rw [read_digits_toDigits]
      show some (Int.ofNat v.natAbs) = some v
      congr 1
      have : Int.ofNat v.natAbs = (v.natAbs : Int) := rfl
      omega

/-- C20. On a loaded column, `string(row, index)` returns for the stored
value `v` the decimal representation of `v` (a minus sign for a negative
value, then the digits of its magnitude), and reading that text as a decimal
integer gives back `v`. This holds for every integer `v`, so for every value
of the signed 64-bit range. -/
theorem string_is_exact_decimal
    (load_column : GFitsTableLongLongCol → Except Int GFitsTableLongLongCol)
    (offset : GFitsTableLongLongCol → Int → Int → Int)
    (col : GFitsTableLongLongCol) (d : List Int) (row inx v : Int)
    (hdata : col.m_data = some d) (hv : d[(offset col row inx).toNat]? = some v) :
    ∃ text, GFitsTableLongLongCol.string load_column offset col row inx = Except.ok text ∧
      text = GFitsTableLongLongCol.ostream_long_long v ∧
      text = toString v ∧
      read_decimal text = some v := by
  have hel := GFitsTableLongLongCol.element_of_loaded load_column offset col d row inx v hdata hv
  refine ⟨GFitsTableLongLongCol.ostream_long_long v, ?_, rfl, ?_, read_decimal_ostream v⟩
  · unfold GFitsTableLongLongCol.string
    rw [hel]
  · unfold GFitsTableLongLongCol.ostream_long_long
    cases v with
    | ofNat n =>
      have hnn : ¬ Int.ofNat n < 0 := not_lt.mpr (Int.ofNat_nonneg n)
      rw [if_neg hnn]
      rfl
    | negSucc n =>
      rw [if_pos (Int.negSucc_lt_zero n)]
      rfl

/-- Witness for C20: rows 0 and 2 of the column `MIX` store -42 and 2^62;
`string` returns the texts `-42` and `4611686018427387904`, which read back
as the stored values. -/
theorem string_is_exact_decimal_witness :
    GFitsTableLongLongCol.string load_column_zero offset_rows columnMixed 0 0 =
      Except.ok "-42" ∧
    read_decimal "-42" = some (-42) ∧
    GFitsTableLongLongCol.string load_column_zero offset_rows columnMixed 2 0 =
      Except.ok "4611686018427387904" ∧
    read_decimal "4611686018427387904" = some 4611686018427387904 :=
  have h0 := string_is_exact_decimal load_column_zero offset_rows columnMixed
    [-42, 0, 4611686018427387904] 0 0 (-42) rfl (by decide)
  have h2 := string_is_exact_decimal load_column_zero offset_rows columnMixed
    [-42, 0, 4611686018427387904] 2 0 4611686018427387904 rfl (by decide)
  ⟨h0.elim (fun t ht => ht.1.trans (congrArg Except.ok (ht.2.1.trans rfl))),
    by decide,
    h2.elim (fun t ht => ht.1.trans (congrArg Except.ok (ht.2.1.trans rfl))),
    by decide⟩

/-! ## Sentinel, clear and the Loaded state -/

/-- C21. GFitsTableLongLongCol::nulval(value) replaces only the sentinel:
afterwards the NULL sentinel is `value` (absent when no value is given), and
the length, the loaded size, the buffer with every element of it and all
other members are unchanged. -/
theorem nulval_replaces_only_sentinel (col : GFitsTableLongLongCol) (value : Option Int) :
    (GFitsTableLongLongCol.nulval col value).m_nulval = value ∧
    (GFitsTableLongLongCol.nulval col value).m_length = col.m_length ∧
    (GFitsTableLongLongCol.nulval col value).m_size = col.m_size ∧
    (GFitsTableLongLongCol.nulval col value).m_data = col.m_data ∧
    (∀ i : Nat, ((GFitsTableLongLongCol.nulval col value).m_data.getD [])[i]? =
      (col.m_data.getD [])[i]?) ∧
    GFitsTableLongLongCol.nulval col value = { col with m_nulval := value } := by
  cases value <;> exact ⟨rfl, rfl, rfl, rfl, fun _ => rfl, rfl⟩

/-- C23. GFitsTableLongLongCol::clear, with the functions of the base class
as modelled from the spec, resets the column from every state: afterwards
the data buffer is absent, the NULL sentinel is absent, the loaded size is 0
and the length is 0. Whatever the functions of the base class do, the
buffer and the sentinel are absent afterwards. -/
theorem clear_resets_column (col : GFitsTableLongLongCol) :
    (GFitsTableLongLongCol.clear GFitsTableCol.free_members GFitsTableCol.init_members
      col).m_data = none ∧
    (GFitsTableLongLongCol.clear GFitsTableCol.free_members GFitsTableCol.init_members
      col).m_nulval = none ∧
    (GFitsTableLongLongCol.clear GFitsTableCol.free_members GFitsTableCol.init_members
      col).m_size = 0 ∧
    (GFitsTableLongLongCol.clear GFitsTableCol.free_members GFitsTableCol.init_members
      col).m_length = 0 ∧
    (∀ base_free_members base_init_members : GFitsTableLongLongCol → GFitsTableLongLongCol,
      (GFitsTableLongLongCol.clear base_free_members base_init_members col).m_data = none ∧
      (GFitsTableLongLongCol.clear base_free_members base_init_members col).m_nulval = none) :=
  ⟨rfl, rfl, rfl, rfl, fun _ _ => ⟨rfl, rfl⟩⟩

/-- C24 (counterexample). The column `ID = [10, 20, 30]` is Loaded;
`remove(0, 3)` succeeds and leaves it without data buffer. -/
theorem remove_all_rows_unloads_counterexample :
    columnID.m_data = some [10, 20, 30] ∧
    GFitsTableLongLongCol.remove load_column_zero columnID 0 3 =
      Except.ok { columnID with m_size := 0, m_data := none, m_length := 0 } ∧
    ({ columnID with m_size := 0, m_data := none, m_length := 0 } :
      GFitsTableLongLongCol).m_data = none := by
  refine ⟨rfl, rfl, rfl⟩

/-- C24 (amended). For every Loaded column: after every successful insert
the column has a data buffer; after every successful remove the column has
a data buffer exactly when no row was removed or elements remain
(`m_number * (m_length - nrows) > 0`), and removing the last rows leaves it
without buffer. -/
theorem loaded_after_insert_and_remove
    (load_column : GFitsTableLongLongCol → Except Int GFitsTableLongLongCol)
    (col col' : GFitsTableLongLongCol) (d : List Int) (rownum nrows : Int)
    (hdata : col.m_data = some d) :
    (GFitsTableLongLongCol.insert load_column col rownum nrows = Except.ok col' →
      col'.m_data ≠ none) ∧
    (GFitsTableLongLongCol.remove load_column col rownum nrows = Except.ok col' →
      (col'.m_data ≠ none ↔ (nrows = 0 ∨ 0 < col.m_number * (col.m_length - nrows)))) := by
  have hfetch := GFitsTableLongLongCol.fetch_of_loaded load_column col d hdata
  constructor
  · intro hins
    unfold GFitsTableLongLongCol.insert at hins
    by_cases h1 : rownum < 0 ∨ rownum > col.m_length
    · rw [if_pos h1] at hins; cases hins
    · rw [if_neg h1] at hins
      by_cases h2 : nrows > 0
      · rw [if_pos h2] at hins
        by_cases h3 : col.m_length = 0
        · rw [if_pos h3] at hins
          cases hins
          show col.m_data ≠ none
          rw [hdata]; simp
        · rw [if_neg h3, hfetch] at hins
          cases hins
          simp
      · rw [if_neg h2] at hins
        cases hins
        rw [hdata]; simp
  · intro hrem
    unfold GFitsTableLongLongCol.remove at hrem
    by_cases h1 : rownum < 0 ∨ rownum ≥ col.m_length
    · rw [if_pos h1] at hrem; cases hrem
    · rw [if_neg h1] at hrem
      by_cases h2 : nrows < 0 ∨ nrows > col.m_length - rownum
      · rw [if_pos h2] at hrem; cases hrem
      · rw [if_neg h2] at hrem
        by_cases h3 : nrows > 0
        · rw [if_pos h3, hfetch] at hrem
          simp only [] at hrem
          by_cases h4 : col.m_number * (col.m_length - nrows) > 0
          · rw [if_pos h4] at hrem
            cases hrem
            constructor
            · intro _; exact Or.inr h4
            · intro _; simp
          · rw [if_neg h4] at hrem
            cases hrem
            constructor
            · intro h; exact absurd rfl h
            · rintro (h | h)
              · omega
              · exact absurd h h4
        · rw [if_neg h3] at hrem
          cases hrem
          constructor
          · intro _; exact Or.inl (by omega)
          · intro _; rw [hdata]; simp

/-- Witness for C24 (amended): on the Loaded column `[10, 0, 0, 20, 30]`,
`remove(1, 2)` leaves rows and a buffer; on `ID = [10, 20, 30]`,
`insert(1, 2)` leaves a buffer. -/
theorem loaded_after_insert_and_remove_witness :
    ({ columnID5 with m_size := 3, m_data := some [10, 20, 30], m_length := 3 } :
      GFitsTableLongLongCol).m_data ≠ none ∧
    columnID5.m_data ≠ none :=
  ⟨((loaded_after_insert_and_remove load_column_zero columnID5
      { columnID5 with m_size := 3, m_data := some [10, 20, 30], m_length := 3 }
      [10, 0, 0, 20, 30] 1 2 rfl).2 rfl).2 (Or.inr (by decide)),
    (loaded_after_insert_and_remove load_column_zero columnID columnID5
      [10, 20, 30] 1 2 rfl).1 rfl⟩

/-! ## Lazy load and element access -/

namespace GFitsTableLongLongCol

theorem access_of_fetched
    (load_column : GFitsTableLongLongCol → Except Int GFitsTableLongLongCol)
    (offset : GFitsTableLongLongCol → Int → Int → Int)
    (col start : GFitsTableLongLongCol) (row inx : Int)
    (hstart : (if col.m_data = none then fetch_data load_column col else Except.ok col) =
      Except.ok start) :
    access load_column offset col row inx =
      Except.ok (start, (start.m_data.getD []).getD (offset start row inx).toNat 0) ∧
    element load_column offset col row inx =
      Except.ok ((start.m_data.getD []).getD (offset start row inx).toNat 0) := by
  unfold access element
  rw [hstart]
  exact ⟨rfl, rfl⟩

theorem fetched_of_access
    (load_column : GFitsTableLongLongCol → Except Int GFitsTableLongLongCol)
    (offset : GFitsTableLongLongCol → Int → Int → Int)
    (col col1 : GFitsTableLongLongCol) (row inx v : Int)
    (hacc : access load_column offset col row inx = Except.ok (col1, v)) :
    (if col.m_data = none then fetch_data load_column col else Except.ok col) =
      Except.ok col1 := by
  unfold access at hacc
  generalize (if col.m_data = none then fetch_data load_column col else Except.ok col) = f
    at hacc ⊢
  cases f with
  | error e => cases hacc
  | ok c =>
    simp only [Except.ok.injEq, Prod.mk.injEq] at hacc
    rw [hacc.1]

end GFitsTableLongLongCol

/-- C26. The element accessors load the data only when no buffer is
present. On a Loaded column `operator()` returns the element and leaves the
column, with its buffer, as it is, and `string`, `real` and `integer`
return the conversions of that element, whatever `load_column` is (no load
is performed). So if an earlier access to an element `(row1, inx1)` has
materialized the buffer, reading `(row, inx)` afterwards gives the same
column, element, text, real and integer as reading `(row, inx)` first. -/
theorem lazy_load_transparency
    (load_column : GFitsTableLongLongCol → Except Int GFitsTableLongLongCol)
    (offset : GFitsTableLongLongCol → Int → Int → Int)
    (col : GFitsTableLongLongCol) (row inx : Int) :
    (∀ d, col.m_data = some d →
      ∀ any_load : GFitsTableLongLongCol → Except Int GFitsTableLongLongCol,
        GFitsTableLongLongCol.access any_load offset col row inx =
          Except.ok (col, d.getD (offset col row inx).toNat 0) ∧
        GFitsTableLongLongCol.string any_load offset col row inx =
          Except.ok (GFitsTableLongLongCol.ostream_long_long
            (d.getD (offset col row inx).toNat 0)) ∧
        GFitsTableLongLongCol.real any_load offset col row inx =
          Except.ok (Float.ofInt (d.getD (offset col row inx).toNat 0)) ∧
        GFitsTableLongLongCol.integer any_load offset col row inx =
          Except.ok (GFitsTableLongLongCol.int_cast (d.getD (offset col row inx).toNat 0))) ∧
    (∀ (col1 : GFitsTableLongLongCol) (row1 inx1 v1 : Int),
      GFitsTableLongLongCol.access load_column offset col row1 inx1 = Except.ok (col1, v1) →
      col1.m_data ≠ none →
      GFitsTableLongLongCol.access load_column offset col1 row inx =
        GFitsTableLongLongCol.access load_column offset col row inx ∧
      GFitsTableLongLongCol.string load_column offset col1 row inx =
        GFitsTableLongLongCol.string load_column offset col row inx ∧
      GFitsTableLongLongCol.real load_column offset col1 row inx =
        GFitsTableLongLongCol.real load_column offset col row inx ∧
      GFitsTableLongLongCol.integer load_column offset col1 row inx =
        GFitsTableLongLongCol.integer load_column offset col row inx ∧
      ∃ v, GFitsTableLongLongCol.access load_column offset col row inx =
        Except.ok (col1, v)) := by
  constructor
  · intro d hdata any_load
    have hf := GFitsTableLongLongCol.fetch_of_loaded any_load col d hdata
    have h := GFitsTableLongLongCol.access_of_fetched any_load offset col col row inx hf
    rw [hdata] at h
    simp only [Option.getD_some] at h
    refine ⟨h.1, ?_, ?_, ?_⟩
    · unfold GFitsTableLongLongCol.string; rw [h.2]
    · unfold GFitsTableLongLongCol.real; rw [h.2]
    · unfold GFitsTableLongLongCol.integer; rw [h.2]
  · intro col1 row1 inx1 v1 hacc hloaded
    have hcol := GFitsTableLongLongCol.fetched_of_access load_column offset col col1 row1 inx1 v1
      hacc
    obtain ⟨d1, hd1⟩ := Option.ne_none_iff_exists'.mp hloaded
    have hcol1 := GFitsTableLongLongCol.fetch_of_loaded load_column col1 d1 hd1
    have h := GFitsTableLongLongCol.access_of_fetched load_column offset col col1 row inx hcol
    have h1 := GFitsTableLongLongCol.access_of_fetched load_column offset col1 col1 row inx hcol1
    refine ⟨by rw [h.1, h1.1], ?_, ?_, ?_, ⟨_, h.1⟩⟩
    · unfold GFitsTableLongLongCol.string; rw [h.2, h1.2]
    · unfold GFitsTableLongLongCol.real; rw [h.2, h1.2]
    · unfold GFitsTableLongLongCol.integer; rw [h.2, h1.2]

/-- Witness for C26: the unloaded column of 3 rows is materialized by an
access to element `(0, 0)`; reading `(2, 0)` afterwards gives what reading
`(2, 0)` first gives. -/
theorem lazy_load_transparency_witness :
    GFitsTableLongLongCol.access load_column_zero offset_rows
        { columnUnloaded with m_size := 3, m_data := some [0, 0, 0] } 2 0 =
      GFitsTableLongLongCol.access load_column_zero offset_rows columnUnloaded 2 0 :=
  ((lazy_load_transparency load_column_zero offset_rows columnUnloaded 2 0).2
    { columnUnloaded with m_size := 3, m_data := some [0, 0, 0] } 0 0 0 rfl (by simp)).1

/-! ## GFitsHeader::open -/

namespace GFitsHeader

theorem read_cards_ok (read : Nat → Except Int GFitsHeaderCard) (cards : Nat → GFitsHeaderCard)
    (m_card : List GFitsHeaderCard) :
    ∀ n, n ≤ m_card.length → (∀ i, i < n → read (i + 1) = Except.ok (cards i)) →
      read_cards read n m_card = Except.ok ((List.range n).map cards ++ m_card.drop n) := by
  intro n
  induction n with
  | zero => intro _ _; simp [read_cards]
  | succ n ih =>
    intro hlen hread
    simp only [read_cards]
    rw [ih (by omega) (fun i hi => hread i (by omega)), hread n (by omega)]
    simp only [Except.ok.injEq]
    have hl : ((List.range n).map cards).length = n := by simp
    have hd : (m_card.drop n).set 0 (cards n) = cards n :: m_card.drop (n + 1) := by
      rw [List.drop_eq_getElem_cons (by omega : n < m_card.length)]
      rfl
    rw [List.set_append_right _ _ (by omega), hl, Nat.sub_self, hd]
    simp [List.range_succ]

theorem read_cards_error (read : Nat → Except Int GFitsHeaderCard)
    (m_card : List GFitsHeaderCard) (k : Nat) (status : Int) :
    ∀ n, k < n → (∀ i, i < k → ∃ c, read (i + 1) = Except.ok c) →
      read (k + 1) = Except.error status →
      read_cards read n m_card = Except.error status := by
  intro n
  induction n with
  | zero => intro h; omega
  | succ n ih =>
    intro hk hbefore hfail
    simp only [read_cards]
    by_cases hkn : k < n
    · rw [ih hkn hbefore hfail]
    · have hkeq : k = n := by omega
      subst hkeq
      have hok : ∃ cs, read_cards read k m_card = Except.ok cs := by
        clear ih hk hkn hfail
        induction k with
        | zero => exact ⟨_, rfl⟩
        | succ j ihj =>
          obtain ⟨cs, hcs⟩ := ihj (fun i hi => hbefore i (by omega))
          obtain ⟨c, hc⟩ := hbefore j (by omega)
          simp only [read_cards]
          rw [hcs, hc]
          exact ⟨_, rfl⟩
      obtain ⟨cs, hcs⟩ := hok
      rw [hcs, hfail]

end GFitsHeader

/-- C30. From any prior state, after `radec(ra, dec)` the getters `ra()`
and `dec()` return exactly `ra` and `dec`, and after `lb(l, b)` the getters
`l()` and `b()` return exactly `l` and `b`; no conversion is applied: the
getters leave the direction as the setter left it, whatever GTools is. -/
theorem skydir_set_get_round_trip (tools : GTools) (dir : GSkyDir) (x y : Float) :
    (GSkyDir.ra tools (GSkyDir.radec dir x y)).2 = x ∧
    (GSkyDir.dec tools (GSkyDir.radec dir x y)).2 = y ∧
    (GSkyDir.ra tools (GSkyDir.radec dir x y)).1 = GSkyDir.radec dir x y ∧
    (GSkyDir.dec tools (GSkyDir.radec dir x y)).1 = GSkyDir.radec dir x y ∧
    (GSkyDir.l tools (GSkyDir.lb dir x y)).2 = x ∧
    (GSkyDir.b tools (GSkyDir.lb dir x y)).2 = y ∧
    (GSkyDir.l tools (GSkyDir.lb dir x y)).1 = GSkyDir.lb dir x y ∧
    (GSkyDir.b tools (GSkyDir.lb dir x y)).1 = GSkyDir.lb dir x y :=
  ⟨rfl, rfl, rfl, rfl, rfl, rfl, rfl, rfl⟩

/-! ## GFitsImage -/

namespace GFitsImage

theorem prod_pos_of_pos : ∀ naxes : List Int, (∀ n ∈ naxes, 0 < n) → 0 < naxes.prod := by
  intro naxes
  induction naxes with
  | nil => intro _; simp
  | cons n rest ih =>
    intro h
    rw [List.prod_cons]
    exact mul_pos (h n (List.mem_cons_self _ _))
      (ih (fun m hm => h m (List.mem_cons_of_mem _ hm)))

/-- For indices that pass the bounds check the offset lies inside the
buffer of `prod naxes` pixels. -/
theorem offset_of_bounds :
    ∀ (indices naxes : List Int), (∀ n ∈ naxes, 0 < n) → in_range naxes indices = true →
      0 ≤ offset_of naxes indices ∧ offset_of naxes indices < naxes.prod := by
  intro indices
  induction indices with
  | nil =>
    intro naxes hpos _
    exact ⟨le_refl _, prod_pos_of_pos naxes hpos⟩
  | cons ix rest ih =>
    intro naxes hpos hin
    simp only [in_range, Bool.and_eq_true, decide_eq_true_eq] at hin
    obtain ⟨⟨h0, h1⟩, hrest⟩ := hin
    cases naxes with
    | nil =>
      simp only [List.headD_nil] at h1
      omega
    | cons n ns =>
      simp only [List.headD_cons] at h1
      simp only [List.tail_cons] at hrest
      have hn : 0 < n := hpos n (List.mem_cons_self _ _)
      obtain ⟨hlo, hhi⟩ := ih ns (fun m hm => hpos m (List.mem_cons_of_mem _ hm)) hrest
      simp only [offset_of, List.headD_cons, List.tail_cons, List.prod_cons]
      constructor
      · exact add_nonneg h0 (mul_nonneg (le_of_lt hn) hlo)
      · have h2 : offset_of ns rest + 1 ≤ ns.prod := by omega
        have h3 : n * (offset_of ns rest + 1) ≤ n * ns.prod :=
          mul_le_mul_of_nonneg_left h2 (le_of_lt hn)
        have h4 : n * (offset_of ns rest + 1) = n * offset_of ns rest + n := by ring
        omega

theorem pixel_of_spec {α : Type} (img : GFitsImage α) (hs : img.Shaped) (indices : List Int) :
    (pixel_of img indices = Except.error ImageException.out_of_range ↔
      in_range img.m_naxes indices = false) ∧
    (in_range img.m_naxes indices = true →
      ∃ v, img.m_pixels[(offset_of img.m_naxes indices).toNat]? = some v ∧
        pixel_of img indices = Except.ok v) := by
  obtain ⟨hpos, hnum, hlen⟩ := hs
  have hok : in_range img.m_naxes indices = true →
      ∃ v, img.m_pixels[(offset_of img.m_naxes indices).toNat]? = some v ∧
        pixel_of img indices = Except.ok v := by
    intro hin
    obtain ⟨hlo, hhi⟩ := offset_of_bounds indices img.m_naxes hpos hin
    have hlt : (offset_of img.m_naxes indices).toNat < img.m_pixels.length := by omega
    refine ⟨img.m_pixels[(offset_of img.m_naxes indices).toNat], List.getElem?_eq_getElem hlt, ?_⟩
    unfold pixel_of
    rw [if_pos hin, List.getElem?_eq_getElem hlt]
  refine ⟨?_, hok⟩
  constructor
  · intro herr
    by_contra hne
    have hin : in_range img.m_naxes indices = true := by simpa using hne
    obtain ⟨v, _, hv⟩ := hok hin
    rw [hv] at herr
    cases herr
  · intro hout
    unfold pixel_of
    rw [if_neg (by rw [hout]; simp)]

end GFitsImage

/-- C27. For every image and all indices, with `n0`, `n1`, `n2` the extents
of the first three axes: `offset(x) = x`, `offset(x, y) = x + n0*y`,
`offset(x, y, z) = x + n0*(y + n1*z)` and
`offset(x, y, z, t) = x + n0*(y + n1*(z + n2*t))`. -/
theorem image_offset_formula {α : Type} (img : GFitsImage α) (x y z t : Int) :
    GFitsImage.offset_x img x = x ∧
    GFitsImage.offset_xy img x y = x + img.m_naxes.getD 0 0 * y ∧
    GFitsImage.offset_xyz img x y z =
      x + img.m_naxes.getD 0 0 * (y + img.m_naxes.getD 1 0 * z) ∧
    GFitsImage.offset_xyzt img x y z t =
      x + img.m_naxes.getD 0 0 * (y + img.m_naxes.getD 1 0 * (z + img.m_naxes.getD 2 0 * t)) := by
  unfold GFitsImage.offset_x GFitsImage.offset_xy GFitsImage.offset_xyz GFitsImage.offset_xyzt
  rcases hn : img.m_naxes with _ | ⟨n0, _ | ⟨n1, _ | ⟨n2, rest⟩⟩⟩ <;>
    simp [GFitsImage.offset_of]

/-- Witness for C27: in the image `naxes = [3, 2]` holding `[0, 1, 2, 3, 4,
5]` the offset of `(2, 1)` is `2 + 3*1 = 5` and `pixel(2, 1)` is 5. -/
theorem image_offset_formula_witness :
    GFitsImage.offset_xy imageScenario 2 1 = 2 + 3 * 1 ∧
    GFitsImage.pixel_xy imageScenario 2 1 = Except.ok 5 :=
  ⟨(image_offset_formula imageScenario 2 1 0 0).2.1, rfl⟩

/-- C28. On an image of consistent shape, `pixel(ix[, iy[, iz[, it]]])`
fails with OutOfRange if and only if some index is negative or not below
the extent of its axis, and otherwise it returns the element of the buffer
at the column-major offset. -/
theorem pixel_bounds_checked {α : Type} (img : GFitsImage α) (hs : img.Shaped)
    (ix iy iz it : Int) :
    ((GFitsImage.pixel_x img ix = Except.error ImageException.out_of_range ↔
        (ix < 0 ∨ img.m_naxes.getD 0 0 ≤ ix)) ∧
      (¬ (ix < 0 ∨ img.m_naxes.getD 0 0 ≤ ix) →
        ∃ v, img.m_pixels[(GFitsImage.offset_x img ix).toNat]? = some v ∧
          GFitsImage.pixel_x img ix = Except.ok v)) ∧
    ((GFitsImage.pixel_xy img ix iy = Except.error ImageException.out_of_range ↔
        (ix < 0 ∨ img.m_naxes.getD 0 0 ≤ ix ∨ iy < 0 ∨ img.m_naxes.getD 1 0 ≤ iy)) ∧
      (¬ (ix < 0 ∨ img.m_naxes.getD 0 0 ≤ ix ∨ iy < 0 ∨ img.m_naxes.getD 1 0 ≤ iy) →
        ∃ v, img.m_pixels[(GFitsImage.offset_xy img ix iy).toNat]? = some v ∧
          GFitsImage.pixel_xy img ix iy = Except.ok v)) ∧
    ((GFitsImage.pixel_xyz img ix iy iz = Except.error ImageException.out_of_range ↔
        (ix < 0 ∨ img.m_naxes.getD 0 0 ≤ ix ∨ iy < 0 ∨ img.m_naxes.getD 1 0 ≤ iy ∨
          iz < 0 ∨ img.m_naxes.getD 2 0 ≤ iz)) ∧
      (¬ (ix < 0 ∨ img.m_naxes.getD 0 0 ≤ ix ∨ iy < 0 ∨ img.m_naxes.getD 1 0 ≤ iy ∨
          iz < 0 ∨ img.m_naxes.getD 2 0 ≤ iz) →
        ∃ v, img.m_pixels[(GFitsImage.offset_xyz img ix iy iz).toNat]? = some v ∧
          GFitsImage.pixel_xyz img ix iy iz = Except.ok v)) ∧
    ((GFitsImage.pixel_xyzt img ix iy iz it = Except.error ImageException.out_of_range ↔
        (ix < 0 ∨ img.m_naxes.getD 0 0 ≤ ix ∨ iy < 0 ∨ img.m_naxes.getD 1 0 ≤ iy ∨
          iz < 0 ∨ img.m_naxes.getD 2 0 ≤ iz ∨ it < 0 ∨ img.m_naxes.getD 3 0 ≤ it)) ∧
      (¬ (ix < 0 ∨ img.m_naxes.getD 0 0 ≤ ix ∨ iy < 0 ∨ img.m_naxes.getD 1 0 ≤ iy ∨
          iz < 0 ∨ img.m_naxes.getD 2 0 ≤ iz ∨ it < 0 ∨ img.m_naxes.getD 3 0 ≤ it) →
        ∃ v, img.m_pixels[(GFitsImage.offset_xyzt img ix iy iz it).toNat]? = some v ∧
          GFitsImage.pixel_xyzt img ix iy iz it = Except.ok v)) := by
  have key : ∀ indices : List Int, ∀ P : Prop,
      (GFitsImage.in_range img.m_naxes indices = false ↔ P) →
      (GFitsImage.pixel_of img indices = Except.error ImageException.out_of_range ↔ P) ∧
      (¬ P → ∃ v, img.m_pixels[(GFitsImage.offset_of img.m_naxes indices).toNat]? = some v ∧
        GFitsImage.pixel_of img indices = Except.ok v) := by
    intro indices P hP
    have hspec := GFitsImage.pixel_of_spec img hs indices
    refine ⟨hspec.1.trans hP, ?_⟩
    intro hnP
    apply hspec.2
    by_contra hne
    exact hnP (hP.mp (by simpa using hne))
  refine ⟨key [ix] _ ?_, key [ix, iy] _ ?_, key [ix, iy, iz] _ ?_, key [ix, iy, iz, it] _ ?_⟩
  all_goals
    rcases hn : img.m_naxes with _ | ⟨n0, _ | ⟨n1, _ | ⟨n2, _ | ⟨n3, rest⟩⟩⟩⟩ <;>
      simp [GFitsImage.in_range] <;> omega

/-- Witness for C28: in the image `naxes = [3, 2]` holding `[0, 1, 2, 3, 4,
5]`, `pixel(2, 1)` is inside and `pixel(3, 0)` is out of range. -/
theorem pixel_bounds_checked_witness :
    (∃ v, imageScenario.m_pixels[(GFitsImage.offset_xy imageScenario 2 1).toNat]? = some v ∧
      GFitsImage.pixel_xy imageScenario 2 1 = Except.ok v) ∧
    GFitsImage.pixel_xy imageScenario 3 0 = Except.error ImageException.out_of_range :=
  have hs : imageScenario.Shaped := by
    refine ⟨?_, by decide, by decide⟩
    intro n hn
    have hn2 : n = 3 ∨ n = 2 := by simpa [imageScenario] using hn
    rcases hn2 with rfl | rfl <;> decide
  ⟨(pixel_bounds_checked imageScenario hs 2 1 0 0).2.1.2 (by decide),
    (pixel_bounds_checked imageScenario hs 3 0 0 0).2.1.1.mpr (by decide)⟩

/-! ## GFitsTable -/

namespace GFitsTableLongLongCol

theorem length_after_insert
    (load_column : GFitsTableLongLongCol → Except Int GFitsTableLongLongCol)
    (hload : ∀ c c', load_column c = Except.ok c' → c'.m_length = c.m_length)
    (col col' : GFitsTableLongLongCol) (rownum nrows : Int)
    (hins : insert load_column col rownum nrows = Except.ok col') :
    col'.m_length = if nrows > 0 then col.m_length + nrows else col.m_length := by
  unfold insert at hins
  by_cases h1 : rownum < 0 ∨ rownum > col.m_length
  · rw [if_pos h1] at hins; cases hins
  · rw [if_neg h1] at hins
    by_cases h2 : nrows > 0
    · rw [if_pos h2] at hins
      rw [if_pos h2]
      by_cases h3 : col.m_length = 0
      · rw [if_pos h3] at hins
        cases hins
        show nrows = col.m_length + nrows
        omega
      · rw [if_neg h3] at hins
        have hlen : ∀ c, (if col.m_data = none then fetch_data load_column col
            else Except.ok col) = Except.ok c → c.m_length = col.m_length := by
          intro c hc
          by_cases hd : col.m_data = none
          · rw [if_pos hd] at hc
            unfold fetch_data at hc
            cases hl : load_column col with
            | error status => rw [hl] at hc; cases hc
            | ok loaded =>
              rw [hl] at hc
              cases hc
              exact hload col c hl
          · rw [if_neg hd] at hc
            cases hc
            rfl
        generalize (if col.m_data = none then fetch_data load_column col else Except.ok col) = f
          at hins hlen
        cases f with
        | error e => cases hins
        | ok c =>
          have hc := hlen c rfl
          simp only [Except.ok.injEq] at hins
          subst hins
          show c.m_length + nrows = col.m_length + nrows
          omega
    · rw [if_neg h2] at hins
      rw [if_neg h2]
      cases hins
      rfl

theorem length_after_remove
    (load_column : GFitsTableLongLongCol → Except Int GFitsTableLongLongCol)
    (hload : ∀ c c', load_column c = Except.ok c' → c'.m_length = c.m_length)
    (col col' : GFitsTableLongLongCol) (rownum nrows : Int)
    (hrem : remove load_column col rownum nrows = Except.ok col') :
    col'.m_length = if nrows > 0 then col.m_length - nrows else col.m_length := by
  unfold remove at hrem
  by_cases h1 : rownum < 0 ∨ rownum ≥ col.m_length
  · rw [if_pos h1] at hrem; cases hrem
  · rw [if_neg h1] at hrem
    by_cases h2 : nrows < 0 ∨ nrows > col.m_length - rownum
    · rw [if_pos h2] at hrem; cases hrem
    · rw [if_neg h2] at hrem
      by_cases h3 : nrows > 0
      · rw [if_pos h3] at hrem
        rw [if_pos h3]
        have hlen : ∀ c, (if col.m_data = none then fetch_data load_column col
            else Except.ok col) = Except.ok c → c.m_length = col.m_length := by
          intro c hc
          by_cases hd : col.m_data = none
          · rw [if_pos hd] at hc
            unfold fetch_data at hc
            cases hl : load_column col with
            | error status => rw [hl] at hc; cases hc
            | ok loaded =>
              rw [hl] at hc
              cases hc
              exact hload col c hl
          · rw [if_neg hd] at hc
            cases hc
            rfl
        generalize (if col.m_data = none then fetch_data load_column col else Except.ok col) = f
          at hrem hlen
        cases f with
        | error e => cases hrem
        | ok c =>
          have hc := hlen c rfl
          simp only [] at hrem
          by_cases h4 : c.m_number * (c.m_length - nrows) > 0
          · rw [if_pos h4] at hrem
            simp only [Except.ok.injEq] at hrem
            subst hrem
            show c.m_length - nrows = col.m_length - nrows
            omega
          · rw [if_neg h4] at hrem
            simp only [Except.ok.injEq] at hrem
            subst hrem
            show c.m_length - nrows = col.m_length - nrows
            omega
      · rw [if_neg h3] at hrem
        rw [if_neg h3]
        cases hrem
        rfl

end GFitsTableLongLongCol

namespace GFitsTable

theorem insert_columns_lengths
    (load_column : GFitsTableLongLongCol → Except Int GFitsTableLongLongCol)
    (hload : ∀ c c', load_column c = Except.ok c' → c'.m_length = c.m_length)
    (L row nrows : Int) :
    ∀ (columns columns' : List GFitsTableLongLongCol),
      (∀ c ∈ columns, c.m_length = L) →
      insert_columns load_column columns row nrows = Except.ok columns' →
      columns'.length = columns.length ∧
      ∀ c ∈ columns', c.m_length = if nrows > 0 then L + nrows else L := by
  intro columns
  induction columns with
  | nil =>
    intro columns' _ h
    simp only [insert_columns, Except.ok.injEq] at h
    subst h
    simp
  | cons col rest ih =>
    intro columns' hall h
    simp only [insert_columns] at h
    cases hc : GFitsTableLongLongCol.insert load_column col row nrows with
    | error e => rw [hc] at h; cases h
    | ok col' =>
      rw [hc] at h
      simp only [] at h
      cases hr : insert_columns load_column rest row nrows with
      | error e => rw [hr] at h; cases h
      | ok rest' =>
        rw [hr] at h
        simp only [Except.ok.injEq] at h
        subst h
        obtain ⟨hl, hrest⟩ := ih rest' (fun c hc => hall c (List.mem_cons_of_mem _ hc)) hr
        have hcol := GFitsTableLongLongCol.length_after_insert load_column hload col col'
          row nrows hc
        rw [hall col (List.mem_cons_self _ _)] at hcol
        refine ⟨by simp [hl], ?_⟩
        intro c hcm
        rcases List.mem_cons.mp hcm with rfl | hcm
        · exact hcol
        · exact hrest c hcm

theorem remove_columns_lengths
    (load_column : GFitsTableLongLongCol → Except Int GFitsTableLongLongCol)
    (hload : ∀ c c', load_column c = Except.ok c' → c'.m_length = c.m_length)
    (L row nrows : Int) :
    ∀ (columns columns' : List GFitsTableLongLongCol),
      (∀ c ∈ columns, c.m_length = L) →
      remove_columns load_column columns row nrows = Except.ok columns' →
      columns'.length = columns.length ∧
      ∀ c ∈ columns', c.m_length = if nrows > 0 then L - nrows else L := by
  intro columns
  induction columns with
  | nil =>
    intro columns' _ h
    simp only [remove_columns, Except.ok.injEq] at h
    subst h
    simp
  | cons col rest ih =>
    intro columns' hall h
    simp only [remove_columns] at h
    cases hc : GFitsTableLongLongCol.remove load_column col row nrows with
    | error e => rw [hc] at h; cases h
    | ok col' =>
      rw [hc] at h
      simp only [] at h
      cases hr : remove_columns load_column rest row nrows with
      | error e => rw [hr] at h; cases h
      | ok rest' =>
        rw [hr] at h
        simp only [Except.ok.injEq] at h
        subst h
        obtain ⟨hl, hrest⟩ := ih rest' (fun c hc => hall c (List.mem_cons_of_mem _ hc)) hr
        have hcol := GFitsTableLongLongCol.length_after_remove load_column hload col col'
          row nrows hc
        rw [hall col (List.mem_cons_self _ _)] at hcol
        refine ⟨by simp [hl], ?_⟩
        intro c hcm
        rcases List.mem_cons.mp hcm with rfl | hcm
        · exact hcol
        · exact hrest c hcm

end GFitsTable

/-- C25. For a table whose columns all have the length `num_rows`, after
every `insert_rows` and every `remove_rows` that returns normally, every
owned column reports the same length as `num_rows` of the table, and the
table owns as many columns as before. The load of the column data is taken
to leave the length as it is. -/
theorem table_row_count_invariant
    (load_column : GFitsTableLongLongCol → Except Int GFitsTableLongLongCol)
    (hload : ∀ c c', load_column c = Except.ok c' → c'.m_length = c.m_length)
    (table : GFitsTable) (hinv : ∀ c ∈ table.columns, c.m_length = table.num_rows)
    (row nrows : Int) :
    (∀ table', GFitsTable.insert_rows load_column table row nrows = Except.ok table' →
      (∀ c ∈ table'.columns, c.m_length = table'.num_rows) ∧
      table'.columns.length = table.columns.length) ∧
    (∀ table', GFitsTable.remove_rows load_column table row nrows = Except.ok table' →
      (∀ c ∈ table'.columns, c.m_length = table'.num_rows) ∧
      table'.columns.length = table.columns.length) := by
  constructor
  · intro table' h
    unfold GFitsTable.insert_rows at h
    cases hc : GFitsTable.insert_columns load_column table.columns row nrows with
    | error e => rw [hc] at h; cases h
    | ok columns =>
      rw [hc] at h
      simp only [Except.ok.injEq] at h
      subst h
      obtain ⟨hl, hlen⟩ := GFitsTable.insert_columns_lengths load_column hload table.num_rows
        row nrows table.columns columns hinv hc
      exact ⟨hlen, hl⟩
  · intro table' h
    unfold GFitsTable.remove_rows at h
    cases hc : GFitsTable.remove_columns load_column table.columns row nrows with
    | error e => rw [hc] at h; cases h
    | ok columns =>
      rw [hc] at h
      simp only [Except.ok.injEq] at h
      subst h
      obtain ⟨hl, hlen⟩ := GFitsTable.remove_columns_lengths load_column hload table.num_rows
        row nrows table.columns columns hinv hc
      exact ⟨hlen, hl⟩

/-- C25 (witness). The table of `ID = [10, 20, 30]` and an unloaded column
of 3 rows has `num_rows = 3`; `insert_rows(1, 2)` gives 5 rows in the table
and in both columns, `remove_rows(0, 1)` gives 2 rows. -/
theorem table_row_count_invariant_witness :
    (∀ c ∈ tableScenario.columns, c.m_length = tableScenario.num_rows) ∧
    (∃ table', GFitsTable.insert_rows load_column_zero tableScenario 1 2 = Except.ok table' ∧
      table'.num_rows = 5 ∧ table'.columns.map (fun c => c.m_length) = [5, 5] ∧
      (∀ c ∈ table'.columns, c.m_length = table'.num_rows) ∧
      table'.columns.length = tableScenario.columns.length) ∧
    (∃ table', GFitsTable.remove_rows load_column_zero tableScenario 0 1 = Except.ok table' ∧
      table'.num_rows = 2 ∧ table'.columns.map (fun c => c.m_length) = [2, 2] ∧
      (∀ c ∈ table'.columns, c.m_length = table'.num_rows) ∧
      table'.columns.length = tableScenario.columns.length) :=
  have hload : ∀ c c', load_column_zero c = Except.ok c' → c'.m_length = c.m_length := by
    intro c c' h
    simp only [load_column_zero, Except.ok.injEq] at h
    subst h
    rfl
  have hinv : ∀ c ∈ tableScenario.columns, c.m_length = tableScenario.num_rows := by
    intro c hc
    simp only [tableScenario, List.mem_cons, List.mem_singleton, List.not_mem_nil,
      or_false] at hc
    rcases hc with rfl | rfl <;> rfl
  ⟨hinv,
    ⟨_, rfl, rfl, rfl,
      (table_row_count_invariant load_column_zero hload tableScenario hinv 1 2).1 _ rfl⟩,
    ⟨_, rfl, rfl, rfl,
      (table_row_count_invariant load_column_zero hload tableScenario hinv 0 1).2 _ rfl⟩⟩

/-! ## Columns with their buffer in the free store -/

namespace FreeStore

theorem array_at_append_of_lt (fs : FreeStore) (x : Option (List Int)) (a : Nat)
    (h : a < fs.length) : array_at (fs ++ [x]) (some a) = array_at fs (some a) := by
  simp only [array_at, List.getD_eq_getElem?_getD]
  rw [List.getElem?_append_left h]

theorem array_at_append_self (fs : FreeStore) (x : Option (List Int)) :
    array_at (fs ++ [x]) (some fs.length) = x := by
  simp only [array_at, List.getD_eq_getElem?_getD]
  rw [List.getElem?_append_right (Nat.le_refl _)]
  simp

theorem array_at_delete_of_ne (fs : FreeStore) (p : Option Nat) (a : Nat) (h : p ≠ some a) :
    array_at (delete_array fs p) (some a) = array_at fs (some a) := by
  cases p with
  | none => rfl
  | some b =>
    have hb : b ≠ a := fun e => h (by rw [e])
    simp only [delete_array, array_at, List.getD_eq_getElem?_getD]
    rw [List.getElem?_set_ne hb]

theorem length_delete_array (fs : FreeStore) (p : Option Nat) :
    (delete_array fs p).length = fs.length := by
  cases p with
  | none => rfl
  | some b => simp [delete_array]

theorem array_at_set_of_ne (fs : FreeStore) (b a : Nat) (x : Option (List Int)) (h : b ≠ a) :
    array_at (fs.set b x) (some a) = array_at fs (some a) := by
  simp only [array_at, List.getD_eq_getElem?_getD]
  rw [List.getElem?_set_ne h]

theorem lt_length_of_array_at (fs : FreeStore) (a : Nat) (d : List Int)
    (h : fs[a]? = some (some d)) : a < fs.length := by
  by_contra hlt
  rw [List.getElem?_eq_none (by omega)] at h
  cases h

end FreeStore

namespace ColumnObject

theorem contents_assign (fs : FreeStore) (obj : ColumnObject) (col : GFitsTableLongLongCol) :
    (assign fs obj col).2.contents (assign fs obj col).1 = col := by
  unfold assign
  by_cases h : col.m_data = FreeStore.array_at fs obj.m_data
  · rw [if_pos h]
    cases col
    simp only [contents] at h ⊢
    rw [← h]
  · rw [if_neg h]
    cases hd : col.m_data with
    | none =>
      cases col
      simp only at hd
      subst hd
      rfl
    | some d =>
      cases col
      simp only at hd
      subst hd
      simp only [contents, FreeStore.new_array]
      rw [FreeStore.array_at_append_self]

theorem assign_frame (fs : FreeStore) (obj : ColumnObject) (col : GFitsTableLongLongCol)
    (a : Nat) (ha : a < fs.length) (hne : obj.m_data ≠ some a) :
    FreeStore.array_at (assign fs obj col).1 (some a) = FreeStore.array_at fs (some a) ∧
    (assign fs obj col).2.m_data ≠ some a ∧
    a < (assign fs obj col).1.length := by
  unfold assign
  by_cases h : col.m_data = FreeStore.array_at fs obj.m_data
  · rw [if_pos h]
    exact ⟨rfl, hne, ha⟩
  · rw [if_neg h]
    cases hd : col.m_data with
    | none =>
      refine ⟨FreeStore.array_at_delete_of_ne fs obj.m_data a hne, by simp, ?_⟩
      show a < (FreeStore.delete_array fs obj.m_data).length
      rw [FreeStore.length_delete_array]
      exact ha
    | some d =>
      have hl := FreeStore.length_delete_array fs obj.m_data
      refine ⟨?_, ?_, ?_⟩
      · show FreeStore.array_at (FreeStore.delete_array fs obj.m_data ++ [some d]) (some a) = _
        rw [FreeStore.array_at_append_of_lt _ _ _ (by omega)]
        exact FreeStore.array_at_delete_of_ne fs obj.m_data a hne
      · show some (FreeStore.delete_array fs obj.m_data).length ≠ some a
        intro e
        simp only [Option.some.injEq] at e
        omega
      · show a < (FreeStore.delete_array fs obj.m_data ++ [some d]).length
        rw [List.length_append]
        omega

theorem assign_valid (fs : FreeStore) (obj : ColumnObject) (col : GFitsTableLongLongCol)
    (hv : obj.Valid fs) : (assign fs obj col).2.Valid (assign fs obj col).1 := by
  unfold assign
  by_cases h : col.m_data = FreeStore.array_at fs obj.m_data
  · rw [if_pos h]
    exact hv
  · rw [if_neg h]
    cases hd : col.m_data with
    | none =>
      intro a ha
      cases ha
    | some d =>
      intro a ha
      simp only [FreeStore.new_array, Option.some.injEq] at ha
      subst ha
      refine ⟨d, ?_⟩
      show (FreeStore.delete_array fs obj.m_data ++ [some d])[
        (FreeStore.delete_array fs obj.m_data).length]? = some (some d)
      rw [List.getElem?_append_right (Nat.le_refl _)]
      simp

/-- An object other than `obj` keeps its contents when a member function of
`obj` has run. -/
theorem contents_of_assign_other (fs : FreeStore) (obj other : ColumnObject)
    (col : GFitsTableLongLongCol) (hv : other.Valid fs)
    (hne : ∀ a, other.m_data = some a → obj.m_data ≠ some a) :
    other.contents (assign fs obj col).1 = other.contents fs := by
  unfold contents
  cases ho : other.m_data with
  | none => rfl
  | some a =>
    obtain ⟨d, hd⟩ := hv a ho
    have ha := FreeStore.lt_length_of_array_at fs a d hd
    rw [(assign_frame fs obj col a ha (hne a ho)).1]

end ColumnObject

namespace ColumnObject

theorem contents_data_of_valid (fs : FreeStore) (obj : ColumnObject) (hv : obj.Valid fs) :
    (obj.contents fs).m_data = none ↔ obj.m_data = none := by
  unfold contents
  cases ho : obj.m_data with
  | none => simp [FreeStore.array_at]
  | some a =>
    obtain ⟨d, hd⟩ := hv a ho
    simp [FreeStore.array_at, List.getD_eq_getElem?_getD, hd]

theorem insert_other (load_column : GFitsTableLongLongCol → Except Int GFitsTableLongLongCol)
    (fs : FreeStore) (obj other : ColumnObject) (rownum nrows : Int)
    (r : FreeStore × ColumnObject) (hv : other.Valid fs)
    (hne : ∀ a, other.m_data = some a → obj.m_data ≠ some a)
    (h : insert load_column fs obj rownum nrows = Except.ok r) :
    other.contents r.1 = other.contents fs := by
  unfold insert at h
  cases hc : GFitsTableLongLongCol.insert load_column (obj.contents fs) rownum nrows with
  | error e => rw [hc] at h; cases h
  | ok col =>
    rw [hc] at h
    simp only [Except.ok.injEq] at h
    subst h
    exact contents_of_assign_other fs obj other col hv hne

theorem remove_other (load_column : GFitsTableLongLongCol → Except Int GFitsTableLongLongCol)
    (fs : FreeStore) (obj other : ColumnObject) (rownum nrows : Int)
    (r : FreeStore × ColumnObject) (hv : other.Valid fs)
    (hne : ∀ a, other.m_data = some a → obj.m_data ≠ some a)
    (h : remove load_column fs obj rownum nrows = Except.ok r) :
    other.contents r.1 = other.contents fs := by
  unfold remove at h
  cases hc : GFitsTableLongLongCol.remove load_column (obj.contents fs) rownum nrows with
  | error e => rw [hc] at h; cases h
  | ok col =>
    rw [hc] at h
    simp only [Except.ok.injEq] at h
    subst h
    exact contents_of_assign_other fs obj other col hv hne

theorem write_other (load_column : GFitsTableLongLongCol → Except Int GFitsTableLongLongCol)
    (offset : GFitsTableLongLongCol → Int → Int → Int)
    (fs : FreeStore) (obj other : ColumnObject) (row inx value : Int)
    (r : FreeStore × ColumnObject) (hv : other.Valid fs)
    (hne : ∀ a, other.m_data = some a → obj.m_data ≠ some a)
    (h : write load_column offset fs obj row inx value = Except.ok r) :
    other.contents r.1 = other.contents fs := by
  unfold write at h
  have hstep : ∀ f, (if obj.m_data = none then fetch_data load_column fs obj
      else Except.ok (fs, obj)) = Except.ok f →
      ∀ a, other.m_data = some a →
        FreeStore.array_at f.1 (some a) = FreeStore.array_at fs (some a) ∧
        f.2.m_data ≠ some a := by
    intro f hf a ha
    obtain ⟨d, hd⟩ := hv a ha
    have hlt := FreeStore.lt_length_of_array_at fs a d hd
    by_cases hn : obj.m_data = none
    · rw [if_pos hn] at hf
      unfold fetch_data at hf
      cases hl : GFitsTableLongLongCol.fetch_data load_column (obj.contents fs) with
      | error e => rw [hl] at hf; cases hf
      | ok loaded =>
        rw [hl] at hf
        simp only [Except.ok.injEq] at hf
        subst hf
        have := assign_frame fs obj loaded a hlt (hne a ha)
        exact ⟨this.1, this.2.1⟩
    · rw [if_neg hn] at hf
      simp only [Except.ok.injEq] at hf
      subst hf
      exact ⟨rfl, hne a ha⟩
  generalize (if obj.m_data = none then fetch_data load_column fs obj
    else Except.ok (fs, obj)) = f at h hstep
  cases f with
  | error e => cases h
  | ok f =>
    have hf := hstep f rfl
    simp only [] at h
    unfold contents
    cases ho : other.m_data with
    | none => rfl
    | some a =>
      obtain ⟨h1, h2⟩ := hf a ho
      cases hp : f.2.m_data with
      | none =>
        rw [hp] at h
        simp only [Except.ok.injEq] at h
        subst h
        rw [h1]
      | some b =>
        rw [hp] at h
        simp only [Except.ok.injEq] at h
        subst h
        have hb : b ≠ a := by
          intro e
          apply h2
          rw [hp, e]
        dsimp only []
        rw [FreeStore.array_at_set_of_ne _ _ _ _ hb, h1]

end ColumnObject

namespace ColumnObject

theorem alloc_nulval_eq (col : GFitsTableLongLongCol) (value : Option Int) :
    GFitsTableLongLongCol.alloc_nulval col value = { col with m_nulval := value } := by
  cases value <;> rfl

theorem fetch_step (load_column : GFitsTableLongLongCol → Except Int GFitsTableLongLongCol)
    (fs : FreeStore) (column : ColumnObject) (hvalid : column.Valid fs)
    (fetched : GFitsTableLongLongCol)
    (hfetch : (if column.m_data = none then
        GFitsTableLongLongCol.fetch_data load_column (column.contents fs)
      else Except.ok (column.contents fs)) = Except.ok fetched) :
    ∃ r : FreeStore × ColumnObject,
      (if decide (column.m_data = none) = true then fetch_data load_column fs column
        else Except.ok (fs, column)) = Except.ok r ∧
      r.2.contents r.1 = fetched ∧ r.2.Valid r.1 := by
  by_cases hd : column.m_data = none
  · rw [if_pos hd] at hfetch
    refine ⟨assign fs column fetched, ?_, contents_assign fs column fetched,
      assign_valid fs column fetched hvalid⟩
    rw [if_pos (by simp [hd])]
    unfold fetch_data
    rw [hfetch]
  · rw [if_neg hd] at hfetch
    simp only [Except.ok.injEq] at hfetch
    refine ⟨(fs, column), ?_, hfetch, hvalid⟩
    rw [if_neg (by simp [hd])]

theorem contents_append_of_valid (fs : FreeStore) (obj : ColumnObject)
    (x : Option (List Int)) (hv : obj.Valid fs) :
    obj.contents (fs ++ [x]) = obj.contents fs := by
  unfold contents
  cases ho : obj.m_data with
  | none => rfl
  | some a =>
    obtain ⟨d, hd⟩ := hv a ho
    rw [FreeStore.array_at_append_of_lt fs x a (FreeStore.lt_length_of_array_at fs a d hd)]

theorem valid_append (fs : FreeStore) (obj : ColumnObject)
    (x : Option (List Int)) (hv : obj.Valid fs) : obj.Valid (fs ++ [x]) := by
  intro a ha
  obtain ⟨d, hd⟩ := hv a ha
  refine ⟨d, ?_⟩
  rw [List.getElem?_append_left (FreeStore.lt_length_of_array_at fs a d hd)]
  exact hd

theorem ne_length_of_valid (fs : FreeStore) (obj : ColumnObject) (hv : obj.Valid fs) :
    obj.m_data ≠ some fs.length := by
  intro ha
  obtain ⟨d, hd⟩ := hv _ ha
  have := FreeStore.lt_length_of_array_at fs _ d hd
  omega

theorem clone_result (base_copy : GFitsTableLongLongCol → GFitsTableLongLongCol)
    (load_column : GFitsTableLongLongCol → Except Int GFitsTableLongLongCol)
    (small_memory : Bool) (fs : FreeStore) (column : ColumnObject) (hvalid : column.Valid fs)
    (fetched : GFitsTableLongLongCol)
    (hfetch : (if column.m_data = none then
        GFitsTableLongLongCol.fetch_data load_column (column.contents fs)
      else Except.ok (column.contents fs)) = Except.ok fetched) :
    ∃ fs' this column',
      clone base_copy load_column small_memory fs column = Except.ok (fs', this, column') ∧
      this.contents fs' =
        { GFitsTableLongLongCol.init_members (base_copy column.members) with
          m_type := fetched.m_type, m_size := fetched.m_size, m_varlen := fetched.m_varlen,
          m_rowstart := fetched.m_rowstart, m_nulval := fetched.m_nulval,
          m_data := if fetched.m_data ≠ none ∧ fetched.m_size > 0 then
              some (GFitsTableLongLongCol.copy_loop (fetched.m_data.getD [])
                fetched.m_size.toNat 0 0
                (GFitsTableLongLongCol.new_long_long fetched.m_size)).2.2
            else none } ∧
      column'.contents fs' = (if small_memory = true ∧ column.m_data = none then
        GFitsTableLongLongCol.release_data fetched else fetched) ∧
      column'.Valid fs' ∧
      (∀ a, column'.m_data = some a → this.m_data ≠ some a) := by
  obtain ⟨r, hr, hc, hv⟩ := fetch_step load_column fs column hvalid fetched hfetch
  unfold clone copy_members
  simp only []
  rw [hr]
  simp only []
  rw [hc]
  have hptr : r.2.m_data ≠ none ↔ fetched.m_data ≠ none := by
    rw [← hc]
    exact (not_congr (contents_data_of_valid r.1 r.2 hv)).symm
  have hrelease : (small_memory && decide (column.m_data = none)) = true ↔
      (small_memory = true ∧ column.m_data = none) := by
    simp
  have hnew := ne_length_of_valid r.1 r.2 hv
  have hdel : FreeStore.delete_array r.1 none = r.1 := rfl
  simp only [alloc_nulval_eq, hdel, FreeStore.new_array, release_data]
  by_cases hcond : r.2.m_data ≠ none ∧ fetched.m_size > 0
  · have hcond' : fetched.m_data ≠ none ∧ fetched.m_size > 0 := ⟨hptr.mp hcond.1, hcond.2⟩
    simp only [if_pos hcond, if_pos hcond']
    by_cases hrel : (small_memory && decide (column.m_data = none)) = true
    · simp only [if_pos hrel, if_pos (hrelease.mp hrel)]
      refine ⟨_, _, _, rfl, ?_, ?_, ?_, ?_⟩
      · unfold contents
        dsimp only []
        rw [FreeStore.array_at_delete_of_ne _ _ _ hnew, FreeStore.array_at_append_self]
      · rw [← hc]
        rfl
      · intro a ha
        cases ha
      · intro a ha
        cases ha
    · simp only [if_neg hrel, if_neg (fun h => hrel (hrelease.mpr h))]
      refine ⟨_, _, _, rfl, ?_, ?_, ?_, ?_⟩
      · unfold contents
        dsimp only []
        rw [FreeStore.array_at_append_self]
      · rw [contents_append_of_valid _ _ _ hv]
        exact hc
      · exact valid_append _ _ _ hv
      · intro a ha e
        apply hnew
        rw [ha]
        exact e.symm
  · have hcond' : ¬ (fetched.m_data ≠ none ∧ fetched.m_size > 0) :=
      fun h => hcond ⟨hptr.mpr h.1, h.2⟩
    simp only [if_neg hcond, if_neg hcond']
    by_cases hrel : (small_memory && decide (column.m_data = none)) = true
    · simp only [if_pos hrel, if_pos (hrelease.mp hrel)]
      refine ⟨_, _, _, rfl, ?_, ?_, ?_, ?_⟩
      · rfl
      · rw [← hc]
        rfl
      · intro a ha
        cases ha
      · intro a ha
        cases ha
    · simp only [if_neg hrel, if_neg (fun h => hrel (hrelease.mpr h))]
      refine ⟨_, _, _, rfl, ?_, ?_, ?_, ?_⟩
      · rfl
      · exact hc
      · exact hv
      · intro a _ e
        cases e

end ColumnObject

/-- C22. `clone` is a deep copy. For a source whose pointer is NULL or
refers to a live array, and whose data can be fetched, `clone` returns, and
with `fetched` the source after the fetch that `copy_members` forces:
* the clone has the loaded size and the NULL sentinel of `fetched`;
* its buffer holds, at every position below the loaded size, the element of
  `fetched` at that position (and the clone has no buffer when `fetched` has
  none);
* the buffer of the clone is never the array of the source;
* the source is `fetched` after the call (released again when the code is
  compiled with G_SMALL_MEMORY and the source was not loaded);
* a later write, insert or remove on the clone leaves the contents of the
  source, with every element and the length, as they are. -/
theorem clone_is_deep_copy (base_copy : GFitsTableLongLongCol → GFitsTableLongLongCol)
    (load_column : GFitsTableLongLongCol → Except Int GFitsTableLongLongCol)
    (offset : GFitsTableLongLongCol → Int → Int → Int)
    (small_memory : Bool) (fs : FreeStore) (column : ColumnObject)
    (hvalid : column.Valid fs) (fetched : GFitsTableLongLongCol)
    (hfetch : (if column.m_data = none then
        GFitsTableLongLongCol.fetch_data load_column (column.contents fs)
      else Except.ok (column.contents fs)) = Except.ok fetched) :
    ∃ fs' this column',
      ColumnObject.clone base_copy load_column small_memory fs column =
        Except.ok (fs', this, column') ∧
      (this.contents fs').m_size = fetched.m_size ∧
      (this.contents fs').m_nulval = fetched.m_nulval ∧
      (∀ d : List Int, fetched.m_data = some d → 0 < fetched.m_size →
        fetched.m_size ≤ d.length →
        (this.contents fs').m_data = some (d.take fetched.m_size.toNat)) ∧
      (fetched.m_data = none → (this.contents fs').m_data = none) ∧
      (∀ a, this.m_data = some a → column'.m_data ≠ some a) ∧
      column'.contents fs' = (if small_memory = true ∧ column.m_data = none then
        GFitsTableLongLongCol.release_data fetched else fetched) ∧
      (∀ row inx value r,
        ColumnObject.write load_column offset fs' this row inx value = Except.ok r →
        column'.contents r.1 = column'.contents fs') ∧
      (∀ rownum nrows r,
        ColumnObject.insert load_column fs' this rownum nrows = Except.ok r →
        column'.contents r.1 = column'.contents fs') ∧
      (∀ rownum nrows r,
        ColumnObject.remove load_column fs' this rownum nrows = Except.ok r →
        column'.contents r.1 = column'.contents fs') := by
  obtain ⟨fs', this, column', hclone, hthis, hsource, hv, hne⟩ :=
    ColumnObject.clone_result base_copy load_column small_memory fs column hvalid fetched hfetch
  have hne' : ∀ a, this.m_data = some a → column'.m_data ≠ some a := by
    intro a ha hc
    exact hne a hc ha
  refine ⟨fs', this, column', hclone, ?_, ?_, ?_, ?_, hne', hsource, ?_, ?_, ?_⟩
  · rw [hthis]
  · rw [hthis]
  · intro d hd hpos hlen
    rw [hthis]
    have hcond : fetched.m_data ≠ none ∧ fetched.m_size > 0 := by
      refine ⟨?_, hpos⟩
      rw [hd]
      simp
    have hn : fetched.m_size.toNat ≤ d.length := by omega
    have hrep : (GFitsTableLongLongCol.new_long_long fetched.m_size).length =
        fetched.m_size.toNat := by
      simp [GFitsTableLongLongCol.new_long_long]
    dsimp only []
    rw [if_pos hcond, hd]
    simp only [Option.getD_some]
    rw [GFitsTableLongLongCol.copy_loop_eq d fetched.m_size.toNat 0 0 _ (by omega)
      (by rw [hrep]; omega)]
    simp only [List.take_zero, List.drop_zero, List.nil_append, Nat.zero_add]
    rw [List.drop_of_length_le (by rw [hrep]), List.append_nil]
  · intro hd
    rw [hthis]
    have hcond : ¬ (fetched.m_data ≠ none ∧ fetched.m_size > 0) := fun h => h.1 hd
    simp only [if_neg hcond]
  · intro row inx value r h
    exact ColumnObject.write_other load_column offset fs' this column' row inx value r hv hne h
  · intro rownum nrows r h
    exact ColumnObject.insert_other load_column fs' this column' rownum nrows r hv hne h
  · intro rownum nrows r h
    exact ColumnObject.remove_other load_column fs' this column' rownum nrows r hv hne h

/-- C22 (witness). The column `ID = [10, 20, 30]` with its buffer at address
0 is cloned: the clone holds `[10, 20, 30]` in the array at address 1. The
write `clone(1, 0) = 99` changes the array at address 1 only, and the source
still holds `[10, 20, 30]` after it and after an insert and a remove on the
clone. -/
theorem clone_is_deep_copy_witness :
    ColumnObject.Valid storeID objectID ∧
    ColumnObject.clone id load_column_zero false storeID objectID =
      Except.ok ([some [10, 20, 30], some [10, 20, 30]],
        { members := objectID.members, m_data := some 1 }, objectID) ∧
    ColumnObject.write load_column_zero offset_rows [some [10, 20, 30], some [10, 20, 30]]
        { members := objectID.members, m_data := some 1 } 1 0 99 =
      Except.ok ([some [10, 20, 30], some [10, 99, 30]],
        { members := objectID.members, m_data := some 1 }) ∧
    (∃ fs' this column',
      ColumnObject.clone id load_column_zero false storeID objectID =
        Except.ok (fs', this, column') ∧
      (this.contents fs').m_size = 3 ∧
      (this.contents fs').m_nulval = none ∧
      (this.contents fs').m_data = some [10, 20, 30] ∧
      (∀ a, this.m_data = some a → column'.m_data ≠ some a) ∧
      column'.contents fs' = columnID ∧
      (∀ r, ColumnObject.write load_column_zero offset_rows fs' this 1 0 99 = Except.ok r →
        column'.contents r.1 = column'.contents fs') ∧
      (∀ r, ColumnObject.insert load_column_zero fs' this 1 2 = Except.ok r →
        column'.contents r.1 = column'.contents fs') ∧
      (∀ r, ColumnObject.remove load_column_zero fs' this 0 3 = Except.ok r →
        column'.contents r.1 = column'.contents fs')) := by
  have hvalid : ColumnObject.Valid storeID objectID := by
    intro a ha
    cases ha
    exact ⟨[10, 20, 30], rfl⟩
  obtain ⟨fs', this, column', h1, h2, h3, h4, _, h6, h7, h8, h9, h10⟩ :=
    clone_is_deep_copy id load_column_zero offset_rows false storeID objectID hvalid
      columnID rfl
  exact ⟨hvalid, rfl, rfl, fs', this, column', h1, h2, h3,
    h4 [10, 20, 30] rfl (by decide) (by decide), h6, h7,
    fun r => h8 1 0 99 r, fun r => h9 1 2 r, fun r => h10 0 3 r⟩

/-! ## Allocation failure, release_data and the calls that change nothing -/

/-- C32 (code at the failing input). On the loaded column `ID = [10, 20,
30]` with a `new` that throws, `insert(1, 2)` ends with `std::bad_alloc` and
leaves the loaded size at 5 while the length is still 3 and the buffer still
holds 3 elements; `remove(0, 1)` leaves the loaded size at 2 in the same
way. The column is not in its state before the call, and the loaded size no
longer equals length times repeat. -/
theorem alloc_failure_changes_size :
    GFitsTableLongLongCol.insert_alloc alloc_failing load_column_zero columnID 1 2 =
      ({ columnID with m_size := 5 }, some Thrown.bad_alloc) ∧
    GFitsTableLongLongCol.remove_alloc alloc_failing load_column_zero columnID 0 1 =
      ({ columnID with m_size := 2 }, some Thrown.bad_alloc) ∧
    (GFitsTableLongLongCol.insert_alloc alloc_failing load_column_zero columnID 1 2).1 ≠
      columnID ∧
    (GFitsTableLongLongCol.remove_alloc alloc_failing load_column_zero columnID 0 1).1 ≠
      columnID ∧
    (GFitsTableLongLongCol.insert_alloc alloc_failing load_column_zero columnID 1 2).1.m_length
      = 3 ∧
    (GFitsTableLongLongCol.insert_alloc alloc_failing load_column_zero columnID 1 2).1.m_data
      = some [10, 20, 30] ∧
    ¬ GFitsTableLongLongCol.BufferSizeInvariant
      (GFitsTableLongLongCol.insert_alloc alloc_failing load_column_zero columnID 1 2).1 ∧
    GFitsTableLongLongCol.insert_alloc alloc_ok load_column_zero columnID 1 2 =
      (columnID5, none) := by
  refine ⟨rfl, rfl, by decide, by decide, rfl, rfl, by decide, rfl⟩

/-- C33. GFitsTableLongLongCol::release_data leaves the column without
buffer and with loaded size 0, and changes nothing else: the length, the
NULL sentinel and every other member are as before. -/
theorem release_data_only_unloads (col : GFitsTableLongLongCol) :
    (GFitsTableLongLongCol.release_data col).m_data = none ∧
    (GFitsTableLongLongCol.release_data col).m_size = 0 ∧
    (GFitsTableLongLongCol.release_data col).m_length = col.m_length ∧
    (GFitsTableLongLongCol.release_data col).m_nulval = col.m_nulval ∧
    GFitsTableLongLongCol.release_data col = { col with m_data := none, m_size := 0 } :=
  ⟨rfl, rfl, rfl, rfl, rfl⟩

/-- C34. For every column and every `rownum` with `0 <= rownum <= length`,
`insert(rownum, nrows)` with `nrows < 0` returns normally and leaves every
member of the column (length, loaded size, buffer, NULL sentinel) as it is;
no load is performed (the result is the same for every `load_column`). -/
theorem insert_negative_rows_is_noop (col : GFitsTableLongLongCol) (rownum nrows : Int)
    (hr0 : 0 ≤ rownum) (hr1 : rownum ≤ col.m_length) (hn : nrows < 0) :
    ∀ load_column : GFitsTableLongLongCol → Except Int GFitsTableLongLongCol,
      GFitsTableLongLongCol.insert load_column col rownum nrows = Except.ok col ∧
      GFitsTableLongLongCol.insert_run load_column col rownum nrows = (col, none) := by
  intro load_column
  constructor
  · unfold GFitsTableLongLongCol.insert
    rw [if_neg (by omega), if_neg (by omega)]
  · unfold GFitsTableLongLongCol.insert_run
    rw [if_neg (by omega), if_neg (by omega)]

/-- Witness for C34: `insert(1, -2)` on the column `ID`, and on the unloaded
column of 3 rows with a load that always fails, returns the column as it
was. -/
theorem insert_negative_rows_is_noop_witness :
    GFitsTableLongLongCol.insert load_column_zero columnID 1 (-2) = Except.ok columnID ∧
    GFitsTableLongLongCol.insert load_column_failing columnUnloaded 3 (-1) =
      Except.ok columnUnloaded :=
  ⟨(insert_negative_rows_is_noop columnID 1 (-2) (by decide) (by decide) (by decide)
      load_column_zero).1,
    (insert_negative_rows_is_noop columnUnloaded 3 (-1) (by decide) (by decide) (by decide)
      load_column_failing).1⟩

/-- C36. For every column and every `rownum` with `0 <= rownum < length`,
`remove(rownum, 0)` returns normally and leaves every member of the column
(length, loaded size, buffer, NULL sentinel) as it is; no load is performed
(the result is the same for every `load_column`). -/
theorem remove_zero_rows_is_noop (col : GFitsTableLongLongCol) (rownum : Int)
    (hr0 : 0 ≤ rownum) (hr1 : rownum < col.m_length) :
    ∀ load_column : GFitsTableLongLongCol → Except Int GFitsTableLongLongCol,
      GFitsTableLongLongCol.remove load_column col rownum 0 = Except.ok col ∧
      GFitsTableLongLongCol.remove_run load_column col rownum 0 = (col, none) := by
  intro load_column
  constructor
  · unfold GFitsTableLongLongCol.remove
    rw [if_neg (by omega), if_neg (by omega), if_neg (by omega)]
  · unfold GFitsTableLongLongCol.remove_run
    rw [if_neg (by omega), if_neg (by omega), if_neg (by omega)]

/-- Witness for C36: `remove(1, 0)` on the column `ID`, and on the unloaded
column of 3 rows with a load that always fails, returns the column as it
was. -/
theorem remove_zero_rows_is_noop_witness :
    GFitsTableLongLongCol.remove load_column_zero columnID 1 0 = Except.ok columnID ∧
    GFitsTableLongLongCol.remove load_column_failing columnUnloaded 2 0 =
      Except.ok columnUnloaded :=
  ⟨(remove_zero_rows_is_noop columnID 1 (by decide) (by decide) load_column_zero).1,
    (remove_zero_rows_is_noop columnUnloaded 2 (by decide) (by decide)
      load_column_failing).1⟩

/-! ## The first match of a keyword -/

/-- C37. For every header, `card_ptr(keyname)` yields the lowest position
whose card has the keyword `keyname`, and no position exactly when no card
of the header has that keyword. So `update` with a card of keyword
`keyname`, on a header where `card_ptr` finds the position `p`, puts the card
at `p` and leaves the card at every other position, the later cards of the
same keyword included, as it is. -/
theorem card_ptr_first_match (h : GFitsHeader) (hw : h.WellFormed) (keyname : String) :
    (∀ p, h.card_ptr keyname = some p ↔
      (∃ c, h.cards[p]? = some c ∧ c.keyname = keyname) ∧
        ∀ j, j < p → ∀ c, h.cards[j]? = some c → c.keyname ≠ keyname) ∧
    (h.card_ptr keyname = none ↔ ∀ c ∈ h.cards, c.keyname ≠ keyname) ∧
    (∀ (card : GFitsHeaderCard) (p : Nat), card.keyname = keyname →
      h.card_ptr keyname = some p →
      (h.update card).cards[p]? = some card ∧
      (h.update card).cards.length = h.cards.length ∧
      (∀ j, j ≠ p → (h.update card).cards[j]? = h.cards[j]?) ∧
      (∀ j c, p < j → h.cards[j]? = some c → c.keyname = keyname →
        (h.update card).cards[j]? = some c)) := by
  refine ⟨fun p => GFitsHeader.card_some_iff h hw keyname p,
    GFitsHeader.card_none_iff h hw keyname, ?_⟩
  intro card p hk hp
  have hp' : h.card card.keyname = some p := by
    rw [hk]
    exact hp
  have hlt : p < h.cards.length := by
    obtain ⟨⟨x, hx, _⟩, _⟩ := (GFitsHeader.card_some_iff h hw keyname p).mp hp
    exact (List.getElem?_eq_some.mp hx).1
  rw [GFitsHeader.cards_update_of_some h card p hp']
  refine ⟨List.getElem?_set_self hlt, by simp, ?_, ?_⟩
  · intro j hj
    exact List.getElem?_set_ne (Ne.symm hj)
  · intro j c hj hc _
    rw [List.getElem?_set_ne (by omega)]
    exact hc

/-- Witness for C37: in the header `A = 1, A = 2` the lookup of `A` finds
position 0; `update` with `A = 3` puts the card at position 0 and leaves
`A = 2` at position 1. -/
theorem card_ptr_first_match_witness :
    headerTwice.card_ptr "A" = some 0 ∧
    (headerTwice.update cardA3).cards[0]? = some cardA3 ∧
    (headerTwice.update cardA3).cards[1]? = some ⟨"A", CardValue.integer 2, ""⟩ :=
  have h := card_ptr_first_match headerTwice (by decide) "A"
  have hp : headerTwice.card_ptr "A" = some 0 :=
    (h.1 0).mpr ⟨⟨_, rfl, rfl⟩, by intro j hj; omega⟩
  ⟨hp, (h.2.2 cardA3 0 rfl hp).1,
    (h.2.2 cardA3 0 rfl hp).2.2.2 1 ⟨"A", CardValue.integer 2, ""⟩ (by decide) rfl rfl⟩

/-! ## The offset of an image as a bijection -/

namespace GFitsImage

theorem digit_unique (n x y p q : Int) (hx0 : 0 ≤ x) (hx : x < n) (hy0 : 0 ≤ y) (hy : y < n)
    (h : x + n * p = y + n * q) : x = y ∧ p = q := by
  have hn : 0 ≤ n := by omega
  rcases lt_trichotomy p q with hpq | hpq | hpq
  · have h1 : n * (p + 1) ≤ n * q := mul_le_mul_of_nonneg_left (by omega) hn
    have h2 : n * (p + 1) = n * p + n := by ring
    omega
  · subst hpq
    exact ⟨by omega, rfl⟩
  · have h1 : n * (q + 1) ≤ n * p := mul_le_mul_of_nonneg_left (by omega) hn
    have h2 : n * (q + 1) = n * q + n := by ring
    omega

/-- Two index lists of the same length that pass the bounds check and have
the same offset are equal. -/
theorem offset_of_injective :
    ∀ (ix iy naxes : List Int), ix.length = iy.length →
      in_range naxes ix = true → in_range naxes iy = true →
      offset_of naxes ix = offset_of naxes iy → ix = iy := by
  intro ix
  induction ix with
  | nil =>
    intro iy naxes hl _ _ _
    cases iy with
    | nil => rfl
    | cons y ys => simp at hl
  | cons x xs ih =>
    intro iy naxes hl hx hy ho
    cases iy with
    | nil => simp at hl
    | cons y ys =>
      simp only [in_range, Bool.and_eq_true, decide_eq_true_eq] at hx hy
      obtain ⟨⟨hx0, hx1⟩, hxs⟩ := hx
      obtain ⟨⟨hy0, hy1⟩, hys⟩ := hy
      simp only [offset_of] at ho
      obtain ⟨h1, h2⟩ := digit_unique _ x y _ _ hx0 hx1 hy0 hy1 ho
      have hl' : xs.length = ys.length := by
        simp only [List.length_cons] at hl
        omega
      rw [h1, ih ys naxes.tail hl' hxs hys h2]

/-- Every offset below the product of the extents is the offset of an index
list that passes the bounds check. -/
theorem offset_of_surjective :
    ∀ (naxes : List Int), (∀ n ∈ naxes, 0 < n) → ∀ k : Int, 0 ≤ k → k < naxes.prod →
      ∃ indices : List Int, indices.length = naxes.length ∧
        in_range naxes indices = true ∧ offset_of naxes indices = k := by
  intro naxes
  induction naxes with
  | nil =>
    intro _ k hk0 hk1
    simp only [List.prod_nil] at hk1
    refine ⟨[], rfl, rfl, ?_⟩
    simp only [offset_of]
    omega
  | cons n ns ih =>
    intro hpos k hk0 hk1
    have hn : 0 < n := hpos n (List.mem_cons_self _ _)
    rw [List.prod_cons] at hk1
    have hq0 : 0 ≤ k / n := Int.ediv_nonneg hk0 (le_of_lt hn)
    have hq1 : k / n < ns.prod := by
      apply Int.ediv_lt_of_lt_mul hn
      rw [mul_comm]
      exact hk1
    obtain ⟨rest, hlen, hin, hoff⟩ :=
      ih (fun m hm => hpos m (List.mem_cons_of_mem _ hm)) (k / n) hq0 hq1
    refine ⟨k % n :: rest, by simp [hlen], ?_, ?_⟩
    · simp only [in_range, List.headD_cons, List.tail_cons, Bool.and_eq_true,
        decide_eq_true_eq]
      exact ⟨⟨Int.emod_nonneg k (ne_of_gt hn), Int.emod_lt_of_pos k hn⟩, hin⟩
    · simp only [offset_of, List.headD_cons, List.tail_cons]
      rw [hoff]
      exact Int.emod_add_ediv k n

end GFitsImage

/-- C38. For an image with the positive extents `n0`, `n1`, `n2`, `n3` and
`num_pixels = n0*n1*n2*n3`, the 4D offset maps the valid index tuples
(`0 <= x < n0`, `0 <= y < n1`, `0 <= z < n2`, `0 <= t < n3`) one-to-one onto
the range from 0 to `num_pixels - 1`: the offset of a valid tuple lies in
the range (and inside a buffer of `num_pixels` pixels), two valid tuples
with the same offset are equal, and every offset of the range is the offset
of a valid tuple. -/
theorem image_offset_bijection {α : Type} (img : GFitsImage α) (n0 n1 n2 n3 : Int)
    (hnaxes : img.m_naxes = [n0, n1, n2, n3])
    (h0 : 0 < n0) (h1 : 0 < n1) (h2 : 0 < n2) (h3 : 0 < n3)
    (hnum : img.m_num_pixels = n0 * n1 * n2 * n3) :
    (∀ x y z t : Int, 0 ≤ x → x < n0 → 0 ≤ y → y < n1 → 0 ≤ z → z < n2 → 0 ≤ t → t < n3 →
      0 ≤ GFitsImage.offset_xyzt img x y z t ∧
      GFitsImage.offset_xyzt img x y z t < img.m_num_pixels ∧
      ((img.m_pixels.length : Int) = img.m_num_pixels →
        (GFitsImage.offset_xyzt img x y z t).toNat < img.m_pixels.length)) ∧
    (∀ x y z t x' y' z' t' : Int,
      0 ≤ x → x < n0 → 0 ≤ y → y < n1 → 0 ≤ z → z < n2 → 0 ≤ t → t < n3 →
      0 ≤ x' → x' < n0 → 0 ≤ y' → y' < n1 → 0 ≤ z' → z' < n2 → 0 ≤ t' → t' < n3 →
      GFitsImage.offset_xyzt img x y z t = GFitsImage.offset_xyzt img x' y' z' t' →
      x = x' ∧ y = y' ∧ z = z' ∧ t = t') ∧
    (∀ k : Int, 0 ≤ k → k < img.m_num_pixels →
      ∃ x y z t : Int, 0 ≤ x ∧ x < n0 ∧ 0 ≤ y ∧ y < n1 ∧ 0 ≤ z ∧ z < n2 ∧ 0 ≤ t ∧ t < n3 ∧
        GFitsImage.offset_xyzt img x y z t = k) := by
  have hpos : ∀ n ∈ [n0, n1, n2, n3], 0 < n := by
    intro n hn
    simp only [List.mem_cons, List.mem_singleton, List.not_mem_nil, or_false] at hn
    rcases hn with rfl | rfl | rfl | rfl <;> assumption
  have hprod : [n0, n1, n2, n3].prod = n0 * n1 * n2 * n3 := by
    simp only [List.prod_cons, List.prod_nil]
    ring
  have hin : ∀ x y z t : Int,
      0 ≤ x → x < n0 → 0 ≤ y → y < n1 → 0 ≤ z → z < n2 → 0 ≤ t → t < n3 →
      GFitsImage.in_range [n0, n1, n2, n3] [x, y, z, t] = true := by
    intro x y z t a1 a2 a3 a4 a5 a6 a7 a8
    simp [GFitsImage.in_range, a1, a2, a3, a4, a5, a6, a7, a8]
  refine ⟨?_, ?_, ?_⟩
  · intro x y z t a1 a2 a3 a4 a5 a6 a7 a8
    have hb := GFitsImage.offset_of_bounds [x, y, z, t] [n0, n1, n2, n3] hpos
      (hin x y z t a1 a2 a3 a4 a5 a6 a7 a8)
    unfold GFitsImage.offset_xyzt
    rw [hnaxes, hnum, ← hprod]
    refine ⟨hb.1, hb.2, ?_⟩
    intro hbuf
    rw [hprod] at hb hbuf
    omega
  · intro x y z t x' y' z' t' a1 a2 a3 a4 a5 a6 a7 a8 b1 b2 b3 b4 b5 b6 b7 b8 ho
    unfold GFitsImage.offset_xyzt at ho
    rw [hnaxes] at ho
    have heq := GFitsImage.offset_of_injective [x, y, z, t] [x', y', z', t'] [n0, n1, n2, n3]
      rfl (hin x y z t a1 a2 a3 a4 a5 a6 a7 a8) (hin x' y' z' t' b1 b2 b3 b4 b5 b6 b7 b8) ho
    simp only [List.cons.injEq, and_true] at heq
    exact heq
  · intro k hk0 hk1
    rw [hnum, ← hprod] at hk1
    obtain ⟨indices, hlen, hr, hoff⟩ :=
      GFitsImage.offset_of_surjective [n0, n1, n2, n3] hpos k hk0 hk1
    match indices, hlen, hr, hoff with
    | [x, y, z, t], _, hr, hoff =>
      simp only [GFitsImage.in_range, List.headD_cons, List.tail_cons, Bool.and_eq_true,
        decide_eq_true_eq, and_true] at hr
      obtain ⟨⟨a1, a2⟩, ⟨a3, a4⟩, ⟨a5, a6⟩, a7, a8⟩ := hr
      refine ⟨x, y, z, t, a1, a2, a3, a4, a5, a6, a7, a8, ?_⟩
      unfold GFitsImage.offset_xyzt
      rw [hnaxes]
      exact hoff

/-- Witness for C38: in the image with `naxes = [3, 2, 2, 1]` and 12 pixels,
the tuple (2, 1, 1, 0) has the offset 11, the tuples (1, 0, 1, 0) and
(0, 1, 1, 0) have different offsets, and the offset 7 is the offset of a
valid tuple. -/
theorem image_offset_bijection_witness :
    GFitsImage.offset_xyzt imageCube 2 1 1 0 = 11 ∧
    (0 ≤ GFitsImage.offset_xyzt imageCube 2 1 1 0 ∧
      GFitsImage.offset_xyzt imageCube 2 1 1 0 < imageCube.m_num_pixels ∧
      (GFitsImage.offset_xyzt imageCube 2 1 1 0).toNat < imageCube.m_pixels.length) ∧
    GFitsImage.offset_xyzt imageCube 1 0 1 0 ≠ GFitsImage.offset_xyzt imageCube 0 1 1 0 ∧
    (∃ x y z t : Int, 0 ≤ x ∧ x < 3 ∧ 0 ≤ y ∧ y < 2 ∧ 0 ≤ z ∧ z < 2 ∧ 0 ≤ t ∧ t < 1 ∧
      GFitsImage.offset_xyzt imageCube x y z t = 7) :=
  have h := image_offset_bijection imageCube 3 2 2 1 rfl (by decide) (by decide) (by decide)
    (by decide) rfl
  have hb := h.1 2 1 1 0 (by decide) (by decide) (by decide) (by decide) (by decide)
    (by decide) (by decide) (by decide)
  ⟨rfl, ⟨hb.1, hb.2.1, hb.2.2 rfl⟩,
    fun heq => absurd (h.2.1 1 0 1 0 0 1 1 0 (by decide) (by decide) (by decide) (by decide)
      (by decide) (by decide) (by decide) (by decide) (by decide) (by decide) (by decide)
      (by decide) (by decide) (by decide) (by decide) (by decide) heq).1 (by decide),
    h.2.2 7 (by decide) (by decide)⟩

/-! ## The coordinate-system flags of GSkyDir -/

namespace GSkyDir

theorem galactic_getter_flags (tools : GTools) (dir : GSkyDir) :
    (if (!dir.m_has_lb && dir.m_has_radec) = true then equ2gal tools dir else dir).m_has_lb =
        dir.m_has_lb ∧
    (if (!dir.m_has_lb && dir.m_has_radec) = true then equ2gal tools dir else dir).m_has_radec =
        dir.m_has_radec := by
  by_cases h : (!dir.m_has_lb && dir.m_has_radec) = true
  · rw [if_pos h]
    exact ⟨rfl, rfl⟩
  · rw [if_neg h]
    exact ⟨rfl, rfl⟩

theorem equatorial_getter_flags (tools : GTools) (dir : GSkyDir) :
    (if (!dir.m_has_radec && dir.m_has_lb) = true then gal2equ tools dir else dir).m_has_lb =
        dir.m_has_lb ∧
    (if (!dir.m_has_radec && dir.m_has_lb) = true then gal2equ tools dir else dir).m_has_radec =
        dir.m_has_radec := by
  by_cases h : (!dir.m_has_radec && dir.m_has_lb) = true
  · rw [if_pos h]
    exact ⟨rfl, rfl⟩
  · rw [if_neg h]
    exact ⟨rfl, rfl⟩

/-- No reachable direction has both flags set. -/
theorem reachable_flags (tools : GTools)
    (rotated : Float → Float → Float → Float → Float × Float × Float) (dir : GSkyDir)
    (hreach : Reachable tools rotated dir) :
    ¬ (dir.m_has_lb = true ∧ dir.m_has_radec = true) := by
  induction hreach with
  | constructed => rintro ⟨h, _⟩; cases h
  | clear d _ _ => rintro ⟨h, _⟩; cases h
  | radec d x y _ _ => rintro ⟨h, _⟩; cases h
  | radec_deg d x y _ _ => rintro ⟨h, _⟩; cases h
  | lb d x y _ _ => rintro ⟨_, h⟩; cases h
  | lb_deg d x y _ _ => rintro ⟨_, h⟩; cases h
  | celvector d v _ _ => rintro ⟨h, _⟩; cases h
  | rotate d phi theta _ _ => rintro ⟨h, _⟩; cases h
  | l d _ ih =>
    intro h
    apply ih
    have hf := galactic_getter_flags tools d
    exact ⟨hf.1 ▸ h.1, hf.2 ▸ h.2⟩
  | b d _ ih =>
    intro h
    apply ih
    have hf := galactic_getter_flags tools d
    exact ⟨hf.1 ▸ h.1, hf.2 ▸ h.2⟩
  | ra d _ ih =>
    intro h
    apply ih
    have hf := equatorial_getter_flags tools d
    exact ⟨hf.1 ▸ h.1, hf.2 ▸ h.2⟩
  | dec d _ ih =>
    intro h
    apply ih
    have hf := equatorial_getter_flags tools d
    exact ⟨hf.1 ▸ h.1, hf.2 ▸ h.2⟩
  | l_deg d _ ih =>
    intro h
    apply ih
    have hf := galactic_getter_flags tools d
    exact ⟨hf.1 ▸ h.1, hf.2 ▸ h.2⟩
  | b_deg d _ ih =>
    intro h
    apply ih
    have hf := galactic_getter_flags tools d
    exact ⟨hf.1 ▸ h.1, hf.2 ▸ h.2⟩
  | ra_deg d _ ih =>
    intro h
    apply ih
    have hf := equatorial_getter_flags tools d
    exact ⟨hf.1 ▸ h.1, hf.2 ▸ h.2⟩
  | dec_deg d _ ih =>
    intro h
    apply ih
    have hf := equatorial_getter_flags tools d
    exact ⟨hf.1 ▸ h.1, hf.2 ▸ h.2⟩

end GSkyDir

/-- C39. In every direction reachable from a default-constructed one
through clear, the setters, rotate and the getters, `m_has_lb` and
`m_has_radec` are never both true. The setters radec, radec_deg and
celvector and rotate leave `m_has_radec` true and `m_has_lb` false; lb and
lb_deg leave `m_has_lb` true and `m_has_radec` false; clear leaves both
false. The getters `l()`, `b()`, `ra()`, `dec()` and their variants in
degrees leave both flags as they are, so a conversion is computed again at
each call. -/
theorem skydir_flags_never_both (tools : GTools)
    (rotated : Float → Float → Float → Float → Float × Float × Float) :
    (∀ dir, GSkyDir.Reachable tools rotated dir →
      ¬ (dir.m_has_lb = true ∧ dir.m_has_radec = true)) ∧
    (∀ (dir : GSkyDir) (x y : Float),
      ((GSkyDir.radec dir x y).m_has_lb = false ∧
        (GSkyDir.radec dir x y).m_has_radec = true) ∧
      ((GSkyDir.radec_deg tools dir x y).m_has_lb = false ∧
        (GSkyDir.radec_deg tools dir x y).m_has_radec = true) ∧
      ((GSkyDir.lb dir x y).m_has_lb = true ∧
        (GSkyDir.lb dir x y).m_has_radec = false) ∧
      ((GSkyDir.lb_deg tools dir x y).m_has_lb = true ∧
        (GSkyDir.lb_deg tools dir x y).m_has_radec = false) ∧
      ((GSkyDir.rotate tools rotated dir x y).m_has_lb = false ∧
        (GSkyDir.rotate tools rotated dir x y).m_has_radec = true)) ∧
    (∀ (dir : GSkyDir) (vector : Float × Float × Float),
      (GSkyDir.celvector dir vector).m_has_lb = false ∧
      (GSkyDir.celvector dir vector).m_has_radec = true) ∧
    (∀ dir : GSkyDir,
      (GSkyDir.clear dir).m_has_lb = false ∧ (GSkyDir.clear dir).m_has_radec = false) ∧
    (∀ dir : GSkyDir,
      ((GSkyDir.l tools dir).1.m_has_lb = dir.m_has_lb ∧
        (GSkyDir.l tools dir).1.m_has_radec = dir.m_has_radec) ∧
      ((GSkyDir.b tools dir).1.m_has_lb = dir.m_has_lb ∧
        (GSkyDir.b tools dir).1.m_has_radec = dir.m_has_radec) ∧
      ((GSkyDir.ra tools dir).1.m_has_lb = dir.m_has_lb ∧
        (GSkyDir.ra tools dir).1.m_has_radec = dir.m_has_radec) ∧
      ((GSkyDir.dec tools dir).1.m_has_lb = dir.m_has_lb ∧
        (GSkyDir.dec tools dir).1.m_has_radec = dir.m_has_radec) ∧
      ((GSkyDir.l_deg tools dir).1.m_has_lb = dir.m_has_lb ∧
        (GSkyDir.l_deg tools dir).1.m_has_radec = dir.m_has_radec) ∧
      ((GSkyDir.b_deg tools dir).1.m_has_lb = dir.m_has_lb ∧
        (GSkyDir.b_deg tools dir).1.m_has_radec = dir.m_has_radec) ∧
      ((GSkyDir.ra_deg tools dir).1.m_has_lb = dir.m_has_lb ∧
        (GSkyDir.ra_deg tools dir).1.m_has_radec = dir.m_has_radec) ∧
      ((GSkyDir.dec_deg tools dir).1.m_has_lb = dir.m_has_lb ∧
        (GSkyDir.dec_deg tools dir).1.m_has_radec = dir.m_has_radec)) := by
  refine ⟨fun dir h => GSkyDir.reachable_flags tools rotated dir h, ?_, ?_, ?_, ?_⟩
  · intro dir x y
    exact ⟨⟨rfl, rfl⟩, ⟨rfl, rfl⟩, ⟨rfl, rfl⟩, ⟨rfl, rfl⟩, ⟨rfl, rfl⟩⟩
  · intro dir vector
    exact ⟨rfl, rfl⟩
  · intro dir
    exact ⟨rfl, rfl⟩
  · intro dir
    exact ⟨GSkyDir.galactic_getter_flags tools dir, GSkyDir.galactic_getter_flags tools dir,
      GSkyDir.equatorial_getter_flags tools dir, GSkyDir.equatorial_getter_flags tools dir,
      GSkyDir.galactic_getter_flags tools dir, GSkyDir.galactic_getter_flags tools dir,
      GSkyDir.equatorial_getter_flags tools dir, GSkyDir.equatorial_getter_flags tools dir⟩

/-- Witness for C39: the direction set with radec, read with `l()`, then
rotated and read with `dec()` is reachable, and it has the flag of the
equatorial system only. -/
theorem skydir_flags_never_both_witness :
    GSkyDir.Reachable sampleTools sampleRotated
      (GSkyDir.dec sampleTools (GSkyDir.rotate sampleTools sampleRotated
        (GSkyDir.l sampleTools (GSkyDir.radec GSkyDir.init_members 1.0 0.5)).1 10.0 20.0)).1 ∧
    ¬ ((GSkyDir.dec sampleTools (GSkyDir.rotate sampleTools sampleRotated
        (GSkyDir.l sampleTools (GSkyDir.radec GSkyDir.init_members 1.0 0.5)).1
          10.0 20.0)).1.m_has_lb = true ∧
      (GSkyDir.dec sampleTools (GSkyDir.rotate sampleTools sampleRotated
        (GSkyDir.l sampleTools (GSkyDir.radec GSkyDir.init_members 1.0 0.5)).1
          10.0 20.0)).1.m_has_radec = true) ∧
    (GSkyDir.l sampleTools (GSkyDir.radec GSkyDir.init_members 1.0 0.5)).1.m_has_lb = false ∧
    (GSkyDir.l sampleTools (GSkyDir.radec GSkyDir.init_members 1.0 0.5)).1.m_has_radec = true :=
  have hreach : GSkyDir.Reachable sampleTools sampleRotated
      (GSkyDir.dec sampleTools (GSkyDir.rotate sampleTools sampleRotated
        (GSkyDir.l sampleTools (GSkyDir.radec GSkyDir.init_members 1.0 0.5)).1
          10.0 20.0)).1 :=
    GSkyDir.Reachable.dec _ (GSkyDir.Reachable.rotate _ _ _ (GSkyDir.Reachable.l _
      (GSkyDir.Reachable.radec _ _ _ GSkyDir.Reachable.constructed)))
  ⟨hreach, (skydir_flags_never_both sampleTools sampleRotated).1 _ hreach,
    ((skydir_flags_never_both sampleTools sampleRotated).2.2.2.2
      (GSkyDir.radec GSkyDir.init_members 1.0 0.5)).1.1,
    ((skydir_flags_never_both sampleTools sampleRotated).2.2.2.2
      (GSkyDir.radec GSkyDir.init_members 1.0 0.5)).1.2⟩

/-! ## Insert and remove on the machine -/

namespace GFitsTableLongLongCol

/-- The result of insert on the machine for a column of at least one row
whose data, after the load forced when no data are present, are the buffer
`d`, when the new size fits in `int` and the allocator hands out the storage
`fresh`, whatever it holds. -/
theorem insert_alloc_of_fetched (alloc : Int → Option (List Int))
    (load_column : GFitsTableLongLongCol → Except Int GFitsTableLongLongCol)
    (col start : GFitsTableLongLongCol) (d fresh : List Int) (rownum nrows : Int)
    (hr0 : 0 ≤ rownum) (hr1 : rownum ≤ col.m_length) (hn : 0 < nrows) (hL : col.m_length ≠ 0)
    (hstart : (if col.m_data = none then fetch_data load_column col else Except.ok col) =
      Except.ok start)
    (hdata : start.m_data = some d) (hm : 0 ≤ start.m_number)
    (hsize : (d.length : Int) = start.m_number * start.m_length)
    (hr2 : rownum ≤ start.m_length)
    (hlen : start.m_length + nrows ≤ 2147483647)
    (hfit : start.m_number * (start.m_length + nrows) ≤ 2147483647)
    (halloc : alloc (start.m_number * (start.m_length + nrows)) = some fresh)
    (hfresh : (fresh.length : Int) = start.m_number * (start.m_length + nrows)) :
    insert_alloc alloc load_column col rownum nrows =
      ({ start with
        m_size := start.m_number * (start.m_length + nrows)
        m_data := some (d.take (start.m_number * rownum).toNat ++
          List.replicate (start.m_number * nrows).toNat 0 ++
          d.drop (start.m_number * rownum).toNat)
        m_length := start.m_length + nrows }, none) := by
  have hnb : 0 ≤ start.m_number * rownum := mul_nonneg hm hr0
  have hni : 0 ≤ start.m_number * nrows := mul_nonneg hm (le_of_lt hn)
  have hna : 0 ≤ start.m_number * (start.m_length - rownum) := mul_nonneg hm (by omega)
  have hsum : start.m_number * (start.m_length + nrows) =
      start.m_number * rownum + start.m_number * nrows +
        start.m_number * (start.m_length - rownum) := by
    ring
  have hsplit : start.m_number * start.m_length =
      start.m_number * rownum + start.m_number * (start.m_length - rownum) := by
    ring
  have hN : fresh.length =
      (start.m_number * rownum).toNat + (start.m_number * nrows).toNat +
        (start.m_number * (start.m_length - rownum)).toNat := by
    omega
  have hdl : d.length =
      (start.m_number * rownum).toNat + (start.m_number * (start.m_length - rownum)).toNat := by
    omega
  have c1 : int_cast (start.m_length + nrows) = start.m_length + nrows :=
    int_cast_of_range _ (by omega) hlen
  have c2 : int_cast (start.m_number * (start.m_length + nrows)) =
      start.m_number * (start.m_length + nrows) :=
    int_cast_of_range _ (by omega) hfit
  have c3 : int_cast (start.m_number * rownum) = start.m_number * rownum :=
    int_cast_of_range _ (by omega) (by omega)
  have c4 : int_cast (start.m_number * nrows) = start.m_number * nrows :=
    int_cast_of_range _ (by omega) (by omega)
  have c5 : int_cast (start.m_length - rownum) = start.m_length - rownum :=
    int_cast_of_range _ (by omega) (by omega)
  have c6 : int_cast (start.m_number * (start.m_length - rownum)) =
      start.m_number * (start.m_length - rownum) :=
    int_cast_of_range _ (by omega) (by omega)
  have hnew : operator_new alloc (start.m_number * (start.m_length + nrows)) = some fresh := by
    unfold operator_new
    rw [if_neg (by omega), halloc]
  unfold insert_alloc
  rw [if_neg (by omega), if_pos hn, if_neg hL, hstart]
  simp only [c1, c2, c3, c4, c5, c6, hnew, hdata, Option.getD_some]
  rw [insert_loops_any d fresh _ _ _ hdl hN]

/-- The result of remove on the machine for a column whose data, after the
load forced when no data are present, are the buffer `d`, when the allocator
hands out the storage `fresh` for the rows that remain, whatever it
holds. -/
theorem remove_alloc_of_fetched (alloc : Int → Option (List Int))
    (load_column : GFitsTableLongLongCol → Except Int GFitsTableLongLongCol)
    (col start : GFitsTableLongLongCol) (d fresh : List Int) (rownum nrows : Int)
    (hr0 : 0 ≤ rownum) (hr1 : rownum < col.m_length) (hn : 0 < nrows)
    (hn1 : nrows ≤ col.m_length - rownum)
    (hstart : (if col.m_data = none then fetch_data load_column col else Except.ok col) =
      Except.ok start)
    (hdata : start.m_data = some d) (hm : 0 < start.m_number)
    (hsize : (d.length : Int) = start.m_number * start.m_length)
    (hr2 : rownum + nrows ≤ start.m_length)
    (hfit : start.m_number * start.m_length ≤ 2147483647)
    (halloc : 0 < start.m_length - nrows →
      alloc (start.m_number * (start.m_length - nrows)) = some fresh ∧
      (fresh.length : Int) = start.m_number * (start.m_length - nrows)) :
    remove_alloc alloc load_column col rownum nrows =
      (if 0 < start.m_length - nrows then
        { start with
          m_size := start.m_number * (start.m_length - nrows)
          m_data := some (d.take (start.m_number * rownum).toNat ++
            d.drop (start.m_number * (rownum + nrows)).toNat)
          m_length := start.m_length - nrows }
      else
        { start with
          m_size := start.m_number * (start.m_length - nrows)
          m_data := none
          m_length := start.m_length - nrows }, none) := by
  have hnb : 0 ≤ start.m_number * rownum := mul_nonneg (le_of_lt hm) hr0
  have hnr : 0 ≤ start.m_number * nrows := mul_nonneg (le_of_lt hm) (le_of_lt hn)
  have hna : 0 ≤ start.m_number * (start.m_length - nrows - rownum) :=
    mul_nonneg (le_of_lt hm) (by omega)
  have hone : 0 ≤ (start.m_number - 1) * start.m_length := mul_nonneg (by omega) (by omega)
  have hone2 : (start.m_number - 1) * start.m_length =
      start.m_number * start.m_length - start.m_length := by
    ring
  have hsum : start.m_number * (start.m_length - nrows) =
      start.m_number * rownum + start.m_number * (start.m_length - nrows - rownum) := by
    ring
  have hsplit : start.m_number * start.m_length =
      start.m_number * rownum + start.m_number * nrows +
        start.m_number * (start.m_length - nrows - rownum) := by
    ring
  have hrn : start.m_number * (rownum + nrows) =
      start.m_number * rownum + start.m_number * nrows := by
    ring
  have hdl : d.length =
      (start.m_number * rownum).toNat + (start.m_number * nrows).toNat +
        (start.m_number * (start.m_length - nrows - rownum)).toNat := by
    omega
  have hRN : (start.m_number * (rownum + nrows)).toNat =
      (start.m_number * rownum).toNat + (start.m_number * nrows).toNat := by
    rw [hrn]; omega
  have c1 : int_cast (start.m_length - nrows) = start.m_length - nrows :=
    int_cast_of_range _ (by omega) (by omega)
  have c2 : int_cast (start.m_number * (start.m_length - nrows)) =
      start.m_number * (start.m_length - nrows) :=
    int_cast_of_range _ (by omega) (by omega)
  have c3 : int_cast (start.m_number * rownum) = start.m_number * rownum :=
    int_cast_of_range _ (by omega) (by omega)
  have c4 : int_cast (start.m_number * nrows) = start.m_number * nrows :=
    int_cast_of_range _ (by omega) (by omega)
  have c5 : int_cast (start.m_length - nrows - rownum) = start.m_length - nrows - rownum :=
    int_cast_of_range _ (by omega) (by omega)
  have c6 : int_cast (start.m_number * (start.m_length - nrows - rownum)) =
      start.m_number * (start.m_length - nrows - rownum) :=
    int_cast_of_range _ (by omega) (by omega)
  unfold remove_alloc
  rw [if_neg (by omega), if_neg (by omega), if_pos hn, hstart]
  simp only [c1, c2, c3, c4, c5, c6]
  by_cases hpos : 0 < start.m_length - nrows
  · have hsz : start.m_number * (start.m_length - nrows) > 0 := mul_pos hm hpos
    obtain ⟨ha, hf⟩ := halloc hpos
    have hnew : operator_new alloc (start.m_number * (start.m_length - nrows)) =
        some fresh := by
      unfold operator_new
      rw [if_neg (by omega), ha]
    have hN : fresh.length = (start.m_number * rownum).toNat +
        (start.m_number * (start.m_length - nrows - rownum)).toNat := by
      omega
    rw [if_pos hsz, if_pos hpos]
    simp only [hnew, hdata, Option.getD_some]
    rw [hRN, remove_loops_any d fresh _ _ _ hdl hN]
  · have hzero : start.m_length - nrows = 0 := by omega
    have hsz : ¬ start.m_number * (start.m_length - nrows) > 0 := by
      rw [hzero]; simp
    rw [if_neg hsz, if_neg hpos]

/-- A failure of the load that insert and remove force on a column without
data is the error of `load_column`. -/
theorem fetch_error_kind
    (load_column : GFitsTableLongLongCol → Except Int GFitsTableLongLongCol)
    (col : GFitsTableLongLongCol) (e : GException)
    (h : (if col.m_data = none then fetch_data load_column col else Except.ok col) =
      Except.error e) :
    col.m_data = none ∧
      ∃ status, load_column col = Except.error status ∧ e = GException.fits_error status := by
  by_cases hd : col.m_data = none
  · rw [if_pos hd] at h
    unfold fetch_data at h
    cases hl : load_column col with
    | error status =>
      rw [hl] at h
      simp only [Except.error.injEq] at h
      exact ⟨hd, status, rfl, h.symm⟩
    | ok loaded =>
      rw [hl] at h
      cases h
  · rw [if_neg hd] at h
    cases h

/-- Where no `int` expression of insert overflows and the allocator always
finds storage, `insert_alloc` is `insert_run`: the column the call leaves
behind and the exception it throws are the same. -/
theorem insert_alloc_ok
    (load_column : GFitsTableLongLongCol → Except Int GFitsTableLongLongCol)
    (col : GFitsTableLongLongCol) (rownum nrows : Int)
    (hfit : ∀ start,
      (if col.m_data = none then fetch_data load_column col else Except.ok col) =
        Except.ok start →
      0 ≤ start.m_number ∧ rownum ≤ start.m_length ∧
        start.m_number * (start.m_length + nrows) ≤ 2147483647 ∧
        start.m_length + nrows ≤ 2147483647) :
    insert_alloc alloc_ok load_column col rownum nrows =
      ((insert_run load_column col rownum nrows).1,
        (insert_run load_column col rownum nrows).2.map Thrown.exception) := by
  unfold insert_alloc insert_run
  by_cases h1 : rownum < 0 ∨ rownum > col.m_length
  · simp only [if_pos h1]
    rfl
  · simp only [if_neg h1]
    by_cases h2 : nrows > 0
    · simp only [if_pos h2]
      by_cases h3 : col.m_length = 0
      · simp only [if_pos h3]
        rfl
      · simp only [if_neg h3]
        cases hf : (if col.m_data = none then fetch_data load_column col
            else Except.ok col) with
        | error e => rfl
        | ok c =>
          obtain ⟨hm, hr, hsz, hlen⟩ := hfit c hf
          have hr0 : 0 ≤ rownum := by omega
          have p1 : 0 ≤ c.m_number * rownum := mul_nonneg hm hr0
          have p2 : 0 ≤ c.m_number * nrows := mul_nonneg hm (by omega)
          have p3 : 0 ≤ c.m_number * (c.m_length - rownum) := mul_nonneg hm (by omega)
          have psum : c.m_number * (c.m_length + nrows) =
              c.m_number * rownum + c.m_number * nrows +
                c.m_number * (c.m_length - rownum) := by
            ring
          have e1 : int_cast (c.m_length + nrows) = c.m_length + nrows :=
            int_cast_of_range _ (by omega) (by omega)
          have e2 : int_cast (c.m_number * (c.m_length + nrows)) =
              c.m_number * (c.m_length + nrows) :=
            int_cast_of_range _ (by omega) (by omega)
          have e3 : int_cast (c.m_number * rownum) = c.m_number * rownum :=
            int_cast_of_range _ (by omega) (by omega)
          have e4 : int_cast (c.m_number * nrows) = c.m_number * nrows :=
            int_cast_of_range _ (by omega) (by omega)
          have e5 : int_cast (c.m_length - rownum) = c.m_length - rownum :=
            int_cast_of_range _ (by omega) (by omega)
          have e6 : int_cast (c.m_number * (c.m_length - rownum)) =
              c.m_number * (c.m_length - rownum) :=
            int_cast_of_range _ (by omega) (by omega)
          have hnew : operator_new alloc_ok (c.m_number * (c.m_length + nrows)) =
              some (new_long_long (c.m_number * (c.m_length + nrows))) := by
            unfold operator_new alloc_ok
            rw [if_neg (by omega)]
          simp only [e1, e2, e3, e4, e5, e6, hnew]
          rfl
    · simp only [if_neg h2]
      rfl

/-- Where no `int` expression of remove overflows and the allocator always
finds storage, `remove_alloc` is `remove_run`. -/
theorem remove_alloc_ok
    (load_column : GFitsTableLongLongCol → Except Int GFitsTableLongLongCol)
    (col : GFitsTableLongLongCol) (rownum nrows : Int)
    (hfit : ∀ start,
      (if col.m_data = none then fetch_data load_column col else Except.ok col) =
        Except.ok start →
      0 ≤ start.m_number ∧ rownum + nrows ≤ start.m_length ∧
        start.m_number * start.m_length ≤ 2147483647 ∧ start.m_length ≤ 2147483647) :
    remove_alloc alloc_ok load_column col rownum nrows =
      ((remove_run load_column col rownum nrows).1,
        (remove_run load_column col rownum nrows).2.map Thrown.exception) := by
  unfold remove_alloc remove_run
  by_cases h1 : rownum < 0 ∨ rownum ≥ col.m_length
  · simp only [if_pos h1]
    rfl
  · simp only [if_neg h1]
    by_cases h2 : nrows < 0 ∨ nrows > col.m_length - rownum
    · simp only [if_pos h2]
      rfl
    · simp only [if_neg h2]
      by_cases h3 : nrows > 0
      · simp only [if_pos h3]
        cases hf : (if col.m_data = none then fetch_data load_column col
            else Except.ok col) with
        | error e => rfl
        | ok c =>
          obtain ⟨hm, hr, hsz, hlen⟩ := hfit c hf
          have hr0 : 0 ≤ rownum := by omega
          have p1 : 0 ≤ c.m_number * rownum := mul_nonneg hm hr0
          have p2 : 0 ≤ c.m_number * nrows := mul_nonneg hm (by omega)
          have p3 : 0 ≤ c.m_number * (c.m_length - nrows - rownum) :=
            mul_nonneg hm (by omega)
          have psum : c.m_number * c.m_length =
              c.m_number * rownum + c.m_number * nrows +
                c.m_number * (c.m_length - nrows - rownum) := by
            ring
          have psub : c.m_number * (c.m_length - nrows) =
              c.m_number * rownum + c.m_number * (c.m_length - nrows - rownum) := by
            ring
          have e1 : int_cast (c.m_length - nrows) = c.m_length - nrows :=
            int_cast_of_range _ (by omega) (by omega)
          have e2 : int_cast (c.m_number * (c.m_length - nrows)) =
              c.m_number * (c.m_length - nrows) :=
            int_cast_of_range _ (by omega) (by omega)
          have e3 : int_cast (c.m_number * rownum) = c.m_number * rownum :=
            int_cast_of_range _ (by omega) (by omega)
          have e4 : int_cast (c.m_number * nrows) = c.m_number * nrows :=
            int_cast_of_range _ (by omega) (by omega)
          have e5 : int_cast (c.m_length - nrows - rownum) = c.m_length - nrows - rownum :=
            int_cast_of_range _ (by omega) (by omega)
          have e6 : int_cast (c.m_number * (c.m_length - nrows - rownum)) =
              c.m_number * (c.m_length - nrows - rownum) :=
            int_cast_of_range _ (by omega) (by omega)
          simp only [e1, e2, e3, e4, e5, e6]
          by_cases h4 : c.m_number * (c.m_length - nrows) > 0
          · have hnew : operator_new alloc_ok (c.m_number * (c.m_length - nrows)) =
                some (new_long_long (c.m_number * (c.m_length - nrows))) := by
              unfold operator_new alloc_ok
              rw [if_neg (by omega)]
            simp only [if_pos h4, hnew]
            rfl
          · simp only [if_neg h4]
            rfl
      · simp only [if_neg h3]
        rfl

/-- The paths of insert on the machine. -/
theorem insert_alloc_cases (alloc : Int → Option (List Int))
    (load_column : GFitsTableLongLongCol → Except Int GFitsTableLongLongCol)
    (col : GFitsTableLongLongCol) (rownum nrows : Int) :
    ((rownum < 0 ∨ rownum > col.m_length) ∧
      insert_alloc alloc load_column col rownum nrows =
        (col, some (Thrown.exception
          (GException.fits_invalid_row G_INSERT rownum col.m_length)))) ∨
    (¬ (rownum < 0 ∨ rownum > col.m_length) ∧ nrows ≤ 0 ∧
      insert_alloc alloc load_column col rownum nrows = (col, none)) ∨
    (¬ (rownum < 0 ∨ rownum > col.m_length) ∧ 0 < nrows ∧ col.m_length = 0 ∧
      insert_alloc alloc load_column col rownum nrows =
        ({ col with m_length := nrows }, none)) ∨
    (¬ (rownum < 0 ∨ rownum > col.m_length) ∧ 0 < nrows ∧ col.m_length ≠ 0 ∧
      col.m_data = none ∧ ∃ status, load_column col = Except.error status ∧
      insert_alloc alloc load_column col rownum nrows =
        (col, some (Thrown.exception (GException.fits_error status)))) ∨
    (¬ (rownum < 0 ∨ rownum > col.m_length) ∧ 0 < nrows ∧ col.m_length ≠ 0 ∧
      ∃ start, (if col.m_data = none then fetch_data load_column col else Except.ok col) =
          Except.ok start ∧
        operator_new alloc (int_cast (start.m_number * int_cast (start.m_length + nrows))) =
          none ∧
        insert_alloc alloc load_column col rownum nrows =
          ({ start with
              m_size := int_cast (start.m_number * int_cast (start.m_length + nrows)) },
            some Thrown.bad_alloc)) ∨
    (¬ (rownum < 0 ∨ rownum > col.m_length) ∧ 0 < nrows ∧ col.m_length ≠ 0 ∧
      ∃ start fresh,
        (if col.m_data = none then fetch_data load_column col else Except.ok col) =
          Except.ok start ∧
        operator_new alloc (int_cast (start.m_number * int_cast (start.m_length + nrows))) =
          some fresh ∧
        (insert_alloc alloc load_column col rownum nrows).2 = none ∧
        (insert_alloc alloc load_column col rownum nrows).1.m_length =
          int_cast (start.m_length + nrows)) := by
  unfold insert_alloc
  by_cases h1 : rownum < 0 ∨ rownum > col.m_length
  · rw [if_pos h1]
    exact Or.inl ⟨h1, rfl⟩
  · rw [if_neg h1]
    by_cases h2 : nrows > 0
    · rw [if_pos h2]
      by_cases h3 : col.m_length = 0
      · rw [if_pos h3]
        exact Or.inr (Or.inr (Or.inl ⟨h1, h2, h3, rfl⟩))
      · rw [if_neg h3]
        cases hf : (if col.m_data = none then fetch_data load_column col
            else Except.ok col) with
        | error e =>
          obtain ⟨hd, status, hl, he⟩ := fetch_error_kind load_column col e hf
          subst he
          exact Or.inr (Or.inr (Or.inr (Or.inl ⟨h1, h2, h3, hd, status, hl, rfl⟩)))
        | ok start =>
          simp only []
          cases hnew : operator_new alloc
              (int_cast (start.m_number * int_cast (start.m_length + nrows))) with
          | none =>
            exact Or.inr (Or.inr (Or.inr (Or.inr (Or.inl
              ⟨h1, h2, h3, start, rfl, hnew, rfl⟩))))
          | some fresh =>
            exact Or.inr (Or.inr (Or.inr (Or.inr (Or.inr
              ⟨h1, h2, h3, start, fresh, rfl, hnew, rfl, rfl⟩))))
    · rw [if_neg h2]
      exact Or.inr (Or.inl ⟨h1, by omega, rfl⟩)

/-- The paths of remove on the machine. -/
theorem remove_alloc_cases (alloc : Int → Option (List Int))
    (load_column : GFitsTableLongLongCol → Except Int GFitsTableLongLongCol)
    (col : GFitsTableLongLongCol) (rownum nrows : Int) :
    ((rownum < 0 ∨ rownum ≥ col.m_length) ∧
      remove_alloc alloc load_column col rownum nrows =
        (col, some (Thrown.exception
          (GException.fits_invalid_row G_REMOVE rownum (col.m_length - 1))))) ∨
    (¬ (rownum < 0 ∨ rownum ≥ col.m_length) ∧
      (nrows < 0 ∨ nrows > col.m_length - rownum) ∧
      remove_alloc alloc load_column col rownum nrows =
        (col, some (Thrown.exception
          (GException.fits_invalid_nrows G_REMOVE nrows (col.m_length - rownum))))) ∨
    (¬ (rownum < 0 ∨ rownum ≥ col.m_length) ∧
      ¬ (nrows < 0 ∨ nrows > col.m_length - rownum) ∧ nrows = 0 ∧
      remove_alloc alloc load_column col rownum nrows = (col, none)) ∨
    (¬ (rownum < 0 ∨ rownum ≥ col.m_length) ∧
      ¬ (nrows < 0 ∨ nrows > col.m_length - rownum) ∧ 0 < nrows ∧
      col.m_data = none ∧ ∃ status, load_column col = Except.error status ∧
      remove_alloc alloc load_column col rownum nrows =
        (col, some (Thrown.exception (GException.fits_error status)))) ∨
    (¬ (rownum < 0 ∨ rownum ≥ col.m_length) ∧
      ¬ (nrows < 0 ∨ nrows > col.m_length - rownum) ∧ 0 < nrows ∧
      ∃ start, (if col.m_data = none then fetch_data load_column col else Except.ok col) =
          Except.ok start ∧
        0 < int_cast (start.m_number * int_cast (start.m_length - nrows)) ∧
        operator_new alloc (int_cast (start.m_number * int_cast (start.m_length - nrows))) =
          none ∧
        remove_alloc alloc load_column col rownum nrows =
          ({ start with
              m_size := int_cast (start.m_number * int_cast (start.m_length - nrows)) },
            some Thrown.bad_alloc)) ∨
    (¬ (rownum < 0 ∨ rownum ≥ col.m_length) ∧
      ¬ (nrows < 0 ∨ nrows > col.m_length - rownum) ∧ 0 < nrows ∧
      ∃ start,
        (if col.m_data = none then fetch_data load_column col else Except.ok col) =
          Except.ok start ∧
        (int_cast (start.m_number * int_cast (start.m_length - nrows)) ≤ 0 ∨
          ∃ fresh, operator_new alloc
            (int_cast (start.m_number * int_cast (start.m_length - nrows))) = some fresh) ∧
        (remove_alloc alloc load_column col rownum nrows).2 = none ∧
        (remove_alloc alloc load_column col rownum nrows).1.m_length =
          int_cast (start.m_length - nrows)) := by
  unfold remove_alloc
  by_cases h1 : rownum < 0 ∨ rownum ≥ col.m_length
  · rw [if_pos h1]
    exact Or.inl ⟨h1, rfl⟩
  · rw [if_neg h1]
    by_cases h2 : nrows < 0 ∨ nrows > col.m_length - rownum
    · rw [if_pos h2]
      exact Or.inr (Or.inl ⟨h1, h2, rfl⟩)
    · rw [if_neg h2]
      by_cases h3 : nrows > 0
      · rw [if_pos h3]
        cases hf : (if col.m_data = none then fetch_data load_column col
            else Except.ok col) with
        | error e =>
          obtain ⟨hd, status, hl, he⟩ := fetch_error_kind load_column col e hf
          subst he
          exact Or.inr (Or.inr (Or.inr (Or.inl ⟨h1, h2, h3, hd, status, hl, rfl⟩)))
        | ok start =>
          simp only []
          by_cases h4 : int_cast (start.m_number * int_cast (start.m_length - nrows)) > 0
          · rw [if_pos h4]
            cases hnew : operator_new alloc
                (int_cast (start.m_number * int_cast (start.m_length - nrows))) with
            | none =>
              exact Or.inr (Or.inr (Or.inr (Or.inr (Or.inl
                ⟨h1, h2, h3, start, rfl, h4, hnew, rfl⟩))))
            | some fresh =>
              exact Or.inr (Or.inr (Or.inr (Or.inr (Or.inr
                ⟨h1, h2, h3, start, rfl, Or.inr ⟨fresh, hnew⟩, rfl, rfl⟩))))
          · rw [if_neg h4]
            exact Or.inr (Or.inr (Or.inr (Or.inr (Or.inr
              ⟨h1, h2, h3, start, rfl, Or.inl (by omega), rfl, rfl⟩))))
      · rw [if_neg h3]
        exact Or.inr (Or.inr (Or.inl ⟨h1, h2, by omega, rfl⟩))

end GFitsTableLongLongCol

/-! ## The guards of insert and remove and what can fail behind them -/

/-- C9 (counterexample). On the loaded column `ID = [10, 20, 30]` the row 0
is valid, yet `insert(0, 2147483647)` does not succeed: the new length
overflows `int`, the size passed to `new` is negative and `new` throws. A
`new` that finds no storage makes `insert(0, 1)` fail in the same way, and
on the unloaded column of 3 rows `insert(1, 2)` fails with the error of the
load that fails. -/
theorem insert_valid_row_fails_counterexample :
    ¬ ((0 : Int) < 0 ∨ (0 : Int) > columnID.m_length) ∧
    InInt 2147483647 ∧
    GFitsTableLongLongCol.insert_alloc alloc_ok load_column_zero columnID 0 2147483647 =
      ({ columnID with m_size := -2147483646 }, some Thrown.bad_alloc) ∧
    GFitsTableLongLongCol.insert_alloc alloc_failing load_column_zero columnID 0 1 =
      ({ columnID with m_size := 4 }, some Thrown.bad_alloc) ∧
    ¬ ((1 : Int) < 0 ∨ (1 : Int) > columnUnloaded.m_length) ∧
    GFitsTableLongLongCol.insert_alloc alloc_ok load_column_failing columnUnloaded 1 2 =
      (columnUnloaded, some (Thrown.exception (GException.fits_error 104))) ∧
    GFitsTableLongLongCol.insert load_column_failing columnUnloaded 1 2 =
      Except.error (GException.fits_error 104) := by
  refine ⟨by decide, by decide, rfl, rfl, by decide, rfl, rfl⟩

/-- C9 (amended). On the machine, `insert(rownum, nrows)` fails with the
invalid-row error if and only if `rownum < 0` or `rownum > length`, and then
leaves the column as it is. For every other `rownum` (`rownum = length`
included) it succeeds exactly when `nrows <= 0`, or the column has no rows,
or the data are loaded or their load succeeds and `new` returns storage for
the new size; this is the case whenever the new length and the new size fit
in `int` and the allocator hands out the storage. The only failures behind
the guard are the error of a failed load of an unloaded column and the
`bad_alloc` of `new`. -/
theorem insert_row_guard (alloc : Int → Option (List Int))
    (load_column : GFitsTableLongLongCol → Except Int GFitsTableLongLongCol)
    (col : GFitsTableLongLongCol) (rownum nrows : Int) :
    ((∃ origin row max_row,
        (GFitsTableLongLongCol.insert_alloc alloc load_column col rownum nrows).2 =
          some (Thrown.exception (GException.fits_invalid_row origin row max_row))) ↔
      (rownum < 0 ∨ rownum > col.m_length)) ∧
    ((rownum < 0 ∨ rownum > col.m_length) →
      GFitsTableLongLongCol.insert_alloc alloc load_column col rownum nrows =
        (col, some (Thrown.exception
          (GException.fits_invalid_row G_INSERT rownum col.m_length)))) ∧
    (¬ (rownum < 0 ∨ rownum > col.m_length) →
      ((GFitsTableLongLongCol.insert_alloc alloc load_column col rownum nrows).2 = none ↔
        (nrows ≤ 0 ∨ col.m_length = 0 ∨
          ∃ start fresh,
            (if col.m_data = none then GFitsTableLongLongCol.fetch_data load_column col
              else Except.ok col) = Except.ok start ∧
            GFitsTableLongLongCol.operator_new alloc
              (GFitsTableLongLongCol.int_cast (start.m_number *
                GFitsTableLongLongCol.int_cast (start.m_length + nrows))) = some fresh))) ∧
    (¬ (rownum < 0 ∨ rownum > col.m_length) →
      ∀ start fresh,
        (if col.m_data = none then GFitsTableLongLongCol.fetch_data load_column col
          else Except.ok col) = Except.ok start →
        0 ≤ start.m_length → 0 ≤ start.m_number →
        start.m_length + nrows ≤ 2147483647 →
        start.m_number * (start.m_length + nrows) ≤ 2147483647 →
        alloc (start.m_number * (start.m_length + nrows)) = some fresh →
        (GFitsTableLongLongCol.insert_alloc alloc load_column col rownum nrows).2 = none) ∧
    (¬ (rownum < 0 ∨ rownum > col.m_length) →
      ∀ t, (GFitsTableLongLongCol.insert_alloc alloc load_column col rownum nrows).2 =
          some t →
        (∃ status, t = Thrown.exception (GException.fits_error status) ∧
          load_column col = Except.error status ∧ col.m_data = none) ∨
        t = Thrown.bad_alloc) := by
  have hcases := GFitsTableLongLongCol.insert_alloc_cases alloc load_column col rownum nrows
  have hsucc : ¬ (rownum < 0 ∨ rownum > col.m_length) →
      ((GFitsTableLongLongCol.insert_alloc alloc load_column col rownum nrows).2 = none ↔
        (nrows ≤ 0 ∨ col.m_length = 0 ∨
          ∃ start fresh,
            (if col.m_data = none then GFitsTableLongLongCol.fetch_data load_column col
              else Except.ok col) = Except.ok start ∧
            GFitsTableLongLongCol.operator_new alloc
              (GFitsTableLongLongCol.int_cast (start.m_number *
                GFitsTableLongLongCol.int_cast (start.m_length + nrows))) = some fresh)) := by
    intro hg
    rcases hcases with ⟨g, _⟩ | ⟨_, hn, he⟩ | ⟨_, hn, hL, he⟩ | ⟨_, hn, hL, hd, st, hl, he⟩ |
      ⟨_, hn, hL, start, hf, hnew, he⟩ | ⟨_, hn, hL, start, fresh, hf, hnew, he, _⟩
    · exact absurd g hg
    · rw [he]
      exact ⟨fun _ => Or.inl hn, fun _ => rfl⟩
    · rw [he]
      exact ⟨fun _ => Or.inr (Or.inl hL), fun _ => rfl⟩
    · rw [he]
      constructor
      · intro h
        cases h
      · rintro (h | h | ⟨start, fresh, hf, _⟩)
        · omega
        · exact absurd h hL
        · rw [if_pos hd] at hf
          unfold GFitsTableLongLongCol.fetch_data at hf
          rw [hl] at hf
          cases hf
    · rw [he]
      constructor
      · intro h
        cases h
      · rintro (h | h | ⟨start', fresh, hf', hnew'⟩)
        · omega
        · exact absurd h hL
        · rw [hf] at hf'
          simp only [Except.ok.injEq] at hf'
          subst hf'
          rw [hnew] at hnew'
          cases hnew'
    · exact ⟨fun _ => Or.inr (Or.inr ⟨start, fresh, hf, hnew⟩), fun _ => he⟩
  refine ⟨?_, ?_, hsucc, ?_, ?_⟩
  · constructor
    · rintro ⟨origin, row, max_row, h⟩
      rcases hcases with ⟨g, _⟩ | ⟨_, _, he⟩ | ⟨_, _, _, he⟩ | ⟨_, _, _, _, st, _, he⟩ |
        ⟨_, _, _, start, _, _, he⟩ | ⟨_, _, _, start, fresh, _, _, he, _⟩
      · exact g
      · rw [he] at h
        cases h
      · rw [he] at h
        cases h
      · rw [he] at h
        simp at h
      · rw [he] at h
        cases h
      · rw [he] at h
        cases h
    · intro g
      rcases hcases with ⟨_, he⟩ | ⟨hg, _⟩ | ⟨hg, _⟩ | ⟨hg, _⟩ | ⟨hg, _⟩ | ⟨hg, _⟩
      · exact ⟨_, _, _, by rw [he]⟩
      all_goals exact absurd g hg
  · intro g
    rcases hcases with ⟨_, he⟩ | ⟨hg, _⟩ | ⟨hg, _⟩ | ⟨hg, _⟩ | ⟨hg, _⟩ | ⟨hg, _⟩
    · exact he
    all_goals exact absurd g hg
  · intro hg start fresh hf hL0 hm hlen hfit halloc
    by_cases hn : nrows ≤ 0
    · exact (hsucc hg).mpr (Or.inl hn)
    · have c1 : GFitsTableLongLongCol.int_cast (start.m_length + nrows) =
          start.m_length + nrows :=
        GFitsTableLongLongCol.int_cast_of_range _ (by omega) hlen
      have hnn : 0 ≤ start.m_number * (start.m_length + nrows) :=
        mul_nonneg hm (by omega)
      have c2 : GFitsTableLongLongCol.int_cast (start.m_number * (start.m_length + nrows)) =
          start.m_number * (start.m_length + nrows) :=
        GFitsTableLongLongCol.int_cast_of_range _ (by omega) hfit
      refine (hsucc hg).mpr (Or.inr (Or.inr ⟨start, fresh, hf, ?_⟩))
      rw [c1, c2]
      unfold GFitsTableLongLongCol.operator_new
      rw [if_neg (by omega), halloc]
  · intro hg t ht
    rcases hcases with ⟨g, _⟩ | ⟨_, _, he⟩ | ⟨_, _, _, he⟩ | ⟨_, _, _, hd, st, hl, he⟩ |
      ⟨_, _, _, start, _, _, he⟩ | ⟨_, _, _, start, fresh, _, _, he, _⟩
    · exact absurd g hg
    · rw [he] at ht
      cases ht
    · rw [he] at ht
      cases ht
    · rw [he] at ht
      simp only [Option.some.injEq] at ht
      exact Or.inl ⟨st, ht.symm, hl, hd⟩
    · rw [he] at ht
      simp only [Option.some.injEq] at ht
      exact Or.inr ht.symm
    · rw [he] at ht
      cases ht

/-- Witness for C9 (amended): on the column `ID = [10, 20, 30]`,
`insert(3, 2)` at `rownum = length` succeeds, and `insert(4, 1)` fails with
the invalid-row error and leaves the column as it is. -/
theorem insert_row_guard_witness :
    ¬ ((3 : Int) < 0 ∨ (3 : Int) > columnID.m_length) ∧
    (GFitsTableLongLongCol.insert_alloc alloc_ok load_column_zero columnID 3 2).2 = none ∧
    ((4 : Int) < 0 ∨ (4 : Int) > columnID.m_length) ∧
    GFitsTableLongLongCol.insert_alloc alloc_ok load_column_zero columnID 4 1 =
      (columnID, some (Thrown.exception (GException.fits_invalid_row G_INSERT 4 3))) :=
  ⟨by decide,
    (insert_row_guard alloc_ok load_column_zero columnID 3 2).2.2.2.1 (by decide) columnID
      [-1, -2, -3, -4, -5] rfl (by decide) (by decide) (by decide) (by decide) (by decide),
    by decide,
    (insert_row_guard alloc_ok load_column_zero columnID 4 1).2.1 (by decide)⟩

/-- C11 (counterexample). With `rownum = 0` and `nrows = 1`, which pass both
guards on a column of 3 rows, remove does not succeed on the unloaded column
whose load fails (it returns the error of the load), nor on the loaded
column `ID = [10, 20, 30]` when `new` finds no storage. -/
theorem remove_valid_arguments_fail_counterexample :
    ¬ ((0 : Int) < 0 ∨ (0 : Int) ≥ columnUnloaded.m_length) ∧
    ¬ ((1 : Int) < 0 ∨ (1 : Int) > columnUnloaded.m_length - 0) ∧
    GFitsTableLongLongCol.remove load_column_failing columnUnloaded 0 1 =
      Except.error (GException.fits_error 104) ∧
    GFitsTableLongLongCol.remove_alloc alloc_ok load_column_failing columnUnloaded 0 1 =
      (columnUnloaded, some (Thrown.exception (GException.fits_error 104))) ∧
    ¬ ((0 : Int) < 0 ∨ (0 : Int) ≥ columnID.m_length) ∧
    ¬ ((1 : Int) < 0 ∨ (1 : Int) > columnID.m_length - 0) ∧
    GFitsTableLongLongCol.remove_alloc alloc_failing load_column_zero columnID 0 1 =
      ({ columnID with m_size := 2 }, some Thrown.bad_alloc) := by
  refine ⟨by decide, by decide, rfl, rfl, by decide, by decide, rfl⟩

/-- C11 (amended). On the machine, `remove(rownum, nrows)` fails with the
invalid-row error if and only if `rownum < 0` or `rownum >= length`;
otherwise it fails with the invalid-nrows error if and only if `nrows < 0`
or `nrows > length - rownum`; in both cases the column is left as it is.
Otherwise it succeeds exactly when `nrows = 0`, or the data are loaded or
their load succeeds and either no element remains or `new` returns storage
for the elements that remain; this is the case whenever the size of what
remains fits in `int` and the allocator hands out the storage. The only
failures behind the guards are the error of a failed load of an unloaded
column and the `bad_alloc` of `new`. -/
theorem remove_guards (alloc : Int → Option (List Int))
    (load_column : GFitsTableLongLongCol → Except Int GFitsTableLongLongCol)
    (col : GFitsTableLongLongCol) (rownum nrows : Int) :
    ((∃ origin row max_row,
        (GFitsTableLongLongCol.remove_alloc alloc load_column col rownum nrows).2 =
          some (Thrown.exception (GException.fits_invalid_row origin row max_row))) ↔
      (rownum < 0 ∨ rownum ≥ col.m_length)) ∧
    ((rownum < 0 ∨ rownum ≥ col.m_length) →
      GFitsTableLongLongCol.remove_alloc alloc load_column col rownum nrows =
        (col, some (Thrown.exception
          (GException.fits_invalid_row G_REMOVE rownum (col.m_length - 1))))) ∧
    (¬ (rownum < 0 ∨ rownum ≥ col.m_length) →
      ((∃ origin n max_n,
          (GFitsTableLongLongCol.remove_alloc alloc load_column col rownum nrows).2 =
            some (Thrown.exception (GException.fits_invalid_nrows origin n max_n))) ↔
        (nrows < 0 ∨ nrows > col.m_length - rownum))) ∧
    (¬ (rownum < 0 ∨ rownum ≥ col.m_length) → (nrows < 0 ∨ nrows > col.m_length - rownum) →
      GFitsTableLongLongCol.remove_alloc alloc load_column col rownum nrows =
        (col, some (Thrown.exception
          (GException.fits_invalid_nrows G_REMOVE nrows (col.m_length - rownum))))) ∧
    (¬ (rownum < 0 ∨ rownum ≥ col.m_length) → ¬ (nrows < 0 ∨ nrows > col.m_length - rownum) →
      ((GFitsTableLongLongCol.remove_alloc alloc load_column col rownum nrows).2 = none ↔
        (nrows = 0 ∨
          ∃ start,
            (if col.m_data = none then GFitsTableLongLongCol.fetch_data load_column col
              else Except.ok col) = Except.ok start ∧
            (GFitsTableLongLongCol.int_cast (start.m_number *
                GFitsTableLongLongCol.int_cast (start.m_length - nrows)) ≤ 0 ∨
              ∃ fresh, GFitsTableLongLongCol.operator_new alloc
                (GFitsTableLongLongCol.int_cast (start.m_number *
                  GFitsTableLongLongCol.int_cast (start.m_length - nrows))) =
                    some fresh)))) ∧
    (¬ (rownum < 0 ∨ rownum ≥ col.m_length) → ¬ (nrows < 0 ∨ nrows > col.m_length - rownum) →
      ∀ start fresh,
        (if col.m_data = none then GFitsTableLongLongCol.fetch_data load_column col
          else Except.ok col) = Except.ok start →
        0 ≤ start.m_number → nrows ≤ start.m_length → start.m_length ≤ 2147483647 →
        start.m_number * (start.m_length - nrows) ≤ 2147483647 →
        alloc (start.m_number * (start.m_length - nrows)) = some fresh →
        (GFitsTableLongLongCol.remove_alloc alloc load_column col rownum nrows).2 = none) ∧
    (¬ (rownum < 0 ∨ rownum ≥ col.m_length) → ¬ (nrows < 0 ∨ nrows > col.m_length - rownum) →
      ∀ t, (GFitsTableLongLongCol.remove_alloc alloc load_column col rownum nrows).2 =
          some t →
        (∃ status, t = Thrown.exception (GException.fits_error status) ∧
          load_column col = Except.error status ∧ col.m_data = none) ∨
        t = Thrown.bad_alloc) := by
  have hcases := GFitsTableLongLongCol.remove_alloc_cases alloc load_column col rownum nrows
  have hsucc : ¬ (rownum < 0 ∨ rownum ≥ col.m_length) →
      ¬ (nrows < 0 ∨ nrows > col.m_length - rownum) →
      ((GFitsTableLongLongCol.remove_alloc alloc load_column col rownum nrows).2 = none ↔
        (nrows = 0 ∨
          ∃ start,
            (if col.m_data = none then GFitsTableLongLongCol.fetch_data load_column col
              else Except.ok col) = Except.ok start ∧
            (GFitsTableLongLongCol.int_cast (start.m_number *
                GFitsTableLongLongCol.int_cast (start.m_length - nrows)) ≤ 0 ∨
              ∃ fresh, GFitsTableLongLongCol.operator_new alloc
                (GFitsTableLongLongCol.int_cast (start.m_number *
                  GFitsTableLongLongCol.int_cast (start.m_length - nrows))) =
                    some fresh))) := by
    intro hg hg2
    rcases hcases with ⟨g, _⟩ | ⟨_, g2, _⟩ | ⟨_, _, hn, he⟩ | ⟨_, _, hn, hd, st, hl, he⟩ |
      ⟨_, _, hn, start, hf, hpos, hnew, he⟩ | ⟨_, _, hn, start, hf, hok, he, _⟩
    · exact absurd g hg
    · exact absurd g2 hg2
    · rw [he]
      exact ⟨fun _ => Or.inl hn, fun _ => rfl⟩
    · rw [he]
      constructor
      · intro h
        cases h
      · rintro (h | ⟨start, hf, _⟩)
        · omega
        · rw [if_pos hd] at hf
          unfold GFitsTableLongLongCol.fetch_data at hf
          rw [hl] at hf
          cases hf
    · rw [he]
      constructor
      · intro h
        cases h
      · rintro (h | ⟨start', hf', hle | ⟨fresh, hnew'⟩⟩)
        · omega
        · rw [hf] at hf'
          simp only [Except.ok.injEq] at hf'
          subst hf'
          omega
        · rw [hf] at hf'
          simp only [Except.ok.injEq] at hf'
          subst hf'
          rw [hnew] at hnew'
          cases hnew'
    · exact ⟨fun _ => Or.inr ⟨start, hf, hok⟩, fun _ => he⟩
  have hsuff : ¬ (rownum < 0 ∨ rownum ≥ col.m_length) →
      ¬ (nrows < 0 ∨ nrows > col.m_length - rownum) →
      ∀ start fresh,
        (if col.m_data = none then GFitsTableLongLongCol.fetch_data load_column col
          else Except.ok col) = Except.ok start →
        0 ≤ start.m_number → nrows ≤ start.m_length → start.m_length ≤ 2147483647 →
        start.m_number * (start.m_length - nrows) ≤ 2147483647 →
        alloc (start.m_number * (start.m_length - nrows)) = some fresh →
        (GFitsTableLongLongCol.remove_alloc alloc load_column col rownum nrows).2 = none := by
    intro hg hg2 start fresh hf hm hn1 hL hfit halloc
    have c1 : GFitsTableLongLongCol.int_cast (start.m_length - nrows) =
        start.m_length - nrows :=
      GFitsTableLongLongCol.int_cast_of_range _ (by omega) (by omega)
    have hnn : 0 ≤ start.m_number * (start.m_length - nrows) := mul_nonneg hm (by omega)
    have c2 : GFitsTableLongLongCol.int_cast (start.m_number * (start.m_length - nrows)) =
        start.m_number * (start.m_length - nrows) :=
      GFitsTableLongLongCol.int_cast_of_range _ (by omega) hfit
    refine (hsucc hg hg2).mpr (Or.inr ⟨start, hf, Or.inr ⟨fresh, ?_⟩⟩)
    rw [c1, c2]
    unfold GFitsTableLongLongCol.operator_new
    rw [if_neg (by omega), halloc]
  refine ⟨?_, ?_, ?_, ?_, ?_, ?_, ?_⟩
  · constructor
    · rintro ⟨origin, row, max_row, h⟩
      rcases hcases with ⟨g, _⟩ | ⟨_, _, he⟩ | ⟨_, _, _, he⟩ | ⟨_, _, _, _, st, _, he⟩ |
        ⟨_, _, _, start, _, _, _, he⟩ | ⟨_, _, _, start, _, _, he, _⟩
      · exact g
      · rw [he] at h
        simp at h
      · rw [he] at h
        cases h
      · rw [he] at h
        simp at h
      · rw [he] at h
        cases h
      · rw [he] at h
        cases h
    · intro g
      rcases hcases with ⟨_, he⟩ | ⟨hg, _⟩ | ⟨hg, _⟩ | ⟨hg, _⟩ | ⟨hg, _⟩ | ⟨hg, _⟩
      · exact ⟨_, _, _, by rw [he]⟩
      all_goals exact absurd g hg
  · intro g
    rcases hcases with ⟨_, he⟩ | ⟨hg, _⟩ | ⟨hg, _⟩ | ⟨hg, _⟩ | ⟨hg, _⟩ | ⟨hg, _⟩
    · exact he
    all_goals exact absurd g hg
  · intro hg
    constructor
    · rintro ⟨origin, n, max_n, h⟩
      rcases hcases with ⟨g, _⟩ | ⟨_, g2, _⟩ | ⟨_, _, _, he⟩ | ⟨_, _, _, _, st, _, he⟩ |
        ⟨_, _, _, start, _, _, _, he⟩ | ⟨_, _, _, start, _, _, he, _⟩
      · exact absurd g hg
      · exact g2
      · rw [he] at h
        cases h
      · rw [he] at h
        simp at h
      · rw [he] at h
        cases h
      · rw [he] at h
        cases h
    · intro g2
      rcases hcases with ⟨g, _⟩ | ⟨_, _, he⟩ | ⟨_, hg2, _⟩ | ⟨_, hg2, _⟩ | ⟨_, hg2, _⟩ |
        ⟨_, hg2, _⟩
      · exact absurd g hg
      · exact ⟨_, _, _, by rw [he]⟩
      all_goals exact absurd g2 hg2
  · intro hg g2
    rcases hcases with ⟨g, _⟩ | ⟨_, _, he⟩ | ⟨_, hg2, _⟩ | ⟨_, hg2, _⟩ | ⟨_, hg2, _⟩ |
      ⟨_, hg2, _⟩
    · exact absurd g hg
    · exact he
    all_goals exact absurd g2 hg2
  · exact hsucc
  · exact hsuff
  · intro hg hg2 t ht
    rcases hcases with ⟨g, _⟩ | ⟨_, g2, _⟩ | ⟨_, _, _, he⟩ | ⟨_, _, _, hd, st, hl, he⟩ |
      ⟨_, _, _, start, _, _, _, he⟩ | ⟨_, _, _, start, _, _, he, _⟩
    · exact absurd g hg
    · exact absurd g2 hg2
    · rw [he] at ht
      cases ht
    · rw [he] at ht
      simp only [Option.some.injEq] at ht
      exact Or.inl ⟨st, ht.symm, hl, hd⟩
    · rw [he] at ht
      simp only [Option.some.injEq] at ht
      exact Or.inr ht.symm
    · rw [he] at ht
      cases ht

/-- Witness for C11 (amended): on the column `ID = [10, 20, 30]`,
`remove(0, 1)` succeeds, `remove(3, 1)` fails with the invalid-row error and
`remove(1, 3)` with the invalid-nrows error. -/
theorem remove_guards_witness :
    ¬ ((0 : Int) < 0 ∨ (0 : Int) ≥ columnID.m_length) ∧
    ¬ ((1 : Int) < 0 ∨ (1 : Int) > columnID.m_length - 0) ∧
    (GFitsTableLongLongCol.remove_alloc alloc_ok load_column_zero columnID 0 1).2 = none ∧
    GFitsTableLongLongCol.remove_alloc alloc_ok load_column_zero columnID 3 1 =
      (columnID, some (Thrown.exception (GException.fits_invalid_row G_REMOVE 3 2))) ∧
    GFitsTableLongLongCol.remove_alloc alloc_ok load_column_zero columnID 1 3 =
      (columnID, some (Thrown.exception (GException.fits_invalid_nrows G_REMOVE 3 2))) :=
  ⟨by decide, by decide,
    (remove_guards alloc_ok load_column_zero columnID 0 1).2.2.2.2.2.1 (by decide) (by decide)
      columnID [-1, -2] rfl (by decide) (by decide) (by decide) (by decide) (by decide),
    (remove_guards alloc_ok load_column_zero columnID 3 1).2.1 (by decide),
    (remove_guards alloc_ok load_column_zero columnID 1 3).2.2.2.1 (by decide) (by decide)⟩

/-! ## The result of insert on the machine -/

/-- C10 (counterexample). The column of 3 rows of 2 elements is loaded and
`rownum = 1`, `nrows = 1073741823` satisfy `0 <= rownum <= L` and
`nrows > 0`, yet after `insert(1, 1073741823)` the length is still 3 and the
buffer still holds its 6 elements: the new size 2 * 1073741826 does not fit
in `int`, the size passed to `new` is negative and `new` throws. -/
theorem insert_nonempty_overflow_counterexample :
    columnPairs.m_data = some [1, 2, 3, 4, 5, 6] ∧ 0 < columnPairs.m_length ∧
    (0 : Int) ≤ 1 ∧ (1 : Int) ≤ columnPairs.m_length ∧ (0 : Int) < 1073741823 ∧
    InInt 1073741823 ∧
    GFitsTableLongLongCol.insert_alloc alloc_ok load_column_zero columnPairs 1 1073741823 =
      ({ columnPairs with m_size := -2147483644 }, some Thrown.bad_alloc) ∧
    (GFitsTableLongLongCol.insert_alloc alloc_ok load_column_zero columnPairs 1
      1073741823).1.m_length ≠ columnPairs.m_length + 1073741823 := by
  refine ⟨rfl, by decide, by decide, by decide, by decide, by decide, rfl, by decide⟩

/-- C10 (amended). For every column with length `L > 0`, repeat `m`, loaded
buffer `d` of `m * L` elements, `0 <= rownum <= L` and `nrows > 0`:
* when `L + nrows` and `m * (L + nrows)` fit in `int` and the allocator
  hands out storage of `m * (L + nrows)` elements, whatever they hold,
  insert succeeds; afterwards the length is `L + nrows` and the buffer holds
  the first `m * rownum` elements of `d`, then `m * nrows` zeros, then the
  remaining `m * (L - rownum)` elements of `d` in order, `m * (L + nrows)`
  elements in all;
* when `new` throws, insert ends with `bad_alloc`, and the length is still
  `L` and the buffer still `d`. -/
theorem insert_nonempty_result_on_machine (alloc : Int → Option (List Int))
    (load_column : GFitsTableLongLongCol → Except Int GFitsTableLongLongCol)
    (col : GFitsTableLongLongCol) (d : List Int) (rownum nrows : Int)
    (hdata : col.m_data = some d) (hL : 0 < col.m_length) (hm : 0 ≤ col.m_number)
    (hsize : (d.length : Int) = col.m_number * col.m_length)
    (hr0 : 0 ≤ rownum) (hr1 : rownum ≤ col.m_length) (hn : 0 < nrows) :
    (∀ fresh : List Int, col.m_length + nrows ≤ 2147483647 →
      col.m_number * (col.m_length + nrows) ≤ 2147483647 →
      alloc (col.m_number * (col.m_length + nrows)) = some fresh →
      (fresh.length : Int) = col.m_number * (col.m_length + nrows) →
      GFitsTableLongLongCol.insert_alloc alloc load_column col rownum nrows =
        ({ col with
          m_size := col.m_number * (col.m_length + nrows)
          m_data := some (d.take (col.m_number * rownum).toNat ++
            List.replicate (col.m_number * nrows).toNat 0 ++
            d.drop (col.m_number * rownum).toNat)
          m_length := col.m_length + nrows }, none)) ∧
    ((d.take (col.m_number * rownum).toNat).length : Int) = col.m_number * rownum ∧
    ((List.replicate (col.m_number * nrows).toNat (0 : Int)).length : Int) =
      col.m_number * nrows ∧
    ((d.drop (col.m_number * rownum).toNat).length : Int) =
      col.m_number * (col.m_length - rownum) ∧
    ((d.take (col.m_number * rownum).toNat ++ List.replicate (col.m_number * nrows).toNat 0 ++
      d.drop (col.m_number * rownum).toNat).length : Int) =
        col.m_number * (col.m_length + nrows) ∧
    (GFitsTableLongLongCol.operator_new alloc
        (GFitsTableLongLongCol.int_cast (col.m_number *
          GFitsTableLongLongCol.int_cast (col.m_length + nrows))) = none →
      (GFitsTableLongLongCol.insert_alloc alloc load_column col rownum nrows).2 =
        some Thrown.bad_alloc ∧
      (GFitsTableLongLongCol.insert_alloc alloc load_column col rownum nrows).1.m_length =
        col.m_length ∧
      (GFitsTableLongLongCol.insert_alloc alloc load_column col rownum nrows).1.m_data =
        some d) := by
  have hnb : 0 ≤ col.m_number * rownum := mul_nonneg hm hr0
  have hni : 0 ≤ col.m_number * nrows := mul_nonneg hm (le_of_lt hn)
  have hna : 0 ≤ col.m_number * (col.m_length - rownum) := mul_nonneg hm (by omega)
  have hsum : col.m_number * (col.m_length + nrows) =
      col.m_number * rownum + col.m_number * nrows + col.m_number * (col.m_length - rownum) := by
    ring
  have hsplit : col.m_number * col.m_length =
      col.m_number * rownum + col.m_number * (col.m_length - rownum) := by
    ring
  have hfetch := GFitsTableLongLongCol.fetch_of_loaded load_column col d hdata
  refine ⟨?_, ?_, ?_, ?_, ?_, ?_⟩
  · intro fresh hlen hfit halloc hfresh
    exact GFitsTableLongLongCol.insert_alloc_of_fetched alloc load_column col col d fresh
      rownum nrows hr0 hr1 hn (by omega) hfetch hdata hm hsize hr1 hlen hfit halloc hfresh
  · rw [List.length_take]; omega
  · rw [List.length_replicate]; omega
  · rw [List.length_drop]; omega
  · simp only [List.length_append, List.length_take, List.length_replicate, List.length_drop]
    omega
  · intro hnew
    unfold GFitsTableLongLongCol.insert_alloc
    rw [if_neg (by omega), if_pos hn, if_neg (by omega), hfetch]
    simp only [hnew]
    exact ⟨trivial, trivial, hdata⟩

/-- Witness for C10 (amended): the scenario `ID = [10, 20, 30]`, where
`insert(1, 2)` gives `[10, 0, 0, 20, 30]` with length 5, on storage that
held -1, -2, -3, -4, -5 when `new` returned it. -/
theorem insert_nonempty_result_on_machine_witness :
    alloc_ok 5 = some [-1, -2, -3, -4, -5] ∧
    GFitsTableLongLongCol.insert_alloc alloc_ok load_column_zero columnID 1 2 =
      ({ columnID with m_size := 5, m_data := some [10, 0, 0, 20, 30], m_length := 5 },
        none) :=
  ⟨rfl, (insert_nonempty_result_on_machine alloc_ok load_column_zero columnID [10, 20, 30]
    1 2 rfl (by decide) (by decide) (by decide) (by decide) (by decide) (by decide)).1
    [-1, -2, -3, -4, -5] (by decide) (by decide) (by decide) (by decide)⟩

/-- C18 (counterexample). On the non-empty column `ID = [10, 20, 30]`,
`insert(0, 2147483647)` prepends nothing: the new length overflows `int`,
`new` throws, and the first element of the buffer is still 10, not a
zero. -/
theorem insert_prepends_nothing_counterexample :
    InInt 2147483647 ∧
    (GFitsTableLongLongCol.insert_alloc alloc_ok load_column_zero columnID 0
      2147483647).2 = some Thrown.bad_alloc ∧
    (GFitsTableLongLongCol.insert_alloc alloc_ok load_column_zero columnID 0
      2147483647).1.m_data = some [10, 20, 30] ∧
    (GFitsTableLongLongCol.insert_alloc alloc_ok load_column_zero columnID 0
      2147483647).1.m_length = 3 ∧
    ([10, 20, 30] : List Int)[0]? ≠ some 0 := by
  refine ⟨by decide, rfl, rfl, rfl, by decide⟩

/-- C18 (amended). On a loaded column of `L > 0` rows (repeat `m`, buffer
`d` of `m * L` elements), when `L + nrows` and `m * (L + nrows)` fit in
`int` and the allocator hands out storage for the new buffer, whatever it
holds, `insert(rownum, nrows)` with `0 <= rownum <= L` and `nrows > 0`
places the new rows immediately after the first `rownum` rows: the elements
below `m * rownum` are those of `d`, the elements from `m * rownum` up to
`m * (rownum + nrows)` are zero, and every element of `d` from `m * rownum`
on follows, moved up by `m * nrows`. With `rownum = 0` the rows are
prepended: the buffer is `m * nrows` zeros followed by `d`. -/
theorem insert_position_on_machine (alloc : Int → Option (List Int))
    (load_column : GFitsTableLongLongCol → Except Int GFitsTableLongLongCol)
    (col : GFitsTableLongLongCol) (d fresh : List Int) (rownum nrows : Int)
    (hdata : col.m_data = some d) (hL : 0 < col.m_length) (hm : 0 ≤ col.m_number)
    (hsize : (d.length : Int) = col.m_number * col.m_length)
    (hr0 : 0 ≤ rownum) (hr1 : rownum ≤ col.m_length) (hn : 0 < nrows)
    (hlen : col.m_length + nrows ≤ 2147483647)
    (hfit : col.m_number * (col.m_length + nrows) ≤ 2147483647)
    (halloc : alloc (col.m_number * (col.m_length + nrows)) = some fresh)
    (hfresh : (fresh.length : Int) = col.m_number * (col.m_length + nrows)) :
    ∃ (col' : GFitsTableLongLongCol) (b : List Int),
      GFitsTableLongLongCol.insert_alloc alloc load_column col rownum nrows = (col', none) ∧
      col'.m_data = some b ∧ col'.m_length = col.m_length + nrows ∧
      (∀ i : Nat, (i : Int) < col.m_number * rownum → b[i]? = d[i]?) ∧
      (∀ i : Nat, col.m_number * rownum ≤ (i : Int) →
        (i : Int) < col.m_number * (rownum + nrows) → b[i]? = some 0) ∧
      (∀ i : Nat, col.m_number * rownum ≤ (i : Int) →
        b[i + (col.m_number * nrows).toNat]? = d[i]?) ∧
      (rownum = 0 → b = List.replicate (col.m_number * nrows).toNat 0 ++ d) := by
  have hins := GFitsTableLongLongCol.insert_alloc_of_fetched alloc load_column col col d fresh
    rownum nrows hr0 hr1 hn (by omega)
    (GFitsTableLongLongCol.fetch_of_loaded load_column col d hdata)
    hdata hm hsize hr1 hlen hfit halloc hfresh
  have hnb : 0 ≤ col.m_number * rownum := mul_nonneg hm hr0
  have hni : 0 ≤ col.m_number * nrows := mul_nonneg hm (le_of_lt hn)
  have hna : 0 ≤ col.m_number * (col.m_length - rownum) := mul_nonneg hm (by omega)
  have hsplit : col.m_number * col.m_length =
      col.m_number * rownum + col.m_number * (col.m_length - rownum) := by
    ring
  have hrn : col.m_number * (rownum + nrows) =
      col.m_number * rownum + col.m_number * nrows := by
    ring
  have hA : (d.take (col.m_number * rownum).toNat).length = (col.m_number * rownum).toNat := by
    rw [List.length_take]; omega
  have hAZ : (d.take (col.m_number * rownum).toNat ++
      List.replicate (col.m_number * nrows).toNat (0 : Int)).length =
      (col.m_number * rownum).toNat + (col.m_number * nrows).toNat := by
    rw [List.length_append, hA, List.length_replicate]
  refine ⟨_, _, hins, rfl, rfl, ?_, ?_, ?_, ?_⟩
  · intro i hi
    rw [List.append_assoc, List.getElem?_append_left (by omega),
      List.getElem?_take_of_lt (by omega)]
  · intro i hi1 hi2
    rw [List.append_assoc, List.getElem?_append_right (by omega), hA,
      List.getElem?_append_left (by rw [List.length_replicate]; omega)]
    rw [List.getElem?_replicate, if_pos (by omega)]
  · intro i hi
    rw [List.getElem?_append_right (by omega), hAZ, List.getElem?_drop]
    congr 1
    omega
  · intro hzero
    subst hzero
    simp

/-- Witness for C18 (amended): on `ID = [10, 20, 30]`, with storage that
held -1, -2, ... when `new` returned it, `insert(1, 2)` puts the two zero
rows behind the first row, and `insert(0, 2)` prepends them. -/
theorem insert_position_on_machine_witness :
    GFitsTableLongLongCol.insert_alloc alloc_ok load_column_zero columnID 1 2 =
      ({ columnID with m_size := 5, m_data := some [10, 0, 0, 20, 30], m_length := 5 },
        none) ∧
    ∃ (col' : GFitsTableLongLongCol) (b : List Int),
      GFitsTableLongLongCol.insert_alloc alloc_ok load_column_zero columnID 0 2 =
        (col', none) ∧
      col'.m_data = some b ∧ b = [0, 0, 10, 20, 30] :=
  ⟨rfl,
    (insert_position_on_machine alloc_ok load_column_zero columnID [10, 20, 30]
      [-1, -2, -3, -4, -5] 0 2 rfl (by decide) (by decide) (by decide) (by decide)
      (by decide) (by decide) (by decide) (by decide) (by decide) (by decide)).elim
      (fun col' h => h.elim (fun b hb => ⟨col', b, hb.1, hb.2.1, hb.2.2.2.2.2.2 rfl⟩))⟩

/-! ## Insert followed by remove on the machine -/

/-- C13 (amended). For every column with length `L` and repeat `m >= 1`, and
every `r`, `n` with `0 <= r <= L` and `n >= 0` other than `n = 0` with
`r = L`, such that `m * (L + n)` fits in `int` and the allocator hands out
the storage for the two new buffers, whatever it holds: `insert(r, n)`
followed by `remove(r, n)` succeeds and restores the original length and all
element values.
* `n = 0`: both calls leave the column as it is.
* `n > 0`, `L > 0`: with `start` the column after the load that insert
  forces when no data are present, holding the buffer `d` of `m * L`
  elements, the column in between has `L + n` rows whose elements from
  `m * r` up to `m * (r + n)` are all zero, and remove gives back `start`
  with buffer `d` and length `L`.
* `n > 0`, `L = 0`: insert only sets the length to `n`, and remove, once
  the load it forces when no data are present has succeeded without
  changing the length, gives a column of length 0 without buffer. -/
theorem insert_remove_inverse_on_machine (alloc1 alloc2 : Int → Option (List Int))
    (load_column : GFitsTableLongLongCol → Except Int GFitsTableLongLongCol)
    (col : GFitsTableLongLongCol) (r n : Int)
    (hm : 0 < col.m_number) (hr0 : 0 ≤ r) (hr1 : r ≤ col.m_length) (hn0 : 0 ≤ n)
    (hex : 0 < n ∨ r < col.m_length) :
    (n = 0 →
      GFitsTableLongLongCol.insert_alloc alloc1 load_column col r n = (col, none) ∧
      GFitsTableLongLongCol.remove_alloc alloc2 load_column col r n = (col, none)) ∧
    (0 < n → 0 < col.m_length →
      ∀ (start : GFitsTableLongLongCol) (d fresh1 fresh2 : List Int),
        (if col.m_data = none then GFitsTableLongLongCol.fetch_data load_column col
          else Except.ok col) = Except.ok start →
        start.m_data = some d → start.m_length = col.m_length →
        start.m_number = col.m_number →
        (d.length : Int) = col.m_number * col.m_length →
        col.m_number * (col.m_length + n) ≤ 2147483647 →
        alloc1 (col.m_number * (col.m_length + n)) = some fresh1 →
        (fresh1.length : Int) = col.m_number * (col.m_length + n) →
        alloc2 (col.m_number * col.m_length) = some fresh2 →
        (fresh2.length : Int) = col.m_number * col.m_length →
        ∃ (mid : GFitsTableLongLongCol) (b : List Int),
          GFitsTableLongLongCol.insert_alloc alloc1 load_column col r n = (mid, none) ∧
          mid.m_length = col.m_length + n ∧ mid.m_data = some b ∧
          (∀ i : Nat, (col.m_number * r).toNat ≤ i → i < (col.m_number * (r + n)).toNat →
            b[i]? = some 0) ∧
          GFitsTableLongLongCol.remove_alloc alloc2 load_column mid r n =
            ({ start with m_size := col.m_number * col.m_length }, none) ∧
          ({ start with m_size := col.m_number * col.m_length } :
            GFitsTableLongLongCol).m_length = col.m_length ∧
          ({ start with m_size := col.m_number * col.m_length } :
            GFitsTableLongLongCol).m_data = some d) ∧
    (0 < n → col.m_length = 0 →
      GFitsTableLongLongCol.insert_alloc alloc1 load_column col r n =
        ({ col with m_length := n }, none) ∧
      ∀ loaded : GFitsTableLongLongCol,
        (if col.m_data = none then
            GFitsTableLongLongCol.fetch_data load_column { col with m_length := n }
          else Except.ok { col with m_length := n }) = Except.ok loaded →
        loaded.m_length = n →
        ∃ col', GFitsTableLongLongCol.remove_alloc alloc2 load_column
            { col with m_length := n } r n = (col', none) ∧
          col'.m_length = 0 ∧ col'.m_data = none ∧ col'.m_size = 0) := by
  refine ⟨?_, ?_, ?_⟩
  · intro hn
    subst hn
    constructor
    · unfold GFitsTableLongLongCol.insert_alloc
      rw [if_neg (by omega), if_neg (by omega)]
    · unfold GFitsTableLongLongCol.remove_alloc
      rw [if_neg (by omega), if_neg (by omega), if_neg (by omega)]
  · intro hn hL start d fresh1 fresh2 hstart hdata hlen hnum hsize hfit ha1 hf1 ha2 hf2
    have hnb : 0 ≤ col.m_number * r := mul_nonneg (le_of_lt hm) hr0
    have hni : 0 ≤ col.m_number * n := mul_nonneg (le_of_lt hm) hn0
    have hna : 0 ≤ col.m_number * (col.m_length - r) := mul_nonneg (le_of_lt hm) (by omega)
    have hone : 0 ≤ (col.m_number - 1) * (col.m_length + n) :=
      mul_nonneg (by omega) (by omega)
    have hone2 : (col.m_number - 1) * (col.m_length + n) =
        col.m_number * (col.m_length + n) - (col.m_length + n) := by
      ring
    have hsplit : col.m_number * col.m_length =
        col.m_number * r + col.m_number * (col.m_length - r) := by
      ring
    have hsum : col.m_number * (col.m_length + n) =
        col.m_number * r + col.m_number * n + col.m_number * (col.m_length - r) := by
      ring
    have hrn : col.m_number * (r + n) = col.m_number * r + col.m_number * n := by
      ring
    have hA : (d.take (col.m_number * r).toNat).length = (col.m_number * r).toNat := by
      rw [List.length_take]; omega
    have hAZ : (d.take (col.m_number * r).toNat ++
        List.replicate (col.m_number * n).toNat (0 : Int)).length =
        (col.m_number * (r + n)).toNat := by
      rw [List.length_append, hA, List.length_replicate, hrn]; omega
    obtain ⟨s_name, s_length, s_number, s_width, s_type, s_size, s_varlen, s_rowstart,
      s_data, s_nulval⟩ := start
    simp only at hdata hlen hnum
    subst hdata hlen hnum
    have hins := GFitsTableLongLongCol.insert_alloc_of_fetched alloc1 load_column col _ d
      fresh1 r n hr0 hr1 hn (by omega) hstart rfl (le_of_lt hm) hsize hr1
      (by show col.m_length + n ≤ 2147483647; omega) hfit ha1 hf1
    simp only at hins
    have hmidfetch := GFitsTableLongLongCol.fetch_of_loaded load_column
      ({ m_name := s_name, m_length := col.m_length + n, m_number := col.m_number,
         m_width := s_width, m_type := s_type,
         m_size := col.m_number * (col.m_length + n), m_varlen := s_varlen,
         m_rowstart := s_rowstart,
         m_data := some (d.take (col.m_number * r).toNat ++
           List.replicate (col.m_number * n).toNat 0 ++ d.drop (col.m_number * r).toNat),
         m_nulval := s_nulval } : GFitsTableLongLongCol) _ rfl
    have hL2 : col.m_length + n - n = col.m_length := by omega
    have hrem := GFitsTableLongLongCol.remove_alloc_of_fetched alloc2 load_column _ _
      (d.take (col.m_number * r).toNat ++ List.replicate (col.m_number * n).toNat 0 ++
        d.drop (col.m_number * r).toNat) fresh2 r n hr0
      (by show r < col.m_length + n; omega) hn
      (by show n ≤ col.m_length + n - r; omega) hmidfetch rfl hm
      (by
        show ((d.take (col.m_number * r).toNat ++
          List.replicate (col.m_number * n).toNat 0 ++
          d.drop (col.m_number * r).toNat).length : Int) =
            col.m_number * (col.m_length + n)
        simp only [List.length_append, List.length_take, List.length_replicate,
          List.length_drop]
        omega)
      (by show r + n ≤ col.m_length + n; omega)
      (by show col.m_number * (col.m_length + n) ≤ 2147483647; exact hfit)
      (by
        intro _
        show alloc2 (col.m_number * (col.m_length + n - n)) = some fresh2 ∧
          (fresh2.length : Int) = col.m_number * (col.m_length + n - n)
        rw [hL2]
        exact ⟨ha2, hf2⟩)
    have hbuf : List.take (col.m_number * r).toNat
          (d.take (col.m_number * r).toNat ++ List.replicate (col.m_number * n).toNat 0 ++
            d.drop (col.m_number * r).toNat) ++
        List.drop (col.m_number * (r + n)).toNat
          (d.take (col.m_number * r).toNat ++ List.replicate (col.m_number * n).toNat 0 ++
            d.drop (col.m_number * r).toNat) = d := by
      rw [List.append_assoc, List.take_left' hA, ← List.append_assoc,
        List.drop_left' hAZ, List.take_append_drop]
    simp only [hL2, hL, if_true, hbuf] at hrem
    refine ⟨_, _, hins, rfl, rfl, ?_, hrem, rfl, rfl⟩
    intro i hi1 hi2
    rw [List.append_assoc, List.getElem?_append_right (by omega), hA,
      List.getElem?_append_left (by rw [List.length_replicate]; omega)]
    rw [List.getElem?_replicate, if_pos (by omega)]
  · intro hn hL
    have hr : r = 0 := by omega
    subst hr
    constructor
    · unfold GFitsTableLongLongCol.insert_alloc
      rw [if_neg (by omega), if_pos hn, if_pos hL]
    · intro loaded hload hlen
      unfold GFitsTableLongLongCol.remove_alloc
      rw [if_neg (by show ¬ ((0 : Int) < 0 ∨ 0 ≥ n); omega),
        if_neg (by show ¬ (n < 0 ∨ n > n - 0); omega), if_pos hn]
      have hload2 : (if ({ col with m_length := n } : GFitsTableLongLongCol).m_data = none then
            GFitsTableLongLongCol.fetch_data load_column { col with m_length := n }
          else Except.ok { col with m_length := n }) = Except.ok loaded := hload
      rw [hload2]
      have hz : GFitsTableLongLongCol.int_cast 0 = 0 := rfl
      simp only [hlen, sub_self, mul_zero, hz, gt_iff_lt, lt_self_iff_false, if_false]
      exact ⟨_, rfl, rfl, rfl, rfl⟩

/-- Witness for C13 (amended): the scenario `ID = [10, 20, 30]`, where
`insert(1, 2)` gives `[10, 0, 0, 20, 30]` and `remove(1, 2)` gives back
`[10, 20, 30]` with length 3, on storage that held -1, -2, ... when `new`
returned it. -/
theorem insert_remove_inverse_on_machine_witness :
    ∃ (mid : GFitsTableLongLongCol) (b : List Int),
      GFitsTableLongLongCol.insert_alloc alloc_ok load_column_zero columnID 1 2 =
        (mid, none) ∧
      mid.m_length = 5 ∧ mid.m_data = some b ∧
      (∀ i : Nat, 1 ≤ i → i < 3 → b[i]? = some 0) ∧
      GFitsTableLongLongCol.remove_alloc alloc_ok load_column_zero mid 1 2 =
        (columnID, none) ∧
      columnID.m_length = 3 ∧ columnID.m_data = some [10, 20, 30] :=
  (insert_remove_inverse_on_machine alloc_ok alloc_ok load_column_zero columnID 1 2
    (by decide) (by decide) (by decide) (by decide) (by decide)).2.1 (by decide) (by decide)
    columnID [10, 20, 30] [-1, -2, -3, -4, -5] [-1, -2, -3] rfl rfl rfl rfl
    (by decide) (by decide) (by decide) (by decide) (by decide) (by decide)

/-! ## Two columns of the same length -/

namespace GFitsTableLongLongCol

/-- A load that keeps the length gives a column of the same length. -/
theorem fetch_keeps_length
    (load_column : GFitsTableLongLongCol → Except Int GFitsTableLongLongCol)
    (hload : ∀ c c', load_column c = Except.ok c' → c'.m_length = c.m_length)
    (col start : GFitsTableLongLongCol)
    (h : (if col.m_data = none then fetch_data load_column col else Except.ok col) =
      Except.ok start) :
    start.m_length = col.m_length := by
  by_cases hd : col.m_data = none
  · rw [if_pos hd] at h
    unfold fetch_data at h
    cases hl : load_column col with
    | error status =>
      rw [hl] at h
      cases h
    | ok loaded =>
      rw [hl] at h
      simp only [Except.ok.injEq] at h
      subst h
      exact hload _ _ hl
  · rw [if_neg hd] at h
    simp only [Except.ok.injEq] at h
    subst h
    rfl

/-- How insert ends on the machine: with the invalid-row error of the guard,
without error, with the error of a failed load, or with `bad_alloc`. -/
theorem insert_alloc_thrown (alloc : Int → Option (List Int))
    (load_column : GFitsTableLongLongCol → Except Int GFitsTableLongLongCol)
    (col : GFitsTableLongLongCol) (rownum nrows : Int) :
    ((rownum < 0 ∨ rownum > col.m_length) ∧
      (insert_alloc alloc load_column col rownum nrows).2 =
        some (Thrown.exception (GException.fits_invalid_row G_INSERT rownum col.m_length))) ∨
    (¬ (rownum < 0 ∨ rownum > col.m_length) ∧
      (insert_alloc alloc load_column col rownum nrows).2 = none) ∨
    (¬ (rownum < 0 ∨ rownum > col.m_length) ∧
      ∃ status, col.m_data = none ∧ load_column col = Except.error status ∧
        (insert_alloc alloc load_column col rownum nrows).2 =
          some (Thrown.exception (GException.fits_error status))) ∨
    (¬ (rownum < 0 ∨ rownum > col.m_length) ∧
      (insert_alloc alloc load_column col rownum nrows).2 = some Thrown.bad_alloc) := by
  rcases insert_alloc_cases alloc load_column col rownum nrows with
    ⟨hg, h⟩ | ⟨hg, _, h⟩ | ⟨hg, _, _, h⟩ | ⟨hg, _, _, hd, status, hl, h⟩ |
    ⟨hg, _, _, start, _, _, h⟩ | ⟨hg, _, _, start, fresh, _, _, h, _⟩
  · exact Or.inl ⟨hg, by rw [h]⟩
  · exact Or.inr (Or.inl ⟨hg, by rw [h]⟩)
  · exact Or.inr (Or.inl ⟨hg, by rw [h]⟩)
  · exact Or.inr (Or.inr (Or.inl ⟨hg, status, hd, hl, by rw [h]⟩))
  · exact Or.inr (Or.inr (Or.inr ⟨hg, by rw [h]⟩))
  · exact Or.inr (Or.inl ⟨hg, h⟩)

/-- How remove ends on the machine: with the invalid-row or the
invalid-nrows error of the guards, without error, with the error of a failed
load, or with `bad_alloc`. -/
theorem remove_alloc_thrown (alloc : Int → Option (List Int))
    (load_column : GFitsTableLongLongCol → Except Int GFitsTableLongLongCol)
    (col : GFitsTableLongLongCol) (rownum nrows : Int) :
    ((rownum < 0 ∨ rownum ≥ col.m_length) ∧
      (remove_alloc alloc load_column col rownum nrows).2 =
        some (Thrown.exception
          (GException.fits_invalid_row G_REMOVE rownum (col.m_length - 1)))) ∨
    (¬ (rownum < 0 ∨ rownum ≥ col.m_length) ∧
      (nrows < 0 ∨ nrows > col.m_length - rownum) ∧
      (remove_alloc alloc load_column col rownum nrows).2 =
        some (Thrown.exception
          (GException.fits_invalid_nrows G_REMOVE nrows (col.m_length - rownum)))) ∨
    (¬ (rownum < 0 ∨ rownum ≥ col.m_length) ∧
      ¬ (nrows < 0 ∨ nrows > col.m_length - rownum) ∧
      (remove_alloc alloc load_column col rownum nrows).2 = none) ∨
    (¬ (rownum < 0 ∨ rownum ≥ col.m_length) ∧
      ¬ (nrows < 0 ∨ nrows > col.m_length - rownum) ∧
      ∃ status, col.m_data = none ∧ load_column col = Except.error status ∧
        (remove_alloc alloc load_column col rownum nrows).2 =
          some (Thrown.exception (GException.fits_error status))) ∨
    (¬ (rownum < 0 ∨ rownum ≥ col.m_length) ∧
      ¬ (nrows < 0 ∨ nrows > col.m_length - rownum) ∧
      (remove_alloc alloc load_column col rownum nrows).2 = some Thrown.bad_alloc) := by
  rcases remove_alloc_cases alloc load_column col rownum nrows with
    ⟨hg, h⟩ | ⟨hg, hn, h⟩ | ⟨hg, hn, _, h⟩ | ⟨hg, hn, _, hd, status, hl, h⟩ |
    ⟨hg, hn, _, start, _, _, _, h⟩ | ⟨hg, hn, _, start, _, _, h, _⟩
  · exact Or.inl ⟨hg, by rw [h]⟩
  · exact Or.inr (Or.inl ⟨hg, hn, by rw [h]⟩)
  · exact Or.inr (Or.inr (Or.inl ⟨hg, hn, by rw [h]⟩))
  · exact Or.inr (Or.inr (Or.inr (Or.inl ⟨hg, hn, status, hd, hl, by rw [h]⟩)))
  · exact Or.inr (Or.inr (Or.inr (Or.inr ⟨hg, hn, by rw [h]⟩)))
  · exact Or.inr (Or.inr (Or.inl ⟨hg, hn, h⟩))

/-- The length after insert on the machine, when a load keeps the length:
a call that fails leaves the length as it was. -/
theorem insert_alloc_length (alloc : Int → Option (List Int))
    (load_column : GFitsTableLongLongCol → Except Int GFitsTableLongLongCol)
    (hload : ∀ c c', load_column c = Except.ok c' → c'.m_length = c.m_length)
    (col : GFitsTableLongLongCol) (rownum nrows : Int) :
    (insert_alloc alloc load_column col rownum nrows).1.m_length =
      if (insert_alloc alloc load_column col rownum nrows).2 = none then
        (if nrows > 0 then (if col.m_length = 0 then nrows else int_cast (col.m_length + nrows))
          else col.m_length)
      else col.m_length := by
  rcases insert_alloc_cases alloc load_column col rownum nrows with
    ⟨hg, h⟩ | ⟨hg, hn, h⟩ | ⟨hg, hn, hL, h⟩ | ⟨hg, _, _, hd, status, hl, h⟩ |
    ⟨hg, _, _, start, hs, _, h⟩ | ⟨hg, hn, hL, start, fresh, hs, _, h, hlen⟩
  · rw [h]
    simp
  · rw [h]
    simp only [if_true]
    rw [if_neg (by omega)]
  · rw [h]
    simp only [if_true]
    rw [if_pos hn, if_pos hL]
  · rw [h]
    simp
  · rw [h]
    simp only [reduceCtorEq, if_false]
    exact fetch_keeps_length load_column hload col start hs
  · rw [hlen, h, if_pos rfl, if_pos hn, if_neg hL,
      fetch_keeps_length load_column hload col start hs]

/-- The length after remove on the machine, when a load keeps the length:
a call that fails leaves the length as it was. -/
theorem remove_alloc_length (alloc : Int → Option (List Int))
    (load_column : GFitsTableLongLongCol → Except Int GFitsTableLongLongCol)
    (hload : ∀ c c', load_column c = Except.ok c' → c'.m_length = c.m_length)
    (col : GFitsTableLongLongCol) (rownum nrows : Int) :
    (remove_alloc alloc load_column col rownum nrows).1.m_length =
      if (remove_alloc alloc load_column col rownum nrows).2 = none then
        (if nrows > 0 then int_cast (col.m_length - nrows) else col.m_length)
      else col.m_length := by
  rcases remove_alloc_cases alloc load_column col rownum nrows with
    ⟨hg, h⟩ | ⟨hg, hn, h⟩ | ⟨hg, hn, hz, h⟩ | ⟨hg, hn, _, hd, status, hl, h⟩ |
    ⟨hg, hn, _, start, hs, _, _, h⟩ | ⟨hg, hn, hp, start, hs, _, h, hlen⟩
  · rw [h]
    simp
  · rw [h]
    simp
  · rw [h]
    simp only [if_true]
    rw [if_neg (by omega)]
  · rw [h]
    simp
  · rw [h]
    simp only [reduceCtorEq, if_false]
    exact fetch_keeps_length load_column hload col start hs
  · rw [hlen, h, if_pos rfl, if_pos hp,
      fetch_keeps_length load_column hload col start hs]

end GFitsTableLongLongCol

/-- C35 (counterexample). The loaded column `ID` and the unloaded column
both have 3 rows, yet with a load that fails `insert(1, 2)` and
`remove(1, 1)` succeed on the first and fail on the second. The columns
`ID` (repeat 1) and `PAIRS` (repeat 2) both have 3 rows and are loaded, yet
`insert(1, 1073741824)` succeeds on the first and fails on the second, whose
new size overflows `int`. -/
theorem equal_length_columns_disagree_counterexample :
    columnID.m_length = columnUnloaded.m_length ∧
    (GFitsTableLongLongCol.insert_alloc alloc_ok load_column_failing columnID 1 2).2 = none ∧
    (GFitsTableLongLongCol.insert_alloc alloc_ok load_column_failing columnUnloaded 1 2).2 =
      some (Thrown.exception (GException.fits_error 104)) ∧
    (GFitsTableLongLongCol.remove_alloc alloc_ok load_column_failing columnID 1 1).2 = none ∧
    (GFitsTableLongLongCol.remove_alloc alloc_ok load_column_failing columnUnloaded 1 1).2 =
      some (Thrown.exception (GException.fits_error 104)) ∧
    (∃ c, GFitsTableLongLongCol.insert load_column_failing columnID 1 2 = Except.ok c) ∧
    GFitsTableLongLongCol.insert load_column_failing columnUnloaded 1 2 =
      Except.error (GException.fits_error 104) ∧
    columnID.m_length = columnPairs.m_length ∧
    (GFitsTableLongLongCol.insert_alloc alloc_ok load_column_zero columnID 1 1073741824).2 =
      none ∧
    (GFitsTableLongLongCol.insert_alloc alloc_ok load_column_zero columnPairs 1
      1073741824).2 = some Thrown.bad_alloc := by
  refine ⟨rfl, rfl, rfl, rfl, rfl, ⟨_, rfl⟩, rfl, rfl, rfl, rfl⟩

/-- C35 (amended). Two columns of the same length, whatever their repeat
counts and whatever allocator serves each, on the machine:
* each argument error (invalid row of insert, invalid row and invalid nrows
  of remove) ends the call on one column exactly when the same error ends the
  call on the other;
* a call that ends in an argument error leaves the column as it was;
* every other failure of a call is the error of a failed load of a column
  without data or the `bad_alloc` of `new`;
* when neither call ends in one of these two, the two calls end the same
  way: both without error or both with the same error;
* when a load keeps the length and the two calls both succeed or both fail,
  the two resulting lengths are equal.
So two columns of one length cannot reach different lengths through argument
errors. -/
theorem equal_length_columns_agree_on_arguments
    (alloc_a alloc_b : Int → Option (List Int))
    (load_column : GFitsTableLongLongCol → Except Int GFitsTableLongLongCol)
    (a b : GFitsTableLongLongCol) (hlen : a.m_length = b.m_length) (rownum nrows : Int) :
    (∀ origin row max_row,
      (GFitsTableLongLongCol.insert_alloc alloc_a load_column a rownum nrows).2 =
          some (Thrown.exception (GException.fits_invalid_row origin row max_row)) ↔
        (GFitsTableLongLongCol.insert_alloc alloc_b load_column b rownum nrows).2 =
          some (Thrown.exception (GException.fits_invalid_row origin row max_row))) ∧
    (∀ origin row max_row,
      (GFitsTableLongLongCol.remove_alloc alloc_a load_column a rownum nrows).2 =
          some (Thrown.exception (GException.fits_invalid_row origin row max_row)) ↔
        (GFitsTableLongLongCol.remove_alloc alloc_b load_column b rownum nrows).2 =
          some (Thrown.exception (GException.fits_invalid_row origin row max_row))) ∧
    (∀ origin n max_n,
      (GFitsTableLongLongCol.remove_alloc alloc_a load_column a rownum nrows).2 =
          some (Thrown.exception (GException.fits_invalid_nrows origin n max_n)) ↔
        (GFitsTableLongLongCol.remove_alloc alloc_b load_column b rownum nrows).2 =
          some (Thrown.exception (GException.fits_invalid_nrows origin n max_n))) ∧
    (∀ (alloc : Int → Option (List Int)) (c : GFitsTableLongLongCol),
      ((rownum < 0 ∨ rownum > c.m_length) →
        GFitsTableLongLongCol.insert_alloc alloc load_column c rownum nrows =
          (c, some (Thrown.exception
            (GException.fits_invalid_row G_INSERT rownum c.m_length)))) ∧
      ((rownum < 0 ∨ rownum ≥ c.m_length) →
        GFitsTableLongLongCol.remove_alloc alloc load_column c rownum nrows =
          (c, some (Thrown.exception
            (GException.fits_invalid_row G_REMOVE rownum (c.m_length - 1))))) ∧
      (¬ (rownum < 0 ∨ rownum ≥ c.m_length) → (nrows < 0 ∨ nrows > c.m_length - rownum) →
        GFitsTableLongLongCol.remove_alloc alloc load_column c rownum nrows =
          (c, some (Thrown.exception
            (GException.fits_invalid_nrows G_REMOVE nrows (c.m_length - rownum)))))) ∧
    (∀ (alloc : Int → Option (List Int)) (c : GFitsTableLongLongCol) (t : Thrown),
      ((GFitsTableLongLongCol.insert_alloc alloc load_column c rownum nrows).2 = some t →
        t = Thrown.exception (GException.fits_invalid_row G_INSERT rownum c.m_length) ∨
        (∃ status, c.m_data = none ∧ load_column c = Except.error status ∧
          t = Thrown.exception (GException.fits_error status)) ∨
        t = Thrown.bad_alloc) ∧
      ((GFitsTableLongLongCol.remove_alloc alloc load_column c rownum nrows).2 = some t →
        t = Thrown.exception (GException.fits_invalid_row G_REMOVE rownum (c.m_length - 1)) ∨
        t = Thrown.exception
          (GException.fits_invalid_nrows G_REMOVE nrows (c.m_length - rownum)) ∨
        (∃ status, c.m_data = none ∧ load_column c = Except.error status ∧
          t = Thrown.exception (GException.fits_error status)) ∨
        t = Thrown.bad_alloc)) ∧
    ((∀ t, (GFitsTableLongLongCol.insert_alloc alloc_a load_column a rownum nrows).2 = some t ∨
          (GFitsTableLongLongCol.insert_alloc alloc_b load_column b rownum nrows).2 = some t →
        t ≠ Thrown.bad_alloc ∧ ∀ status, t ≠ Thrown.exception (GException.fits_error status)) →
      (GFitsTableLongLongCol.insert_alloc alloc_a load_column a rownum nrows).2 =
        (GFitsTableLongLongCol.insert_alloc alloc_b load_column b rownum nrows).2) ∧
    ((∀ t, (GFitsTableLongLongCol.remove_alloc alloc_a load_column a rownum nrows).2 = some t ∨
          (GFitsTableLongLongCol.remove_alloc alloc_b load_column b rownum nrows).2 = some t →
        t ≠ Thrown.bad_alloc ∧ ∀ status, t ≠ Thrown.exception (GException.fits_error status)) →
      (GFitsTableLongLongCol.remove_alloc alloc_a load_column a rownum nrows).2 =
        (GFitsTableLongLongCol.remove_alloc alloc_b load_column b rownum nrows).2) ∧
    ((∀ c c', load_column c = Except.ok c' → c'.m_length = c.m_length) →
      (((GFitsTableLongLongCol.insert_alloc alloc_a load_column a rownum nrows).2 = none ↔
          (GFitsTableLongLongCol.insert_alloc alloc_b load_column b rownum nrows).2 = none) →
        (GFitsTableLongLongCol.insert_alloc alloc_a load_column a rownum nrows).1.m_length =
          (GFitsTableLongLongCol.insert_alloc alloc_b load_column b rownum nrows).1.m_length) ∧
      (((GFitsTableLongLongCol.remove_alloc alloc_a load_column a rownum nrows).2 = none ↔
          (GFitsTableLongLongCol.remove_alloc alloc_b load_column b rownum nrows).2 = none) →
        (GFitsTableLongLongCol.remove_alloc alloc_a load_column a rownum nrows).1.m_length =
          (GFitsTableLongLongCol.remove_alloc alloc_b load_column b rownum nrows).1.m_length)) := by
  have hIa := GFitsTableLongLongCol.insert_alloc_thrown alloc_a load_column a rownum nrows
  have hIb := GFitsTableLongLongCol.insert_alloc_thrown alloc_b load_column b rownum nrows
  have hRa := GFitsTableLongLongCol.remove_alloc_thrown alloc_a load_column a rownum nrows
  have hRb := GFitsTableLongLongCol.remove_alloc_thrown alloc_b load_column b rownum nrows
  rw [hlen] at hIa hRa
  refine ⟨?_, ?_, ?_, ?_, ?_, ?_, ?_, ?_⟩
  · intro origin row max_row
    rcases hIa with ⟨ga, ha⟩ | ⟨ga, ha⟩ | ⟨ga, sa, _, _, ha⟩ | ⟨ga, ha⟩ <;>
    rcases hIb with ⟨gb, hb⟩ | ⟨gb, hb⟩ | ⟨gb, sb, _, _, hb⟩ | ⟨gb, hb⟩ <;>
    first
      | exact absurd ga gb
      | exact absurd gb ga
      | (rw [ha, hb]; done)
      | (rw [ha, hb]; simp)
  · intro origin row max_row
    rcases hRa with ⟨ga, ha⟩ | ⟨ga, na, ha⟩ | ⟨ga, na, ha⟩ | ⟨ga, na, sa, _, _, ha⟩ |
      ⟨ga, na, ha⟩ <;>
    rcases hRb with ⟨gb, hb⟩ | ⟨gb, nb, hb⟩ | ⟨gb, nb, hb⟩ | ⟨gb, nb, sb, _, _, hb⟩ |
      ⟨gb, nb, hb⟩ <;>
    first
      | exact absurd ga gb
      | exact absurd gb ga
      | exact absurd na nb
      | exact absurd nb na
      | (rw [ha, hb]; done)
      | (rw [ha, hb]; simp)
  · intro origin n max_n
    rcases hRa with ⟨ga, ha⟩ | ⟨ga, na, ha⟩ | ⟨ga, na, ha⟩ | ⟨ga, na, sa, _, _, ha⟩ |
      ⟨ga, na, ha⟩ <;>
    rcases hRb with ⟨gb, hb⟩ | ⟨gb, nb, hb⟩ | ⟨gb, nb, hb⟩ | ⟨gb, nb, sb, _, _, hb⟩ |
      ⟨gb, nb, hb⟩ <;>
    first
      | exact absurd ga gb
      | exact absurd gb ga
      | exact absurd na nb
      | exact absurd nb na
      | (rw [ha, hb]; done)
      | (rw [ha, hb]; simp)
  · intro alloc c
    refine ⟨?_, ?_, ?_⟩
    · intro hg
      unfold GFitsTableLongLongCol.insert_alloc
      rw [if_pos hg]
    · intro hg
      unfold GFitsTableLongLongCol.remove_alloc
      rw [if_pos hg]
    · intro hg hn
      unfold GFitsTableLongLongCol.remove_alloc
      rw [if_neg hg, if_pos hn]
  · intro alloc c t
    constructor
    · intro ht
      rcases GFitsTableLongLongCol.insert_alloc_thrown alloc load_column c rownum nrows with
        ⟨_, h⟩ | ⟨_, h⟩ | ⟨_, status, hd, hl, h⟩ | ⟨_, h⟩
      · rw [h] at ht
        simp only [Option.some.injEq] at ht
        exact Or.inl ht.symm
      · rw [h] at ht
        cases ht
      · rw [h] at ht
        simp only [Option.some.injEq] at ht
        exact Or.inr (Or.inl ⟨status, hd, hl, ht.symm⟩)
      · rw [h] at ht
        simp only [Option.some.injEq] at ht
        exact Or.inr (Or.inr ht.symm)
    · intro ht
      rcases GFitsTableLongLongCol.remove_alloc_thrown alloc load_column c rownum nrows with
        ⟨_, h⟩ | ⟨_, _, h⟩ | ⟨_, _, h⟩ | ⟨_, _, status, hd, hl, h⟩ | ⟨_, _, h⟩
      · rw [h] at ht
        simp only [Option.some.injEq] at ht
        exact Or.inl ht.symm
      · rw [h] at ht
        simp only [Option.some.injEq] at ht
        exact Or.inr (Or.inl ht.symm)
      · rw [h] at ht
        cases ht
      · rw [h] at ht
        simp only [Option.some.injEq] at ht
        exact Or.inr (Or.inr (Or.inl ⟨status, hd, hl, ht.symm⟩))
      · rw [h] at ht
        simp only [Option.some.injEq] at ht
        exact Or.inr (Or.inr (Or.inr ht.symm))
  · intro hno
    rcases hIa with ⟨ga, ha⟩ | ⟨ga, ha⟩ | ⟨ga, sa, _, _, ha⟩ | ⟨ga, ha⟩
    · rcases hIb with ⟨gb, hb⟩ | ⟨gb, hb⟩ | ⟨gb, sb, _, _, hb⟩ | ⟨gb, hb⟩
      · rw [ha, hb]
      · exact absurd ga gb
      · exact absurd ga gb
      · exact absurd ga gb
    · rcases hIb with ⟨gb, hb⟩ | ⟨gb, hb⟩ | ⟨gb, sb, _, _, hb⟩ | ⟨gb, hb⟩
      · exact absurd gb ga
      · rw [ha, hb]
      · exact absurd rfl ((hno _ (Or.inr hb)).2 sb)
      · exact absurd rfl (hno _ (Or.inr hb)).1
    · exact absurd rfl ((hno _ (Or.inl ha)).2 sa)
    · exact absurd rfl (hno _ (Or.inl ha)).1
  · intro hno
    rcases hRa with ⟨ga, ha⟩ | ⟨ga, na, ha⟩ | ⟨ga, na, ha⟩ | ⟨ga, na, sa, _, _, ha⟩ |
      ⟨ga, na, ha⟩
    · rcases hRb with ⟨gb, hb⟩ | ⟨gb, nb, hb⟩ | ⟨gb, nb, hb⟩ | ⟨gb, nb, sb, _, _, hb⟩ |
        ⟨gb, nb, hb⟩
      · rw [ha, hb]
      · exact absurd ga gb
      · exact absurd ga gb
      · exact absurd ga gb
      · exact absurd ga gb
    · rcases hRb with ⟨gb, hb⟩ | ⟨gb, nb, hb⟩ | ⟨gb, nb, hb⟩ | ⟨gb, nb, sb, _, _, hb⟩ |
        ⟨gb, nb, hb⟩
      · exact absurd gb ga
      · rw [ha, hb]
      · exact absurd na nb
      · exact absurd na nb
      · exact absurd na nb
    · rcases hRb with ⟨gb, hb⟩ | ⟨gb, nb, hb⟩ | ⟨gb, nb, hb⟩ | ⟨gb, nb, sb, _, _, hb⟩ |
        ⟨gb, nb, hb⟩
      · exact absurd gb ga
      · exact absurd nb na
      · rw [ha, hb]
      · exact absurd rfl ((hno _ (Or.inr hb)).2 sb)
      · exact absurd rfl (hno _ (Or.inr hb)).1
    · exact absurd rfl ((hno _ (Or.inl ha)).2 sa)
    · exact absurd rfl (hno _ (Or.inl ha)).1
  · intro hload
    constructor
    · intro hiff
      rw [GFitsTableLongLongCol.insert_alloc_length alloc_a load_column hload a rownum nrows,
        GFitsTableLongLongCol.insert_alloc_length alloc_b load_column hload b rownum nrows,
        hlen]
      by_cases hb : (GFitsTableLongLongCol.insert_alloc alloc_b load_column b rownum nrows).2 =
          none
      · rw [if_pos hb, if_pos (hiff.mpr hb)]
      · rw [if_neg hb, if_neg (fun h => hb (hiff.mp h))]
    · intro hiff
      rw [GFitsTableLongLongCol.remove_alloc_length alloc_a load_column hload a rownum nrows,
        GFitsTableLongLongCol.remove_alloc_length alloc_b load_column hload b rownum nrows,
        hlen]
      by_cases hb : (GFitsTableLongLongCol.remove_alloc alloc_b load_column b rownum nrows).2 =
          none
      · rw [if_pos hb, if_pos (hiff.mpr hb)]
      · rw [if_neg hb, if_neg (fun h => hb (hiff.mp h))]

/-- Witness for C35 (amended): the column `ID` (3 rows of 1 element) and the
column `PAIRS` (3 rows of 2 elements), with an allocator that finds storage.
`insert(4, 1)` ends on one with the invalid-row error exactly when it does
on the other, and it does; `remove(1, 3)` likewise with the invalid-nrows
error; and `insert(1, 2)` succeeds on both and gives two columns of the same
length 5. -/
theorem equal_length_columns_agree_on_arguments_witness :
    columnID.m_length = columnPairs.m_length ∧
    (GFitsTableLongLongCol.insert_alloc alloc_ok load_column_zero columnID 4 1).2 =
      some (Thrown.exception (GException.fits_invalid_row G_INSERT 4 3)) ∧
    ((GFitsTableLongLongCol.insert_alloc alloc_ok load_column_zero columnID 4 1).2 =
        some (Thrown.exception (GException.fits_invalid_row G_INSERT 4 3)) ↔
      (GFitsTableLongLongCol.insert_alloc alloc_ok load_column_zero columnPairs 4 1).2 =
        some (Thrown.exception (GException.fits_invalid_row G_INSERT 4 3))) ∧
    ((GFitsTableLongLongCol.remove_alloc alloc_ok load_column_zero columnID 1 3).2 =
        some (Thrown.exception (GException.fits_invalid_nrows G_REMOVE 3 2)) ↔
      (GFitsTableLongLongCol.remove_alloc alloc_ok load_column_zero columnPairs 1 3).2 =
        some (Thrown.exception (GException.fits_invalid_nrows G_REMOVE 3 2))) ∧
    (GFitsTableLongLongCol.insert_alloc alloc_ok load_column_zero columnID 1 2).2 = none ∧
    (GFitsTableLongLongCol.insert_alloc alloc_ok load_column_zero columnPairs 1 2).1.m_data =
      some [1, 2, 0, 0, 0, 0, 3, 4, 5, 6] ∧
    (GFitsTableLongLongCol.insert_alloc alloc_ok load_column_zero columnID 1 2).1.m_length =
      (GFitsTableLongLongCol.insert_alloc alloc_ok load_column_zero columnPairs 1 2).1.m_length :=
  have hload : ∀ c c', load_column_zero c = Except.ok c' → c'.m_length = c.m_length := by
    intro c c' h
    simp only [load_column_zero, Except.ok.injEq] at h
    subst h
    rfl
  have h := equal_length_columns_agree_on_arguments alloc_ok alloc_ok load_column_zero
    columnID columnPairs rfl
  ⟨rfl, rfl, (h 4 1).1 G_INSERT 4 3, (h 1 3).2.2.1 G_REMOVE 3 2, rfl, rfl,
    ((h 1 2).2.2.2.2.2.2.2 hload).1 ⟨fun _ => rfl, fun _ => rfl⟩⟩

/-! ## Lemmas on double -/

namespace Double

theorem bit_length_loop_spec (fuel : Nat) : ∀ m : Nat, m ≤ fuel → 0 < m →
    2 ^ (bit_length_loop fuel m - 1) ≤ m ∧ m < 2 ^ bit_length_loop fuel m ∧
      0 < bit_length_loop fuel m := by
  induction fuel with
  | zero =>
    intro m h1 h2
    omega
  | succ f ih =>
    intro m h1 h2
    unfold bit_length_loop
    rw [if_neg (by omega)]
    by_cases h0 : m / 2 = 0
    · have hm : m = 1 := by omega
      subst hm
      cases f with
      | zero => simp [bit_length_loop]
      | succ g => simp [bit_length_loop]
    · obtain ⟨ha, hb, hc⟩ := ih (m / 2) (by omega) (by omega)
      refine ⟨?_, ?_, by omega⟩
      · rw [Nat.add_sub_cancel]
        have hk : bit_length_loop f (m / 2) = (bit_length_loop f (m / 2) - 1) + 1 := by omega
        rw [hk, pow_succ]
        omega
      · rw [pow_succ]
        omega

/-- The number of binary digits of a positive `m`. -/
theorem bit_length_spec (m : Nat) (h : 0 < m) :
    2 ^ (bit_length m - 1) ≤ m ∧ m < 2 ^ bit_length m ∧ 0 < bit_length m :=
  bit_length_loop_spec m m (le_refl m) h

/-- The quotient that keeps 53 of the binary digits of `m`. -/
theorem quotient_bounds (m k b : Nat) (hb1 : 2 ^ (b - 1) ≤ m) (hb2 : m < 2 ^ b)
    (hk : b = k + 53) :
    2 ^ 52 ≤ m / 2 ^ k ∧ m / 2 ^ k < 2 ^ 53 := by
  have hpos : 0 < 2 ^ k := Nat.pow_pos (by decide)
  constructor
  · rw [Nat.le_div_iff_mul_le hpos, ← pow_add]
    have : 52 + k = b - 1 := by omega
    rw [this]
    exact hb1
  · rw [Nat.div_lt_iff_lt_mul hpos, ← pow_add]
    have : 53 + k = b := by omega
    rw [this]
    exact hb2

/-- The rounding of a number in the range of the normal numbers: the result
is a normal number within the relative error `2^-53` of the number. -/
theorem round_spec (s : Bool) (m : Nat) (e : Int) (hm : 0 < m)
    (hlo : -1074 ≤ e + (bit_length m : Int) - 53) (hhi : e + (bit_length m : Int) ≤ 1023) :
    ∃ (m' : Nat) (e' : Int), round s m e = finite s m' e' ∧ 2 ^ 52 ≤ m' ∧ m' < 2 ^ 53 ∧
      e + (bit_length m : Int) - 53 ≤ e' ∧ e' ≤ e + (bit_length m : Int) - 52 ∧
      |(m' : ℚ) * (2 : ℚ) ^ e' - (m : ℚ) * (2 : ℚ) ^ e| ≤
        (2 : ℚ) ^ (-53 : ℤ) * ((m : ℚ) * (2 : ℚ) ^ e) := by
  obtain ⟨hb1, hb2, hb3⟩ := bit_length_spec m hm
  generalize hbdef : bit_length m = b at hb1 hb2 hb3 hlo hhi
  have h2e : (0 : ℚ) < (2 : ℚ) ^ e := zpow_pos (by norm_num) e
  have hmq : (0 : ℚ) < (m : ℚ) := by exact_mod_cast hm
  unfold round
  rw [if_neg (by omega), hbdef, max_eq_left hlo]
  by_cases ht : e + (b : Int) - 53 ≤ e
  · -- at most 53 digits: the result is exact
    have hsh : (e + (b : Int) - 53 - e).toNat = 0 := by omega
    have hup : (e - (e + (b : Int) - 53)).toNat = 53 - b := by omega
    simp only [ht, if_true, hsh, hup, gt_iff_lt, not_lt.mpr ht, decide_False, Bool.false_and,
      Bool.false_eq_true, if_false]
    have hq1 : 2 ^ 52 ≤ m * 2 ^ (53 - b) := by
      calc 2 ^ 52 = 2 ^ (b - 1) * 2 ^ (53 - b) := by
            rw [← pow_add]
            congr 1
            omega
        _ ≤ m * 2 ^ (53 - b) := Nat.mul_le_mul_right _ hb1
    have hq2 : m * 2 ^ (53 - b) < 2 ^ 53 := by
      calc m * 2 ^ (53 - b) < 2 ^ b * 2 ^ (53 - b) :=
            Nat.mul_lt_mul_of_pos_right hb2 (Nat.pow_pos (by decide))
        _ = 2 ^ 53 := by
            rw [← pow_add]
            congr 1
            omega
    rw [if_neg (by omega), if_neg (by omega), if_neg (by omega)]
    refine ⟨_, _, rfl, hq1, hq2, le_refl _, by omega, ?_⟩
    have hval : ((m * 2 ^ (53 - b) : Nat) : ℚ) * (2 : ℚ) ^ (e + (b : Int) - 53) =
        (m : ℚ) * (2 : ℚ) ^ e := by
      have he : e = (e + (b : Int) - 53) + ((53 - b : Nat) : Int) := by omega
      conv_rhs => rw [he, zpow_add₀ (by norm_num : (2 : ℚ) ≠ 0), zpow_natCast]
      push_cast
      ring
    rw [hval, sub_self, abs_zero]
    positivity
  · -- more than 53 digits: the digits shifted out decide
    have hk : ∃ k : Nat, b = k + 53 ∧ 1 ≤ k := ⟨b - 53, by omega, by omega⟩
    obtain ⟨k, hbk, hk1⟩ := hk
    have hsh : (e + (b : Int) - 53 - e).toNat = k := by omega
    obtain ⟨hq1, hq2⟩ := quotient_bounds m k b hb1 hb2 hbk
    have hdm : m = m / 2 ^ k * 2 ^ k + m % 2 ^ k := by
      rw [Nat.mul_comm]
      exact (Nat.div_add_mod m (2 ^ k)).symm
    have hrlt : m % 2 ^ k < 2 ^ k := Nat.mod_lt _ (Nat.pow_pos (by decide))
    have hhalf : 2 ^ k = 2 * 2 ^ (k - 1) := by
      have : k = (k - 1) + 1 := by omega
      conv_lhs => rw [this, pow_succ]
      ring
    have htq : (2 : ℚ) ^ (e + (b : Int) - 53) = (2 : ℚ) ^ e * ((2 ^ k : Nat) : ℚ) := by
      have he : e + (b : Int) - 53 = e + (k : Int) := by omega
      rw [he, zpow_add₀ (by norm_num : (2 : ℚ) ≠ 0), zpow_natCast]
      push_cast
      ring
    have hbound : (2 : ℚ) ^ e * ((2 ^ (k - 1) : Nat) : ℚ) ≤
        (2 : ℚ) ^ (-53 : ℤ) * ((m : ℚ) * (2 : ℚ) ^ e) := by
      have h1 : ((2 ^ (b - 1) : Nat) : ℚ) ≤ (m : ℚ) := by exact_mod_cast hb1
      have h2 : ((2 ^ (b - 1) : Nat) : ℚ) = (2 : ℚ) ^ (53 : ℤ) * ((2 ^ (k - 1) : Nat) : ℚ) := by
        have : b - 1 = 53 + (k - 1) := by omega
        rw [this, pow_add]
        push_cast
        norm_num
      have h3 : (2 : ℚ) ^ (-53 : ℤ) * (2 : ℚ) ^ (53 : ℤ) = 1 := by
        rw [← zpow_add₀ (by norm_num : (2 : ℚ) ≠ 0)]
        norm_num
      calc (2 : ℚ) ^ e * ((2 ^ (k - 1) : Nat) : ℚ)
          = (2 : ℚ) ^ (-53 : ℤ) * (((2 ^ (b - 1) : Nat) : ℚ) * (2 : ℚ) ^ e) := by
            rw [h2]
            calc (2 : ℚ) ^ e * ((2 ^ (k - 1) : Nat) : ℚ)
                = ((2 : ℚ) ^ (-53 : ℤ) * (2 : ℚ) ^ (53 : ℤ)) *
                    ((2 : ℚ) ^ e * ((2 ^ (k - 1) : Nat) : ℚ)) := by rw [h3, one_mul]
              _ = _ := by ring
        _ ≤ (2 : ℚ) ^ (-53 : ℤ) * ((m : ℚ) * (2 : ℚ) ^ e) := by
            apply mul_le_mul_of_nonneg_left _ (by positivity)
            exact mul_le_mul_of_nonneg_right h1 (le_of_lt h2e)
    simp only [ht, if_false, hsh, gt_iff_lt, not_le.mp ht, decide_True, Bool.true_and]
    generalize hq : m / 2 ^ k = q at hq1 hq2 hdm
    generalize hr : m % 2 ^ k = r at hdm hrlt
    by_cases hupc : (decide (2 ^ (k - 1) < r) || (r == 2 ^ (k - 1) && q % 2 == 1)) = true
    · -- rounded up
      rw [if_pos hupc]
      have hrge : 2 ^ (k - 1) ≤ r := by
        simp only [Bool.or_eq_true, decide_eq_true_eq, Bool.and_eq_true, beq_iff_eq] at hupc
        rcases hupc with h | ⟨h, _⟩
        · omega
        · omega
      have herr : |((q + 1 : Nat) : ℚ) * (2 : ℚ) ^ (e + (b : Int) - 53) - (m : ℚ) * (2 : ℚ) ^ e| ≤
          (2 : ℚ) ^ e * ((2 ^ (k - 1) : Nat) : ℚ) := by
        have hd : ((q + 1 : Nat) : ℚ) * ((2 ^ k : Nat) : ℚ) - (m : ℚ) =
            ((2 ^ k - r : Nat) : ℚ) := by
          have : (q + 1) * 2 ^ k = m + (2 ^ k - r) := by
            rw [Nat.add_mul]
            omega
          have hc : (((q + 1) * 2 ^ k : Nat) : ℚ) = ((m + (2 ^ k - r) : Nat) : ℚ) := by
            rw [this]
          push_cast at hc ⊢
          linarith
        have : ((q + 1 : Nat) : ℚ) * (2 : ℚ) ^ (e + (b : Int) - 53) - (m : ℚ) * (2 : ℚ) ^ e =
            (2 : ℚ) ^ e * ((2 ^ k - r : Nat) : ℚ) := by
          rw [htq, ← hd]
          ring
        rw [this, abs_of_nonneg (by positivity)]
        apply mul_le_mul_of_nonneg_left _ (le_of_lt h2e)
        have : 2 ^ k - r ≤ 2 ^ (k - 1) := by omega
        exact_mod_cast this
      by_cases h53 : q + 1 = 2 ^ 53
      · rw [if_pos h53, if_pos h53, if_neg (by omega)]
        refine ⟨_, _, rfl, le_refl _, by norm_num, by omega, by omega, ?_⟩
        have hsame : ((2 ^ 52 : Nat) : ℚ) * (2 : ℚ) ^ (e + (b : Int) - 53 + 1) =
            ((q + 1 : Nat) : ℚ) * (2 : ℚ) ^ (e + (b : Int) - 53) := by
          rw [h53, zpow_add₀ (by norm_num : (2 : ℚ) ≠ 0)]
          push_cast
          ring
        rw [hsame]
        exact le_trans herr hbound
      · rw [if_neg h53, if_neg h53, if_neg (by omega)]
        exact ⟨_, _, rfl, by omega, by omega, le_refl _, by omega, le_trans herr hbound⟩
    · -- rounded down
      rw [if_neg hupc]
      have hrle : r ≤ 2 ^ (k - 1) := by
        simp only [Bool.or_eq_true, decide_eq_true_eq, Bool.and_eq_true, beq_iff_eq,
          not_or] at hupc
        omega
      have herr : |(q : ℚ) * (2 : ℚ) ^ (e + (b : Int) - 53) - (m : ℚ) * (2 : ℚ) ^ e| ≤
          (2 : ℚ) ^ e * ((2 ^ (k - 1) : Nat) : ℚ) := by
        have hd : (m : ℚ) - (q : ℚ) * ((2 ^ k : Nat) : ℚ) = (r : ℚ) := by
          have hc : ((m : Nat) : ℚ) = ((q * 2 ^ k + r : Nat) : ℚ) := by
            rw [← hdm]
          push_cast at hc ⊢
          linarith
        have : (q : ℚ) * (2 : ℚ) ^ (e + (b : Int) - 53) - (m : ℚ) * (2 : ℚ) ^ e =
            - ((2 : ℚ) ^ e * (r : ℚ)) := by
          rw [htq, ← hd]
          ring
        rw [this, abs_neg, abs_of_nonneg (by positivity)]
        apply mul_le_mul_of_nonneg_left _ (le_of_lt h2e)
        exact_mod_cast hrle
      rw [if_neg (by omega), if_neg (by omega), if_neg (by omega)]
      exact ⟨_, _, rfl, hq1, hq2, le_refl _, by omega, le_trans herr hbound⟩

/-- The sign factor of a `double`. -/
theorem sign_xor (s1 s2 : Bool) :
    ((if xor s1 s2 then -1 else 1 : ℚ)) =
      (if s1 then -1 else 1 : ℚ) * (if s2 then -1 else 1 : ℚ) := by
  cases s1 <;> cases s2 <;> simp

theorem abs_sign (s : Bool) : |(if s then -1 else 1 : ℚ)| = 1 := by
  cases s <;> simp

/-- The product of two normal numbers whose exponents keep it in the range
of the normal numbers: a normal number within the relative error `2^-53` of
the exact product. -/
theorem mul_spec (s1 s2 : Bool) (m1 m2 : Nat) (e1 e2 : Int)
    (h1 : 2 ^ 52 ≤ m1 ∧ m1 < 2 ^ 53) (h2 : 2 ^ 52 ≤ m2 ∧ m2 < 2 ^ 53)
    (hlo : -1074 ≤ e1 + e2 + 52) (hhi : e1 + e2 ≤ 917) :
    ∃ (m' : Nat) (e' : Int),
      mul (finite s1 m1 e1) (finite s2 m2 e2) = finite (xor s1 s2) m' e' ∧
      2 ^ 52 ≤ m' ∧ m' < 2 ^ 53 ∧ e1 + e2 + 52 ≤ e' ∧ e' ≤ e1 + e2 + 54 ∧
      |value (finite (xor s1 s2) m' e') - value (finite s1 m1 e1) * value (finite s2 m2 e2)| ≤
        (2 : ℚ) ^ (-53 : ℤ) * |value (finite s1 m1 e1) * value (finite s2 m2 e2)| := by
  have hlow : 2 ^ 104 ≤ m1 * m2 := by
    calc 2 ^ 104 = 2 ^ 52 * 2 ^ 52 := by norm_num
      _ ≤ m1 * m2 := Nat.mul_le_mul h1.1 h2.1
  have hupp : m1 * m2 < 2 ^ 106 := by
    calc m1 * m2 < 2 ^ 53 * 2 ^ 53 := Nat.mul_lt_mul_of_lt_of_le h1.2 (le_of_lt h2.2) (by norm_num)
      _ = 2 ^ 106 := by norm_num
  have hpos : 0 < m1 * m2 := lt_of_lt_of_le (by norm_num) hlow
  obtain ⟨hb1, hb2, hb3⟩ := bit_length_spec (m1 * m2) hpos
  have hbl : 105 ≤ bit_length (m1 * m2) := by
    by_contra hc
    have : 2 ^ bit_length (m1 * m2) ≤ 2 ^ 104 :=
      Nat.pow_le_pow_right (by decide) (by omega)
    omega
  have hbu : bit_length (m1 * m2) ≤ 106 := by
    by_contra hc
    have : 2 ^ 106 ≤ 2 ^ (bit_length (m1 * m2) - 1) :=
      Nat.pow_le_pow_right (by decide) (by omega)
    omega
  obtain ⟨m', e', hr, hm1, hm2, he1, he2, herr⟩ :=
    round_spec (xor s1 s2) (m1 * m2) (e1 + e2) hpos (by omega) (by omega)
  refine ⟨m', e', ?_, hm1, hm2, by omega, by omega, ?_⟩
  · show round (xor s1 s2) (m1 * m2) (e1 + e2) = _
    exact hr
  · have hprod : value (finite s1 m1 e1) * value (finite s2 m2 e2) =
        (if xor s1 s2 then -1 else 1 : ℚ) * (((m1 * m2 : Nat) : ℚ) * (2 : ℚ) ^ (e1 + e2)) := by
      simp only [value]
      rw [sign_xor, zpow_add₀ (by norm_num : (2 : ℚ) ≠ 0)]
      push_cast
      ring
    have hres : value (finite (xor s1 s2) m' e') =
        (if xor s1 s2 then -1 else 1 : ℚ) * ((m' : ℚ) * (2 : ℚ) ^ e') := by
      simp only [value]
      ring
    have hnn : (0 : ℚ) ≤ ((m1 * m2 : Nat) : ℚ) * (2 : ℚ) ^ (e1 + e2) := by positivity
    rw [hprod, hres, ← mul_sub, abs_mul, abs_mul, abs_sign, one_mul, one_mul,
      abs_of_nonneg hnn]
    exact herr

/-- Two products in a row, by `c1` and then by `c2` with `c1 * c2` within
`2^-54` of 1, on a number of the range `InRange`: the result is a normal
number within the relative error `2^-51` of the number. -/
theorem round_trip_spec (x : Double) (hx : InRange x) (m1 m2 : Nat) (e1 e2 : Int)
    (h1 : 2 ^ 52 ≤ m1 ∧ m1 < 2 ^ 53) (h2 : 2 ^ 52 ≤ m2 ∧ m2 < 2 ^ 53)
    (he1 : -80 ≤ e1 ∧ e1 ≤ -30) (he2 : -80 ≤ e2 ∧ e2 ≤ -30)
    (hc : |value (finite false m1 e1) * value (finite false m2 e2) - 1| ≤ (2 : ℚ) ^ (-54 : ℤ)) :
    IsNormal (mul (mul x (finite false m1 e1)) (finite false m2 e2)) ∧
    |value (mul (mul x (finite false m1 e1)) (finite false m2 e2)) - value x| ≤
      (2 : ℚ) ^ (-51 : ℤ) * |value x| := by
  cases x with
  | infinity s => exact absurd hx (by simp [InRange])
  | nan => exact absurd hx (by simp [InRange])
  | finite s m e =>
    obtain ⟨hxa, hxb, hxc, hxd⟩ := hx
    obtain ⟨my, ey, hy, hy1, hy2, hy3, hy4, hyerr⟩ :=
      mul_spec s false m m1 e e1 ⟨hxa, hxb⟩ h1 (by omega) (by omega)
    obtain ⟨mz, ez, hz, hz1, hz2, hz3, hz4, hzerr⟩ :=
      mul_spec (xor s false) false my m2 ey e2 ⟨hy1, hy2⟩ h2 (by omega) (by omega)
    rw [hy, hz]
    refine ⟨⟨hz1, hz2, by omega, by omega⟩, ?_⟩
    generalize value (finite (xor (xor s false) false) mz ez) = Z at hzerr ⊢
    generalize value (finite (xor s false) my ey) = Y at hyerr hzerr
    generalize value (finite s m e) = X at hyerr ⊢
    generalize value (finite false m1 e1) = C1 at hyerr hc
    generalize value (finite false m2 e2) = C2 at hzerr hc
    have hu : (2 : ℚ) ^ (-53 : ℤ) = 1 / 9007199254740992 := by norm_num
    have hv : (2 : ℚ) ^ (-54 : ℤ) = 1 / 18014398509481984 := by norm_num
    have hw : (2 : ℚ) ^ (-51 : ℤ) = 1 / 2251799813685248 := by norm_num
    rw [hu] at hyerr hzerr
    rw [hv] at hc
    rw [hw]
    have hX : 0 ≤ |X| := abs_nonneg X
    -- |C1 * C2| <= 1 + 2^-54
    have hC : |C1 * C2| ≤ 1 + 1 / 18014398509481984 := by
      have := abs_sub_abs_le_abs_sub (C1 * C2) 1
      rw [abs_one] at this
      linarith
    -- |X * C1 * C2| <= |X| * (1 + 2^-54)
    have hXC : |X * C1 * C2| ≤ |X| * (1 + 1 / 18014398509481984) := by
      rw [mul_assoc, abs_mul]
      exact mul_le_mul_of_nonneg_left hC hX
    -- |Y * C2 - X * C1 * C2| <= 2^-53 * |X * C1 * C2|
    have hYC : |Y * C2 - X * C1 * C2| ≤ 1 / 9007199254740992 * |X * C1 * C2| := by
      have : Y * C2 - X * C1 * C2 = (Y - X * C1) * C2 := by ring
      rw [this, abs_mul]
      have h3 : |X * C1 * C2| = |X * C1| * |C2| := abs_mul _ _
      rw [h3, ← mul_assoc]
      exact mul_le_mul_of_nonneg_right hyerr (abs_nonneg _)
    -- |Y * C2| <= (1 + 2^-53) * |X * C1 * C2|
    have hYC2 : |Y * C2| ≤ (1 + 1 / 9007199254740992) * |X * C1 * C2| := by
      have := abs_sub_abs_le_abs_sub (Y * C2) (X * C1 * C2)
      linarith
    -- |X * C1 * C2 - X| <= |X| * 2^-54
    have hXX : |X * C1 * C2 - X| ≤ |X| * (1 / 18014398509481984) := by
      have : X * C1 * C2 - X = X * (C1 * C2 - 1) := by ring
      rw [this, abs_mul]
      exact mul_le_mul_of_nonneg_left hc hX
    have htri : |Z - X| ≤ |Z - Y * C2| + |Y * C2 - X * C1 * C2| + |X * C1 * C2 - X| := by
      have e1 : Z - X = (Z - Y * C2) + (Y * C2 - X * C1 * C2) + (X * C1 * C2 - X) := by ring
      rw [e1]
      exact le_trans (abs_add _ _) (add_le_add_right (abs_add _ _) _)
    have hnn : 0 ≤ |X * C1 * C2| := abs_nonneg _
    nlinarith [hzerr, hYC, hYC2, hXX, hXC, htri, hX, hnn]

/-- One product by a literal `c`, on a number of the range `InRange`: the
result is within the relative error `2^-53` of the exact product. -/
theorem product_spec (x : Double) (hx : InRange x) (m1 : Nat) (e1 : Int)
    (h1 : 2 ^ 52 ≤ m1 ∧ m1 < 2 ^ 53) (he1 : -80 ≤ e1 ∧ e1 ≤ -30) :
    IsNormal (mul x (finite false m1 e1)) ∧
    |value (mul x (finite false m1 e1)) - value x * value (finite false m1 e1)| ≤
      (2 : ℚ) ^ (-53 : ℤ) * |value x * value (finite false m1 e1)| := by
  cases x with
  | infinity s => exact absurd hx (by simp [InRange])
  | nan => exact absurd hx (by simp [InRange])
  | finite s m e =>
    obtain ⟨hxa, hxb, hxc, hxd⟩ := hx
    obtain ⟨my, ey, hy, hy1, hy2, hy3, hy4, hyerr⟩ :=
      mul_spec s false m m1 e e1 ⟨hxa, hxb⟩ h1 (by omega) (by omega)
    rw [hy]
    exact ⟨⟨hy1, hy2, by omega, by omega⟩, hyerr⟩

theorem value_lit_1e3 : value lit_1e3 = 1000 := by
  simp only [lit_1e3, value]
  norm_num

theorem value_lit_1e6 : value lit_1e6 = 1000000 := by
  simp only [lit_1e6, value]
  norm_num

theorem value_lit_1em3 : value lit_1em3 = 1152921504606847 / 1152921504606846976 := by
  simp only [lit_1em3, value]
  norm_num

theorem value_lit_1em6 : value lit_1em6 = 4722366482869645 / 4722366482869645213696 := by
  simp only [lit_1em6, value]
  norm_num

end Double

/-! ## GEnergy: the units -/

end GammaLib
